import Mathlib

/-!
# nano: service registry, client/context propagation and the HTTP transport

A shallow embedding of `nano.go` and `nano_interfaces.go`, of the HTTP transport under
`addons/transport/http` (error codes, the JSON and protobuf serializers, the listener
and the transport client), of `addons/util/nano_error.go` and of the services of
`examples/example1`.

Go code that reads or writes program state is a function on an explicit `World`;
a panic is a value of `Outcome`.  Pointers (`*Ctx`, the dynamic value behind a
`Service` interface) are addresses.  Every runtime function returns, next to its
result and the new world, the list of calls it made itself (`Event`), each with
the value the callee returned, so that statements about "which hook was invoked,
in which order, with which arguments" can be written down.

Functions of the Go standard library and of third-party packages are parameters
(`GoLib`, `ProtoLib`, `nethttp.Lib`, the router's `refuses`), except for the small pieces
that are modelled concretely (`%x`, `strconv.Quote`, a fragment of `fmt.Sprintf`).  The
goroutine that `NewContext` starts is a step of the world (`World.runWatcher`), taken
when its `select` can proceed.
-/

set_option autoImplicit false

namespace nano

/-! ## Values -/

/-- Result of running a piece of Go code: a normal return or a panic with its message. -/
inductive Outcome (α : Type) where
  | ret (a : α)
  | panic (msg : String)
  deriving DecidableEq, Repr

/-- Go `error` value, identified with what the program observes of it: the text its
`Error()` method returns and, when its dynamic type implements `util.NanoError`, what its
`Code()` method returns (`none` for every other error, such as those made by `errors.New`
and `fmt.Errorf`). -/
structure GoError where
  Error : String
  Code : Option String := none
  deriving DecidableEq, Repr

/-- Address of a heap object. -/
abbrev Addr := Nat

/-- Value of type `context.Context`: the `context.Background()` root or a context
object created by `WithCancel` / `WithDeadline`, named by its index in the world. -/
inductive GoContext where
  | background
  | obj (id : Nat)
  deriving DecidableEq, Repr

/-- The struct `Ctx` of nano_interfaces.go.  `Context` and `Svc` are interface values
(`none` is the nil interface); `Svc` holds the pointer identity of the service.
The defaults are Go's zero value, as produced by `var c2 Ctx`. -/
structure Ctx where
  ReqID : String := ""
  Context : Option GoContext := none
  Svc : Option Addr := none
  ClientName : String := ""
  deriving DecidableEq, Repr

/-! ## Program state -/

/-- A cancellable context created by the standard `context` package. -/
structure ContextObj where
  deadline : Option Nat
  cancelled : Bool
  deriving DecidableEq, Repr

/-- A Go `context.CancelFunc` as produced inside `NewContext`: either the cancel
function of a context object or the closure `func() { close(cancelChan) }`. -/
inductive CancelFunc where
  | cancelCtx (id : Nat)
  | closeChan (ch : Nat)
  deriving DecidableEq, Repr

/-- The goroutine started by `NewContext`, blocked in its `select`: it waits for
`clientContext.Done()` or for `cancelChan` and then calls `cancel`. -/
structure Watcher where
  clientContext : GoContext
  cancelChan : Nat
  cancel : CancelFunc
  deriving DecidableEq, Repr

/-- One call of `crypto/rand.Read`: it fails with an error, or it fills the whole
buffer, byte `i` of the buffer receiving `src i % 256`. -/
inductive RandRead where
  | fail (err : GoError)
  | fill (src : Nat → Nat)

/-- Program state.  `user` is the state owned by the services; the rest is the
state of the nano package and of the standard library pieces it uses. -/
structure World (σ : Type) where
  /-- state owned by service code -/
  user : σ
  /-- package variable `GeneratedReqIDBytesLen` (a Go `int`) -/
  GeneratedReqIDBytesLen : Int
  /-- what the k-th call of `rand.Read` does -/
  rand : Nat → RandRead
  /-- number of calls of `rand.Read` made so far -/
  randCalls : Nat
  /-- heap of `Ctx` objects; a `*Ctx` is an index into it -/
  ctxHeap : List Ctx
  /-- current time -/
  now : Nat
  /-- context objects created so far -/
  contexts : List ContextObj
  /-- channels created by `NewContext`; `true` means closed -/
  chans : List Bool
  /-- goroutines started by `NewContext` -/
  watchers : List Watcher

/-- The initial value of the package variable `GeneratedReqIDBytesLen`. -/
def GeneratedReqIDBytesLen_default : Int := 16

/-! ## Standard library pieces -/

/-- The sixteen lowercase hexadecimal digits used by the verb `%x`. -/
def ldigits : List Char :=
  ['0', '1', '2', '3', '4', '5', '6', '7', '8', '9', 'a', 'b', 'c', 'd', 'e', 'f']

/-- Lowercase hexadecimal digit of a value below sixteen. -/
def hexDigit (d : Nat) : Char := ldigits.getD d '0'

/-- The two characters `%x` prints for one byte. -/
def hexByte (b : Nat) : List Char := [hexDigit (b / 16 % 16), hexDigit (b % 16)]

/-- The text of `fmt.Sprintf("%x", b)` for a byte slice `b`: two lowercase
hexadecimal digits for each byte, in order. -/
def fmtHex (b : List Nat) : String := String.mk (b.flatMap hexByte)

/-- The call `rand.Read(b)`: returns `(n, err)`, the buffer after the call and the
new world.  On success the whole buffer has been overwritten. -/
def randRead {σ : Type} (b : List Nat) (w : World σ) :
    (Nat × Option GoError) × List Nat × World σ :=
  let w1 := { w with randCalls := w.randCalls + 1 }
  match w.rand w.randCalls with
  | .fail err => ((0, some err), b, w1)
  | .fill src => ((b.length, none), (List.range b.length).map (fun i => src i % 256), w1)

/-- The call `context.WithCancel(context.Background())`. -/
def context.WithCancel {σ : Type} (w : World σ) : (GoContext × CancelFunc) × World σ :=
  let id := w.contexts.length
  ((.obj id, .cancelCtx id),
    { w with contexts := w.contexts ++ [{ deadline := none, cancelled := false }] })

/-- The call `context.WithDeadline(context.Background(), d)`: a deadline that has
already passed gives a context that is cancelled from the start. -/
def context.WithDeadline {σ : Type} (d : Nat) (w : World σ) :
    (GoContext × CancelFunc) × World σ :=
  let id := w.contexts.length
  ((.obj id, .cancelCtx id),
    { w with contexts := w.contexts ++ [{ deadline := some d, cancelled := decide (d ≤ w.now) }] })

/-- The method `Deadline()` of a context. -/
def GoContext.Deadline {σ : Type} (w : World σ) : GoContext → Option Nat
  | .background => none
  | .obj id => (w.contexts[id]?).bind (fun o => o.deadline)

/-- Calling a cancel function.  Cancelling a context is idempotent; closing a
channel that is already closed panics. -/
def CancelFunc.call {σ : Type} : CancelFunc → World σ → Outcome Unit × World σ
  | .cancelCtx id, w =>
    match w.contexts[id]? with
    | some o => (.ret (), { w with contexts := w.contexts.set id { o with cancelled := true } })
    | none => (.ret (), w)
  | .closeChan ch, w =>
    match w.chans[ch]? with
    | some false => (.ret (), { w with chans := w.chans.set ch true })
    | some true => (.panic "close of closed channel", w)
    | none => (.panic "close of nil channel", w)

/-- The function `strconv.IsPrint`.  Up to U+00FF the answer is computed as Go does;
beyond, Go consults the tables of the `unicode` package, which are the parameter
`printable`. -/
def strconv.IsPrint (printable : Char → Bool) (r : Char) : Bool :=
  if r.toNat ≤ 0xFF then
    if 0x20 ≤ r.toNat ∧ r.toNat < 0x7F then true
    else if 0xA1 ≤ r.toNat then r.toNat != 0xAD
    else false
  else printable r

/-- What `strconv.Quote` appends for one rune (`appendEscapedRune` with the double quote
as delimiter): a backslash before a double quote or a backslash, the rune itself when it
is printable, and otherwise one of the escapes of Go string-literal notation. -/
def strconv.appendEscapedRune (printable : Char → Bool) (r : Char) : List Char :=
  let bs := Char.ofNat 92
  if r.toNat = 34 ∨ r.toNat = 92 then [bs, r]
  else if strconv.IsPrint printable r then [r]
  else if r.toNat = 7 then [bs, 'a']
  else if r.toNat = 8 then [bs, 'b']
  else if r.toNat = 12 then [bs, 'f']
  else if r.toNat = 10 then [bs, 'n']
  else if r.toNat = 13 then [bs, 'r']
  else if r.toNat = 9 then [bs, 't']
  else if r.toNat = 11 then [bs, 'v']
  else if r.toNat < 0x20 ∨ r.toNat = 0x7F then
    [bs, 'x', hexDigit (r.toNat / 16 % 16), hexDigit (r.toNat % 16)]
  else if r.toNat < 0x10000 then
    [bs, 'u', hexDigit (r.toNat / 4096 % 16), hexDigit (r.toNat / 256 % 16),
      hexDigit (r.toNat / 16 % 16), hexDigit (r.toNat % 16)]
  else
    [bs, 'U', hexDigit (r.toNat / 268435456 % 16), hexDigit (r.toNat / 16777216 % 16),
      hexDigit (r.toNat / 1048576 % 16), hexDigit (r.toNat / 65536 % 16),
      hexDigit (r.toNat / 4096 % 16), hexDigit (r.toNat / 256 % 16),
      hexDigit (r.toNat / 16 % 16), hexDigit (r.toNat % 16)]

/-- The function `strconv.Quote`, which is what the verb `%q` prints for a string: the
escaped runes between two double quotes.  Strings are valid UTF-8 here. -/
def strconv.Quote (printable : Char → Bool) (s : String) : String :=
  String.mk (Char.ofNat 34 :: (s.data.flatMap (strconv.appendEscapedRune printable)
    ++ [Char.ofNat 34]))

/-- A name that `%q` prints unchanged between double quotes: printable ASCII characters
other than the double quote and the backslash. -/
def plainName (s : String) : Prop :=
  ∀ ch ∈ s.data, 0x20 ≤ ch.toNat ∧ ch.toNat < 0x7F ∧ ch.toNat ≠ 34 ∧ ch.toNat ≠ 92

/-! ## nano.go -/

/-- The default `NewReqID`: `make([]byte, GeneratedReqIDBytesLen)` (which panics for
a negative length; memory is taken to be unbounded), `rand.Read`, and on success
`fmt.Sprintf("%x", reqIDBytes)`. -/
def NewReqID {σ : Type} (w : World σ) : Outcome (String × Option GoError) × World σ :=
  if w.GeneratedReqIDBytesLen < 0 then
    (.panic "runtime error: makeslice: len out of range", w)
  else
    let reqIDBytes := List.replicate w.GeneratedReqIDBytesLen.toNat 0
    match randRead reqIDBytes w with
    | ((_, some err), _, w1) =>
      (.ret ("", some { Error := "error generating request ID :: " ++ err.Error }), w1)
    | ((_, none), reqIDBytes, w1) => (.ret (fmtHex reqIDBytes, none), w1)

/-- The default `NewContext`.  The new context always starts from
`context.Background()`; the goroutine is recorded in the world as a `Watcher`. -/
def NewContext {σ : Type} (clientContext : Option GoContext) (w : World σ) :
    (GoContext × CancelFunc) × World σ :=
  match clientContext with
  | none => context.WithCancel w
  | some cc =>
    let r := match cc.Deadline w with
      | some deadline => context.WithDeadline deadline w
      | none => context.WithCancel w
    let cancelChan := r.2.chans.length
    ((r.1.1, .closeChan cancelChan),
      { r.2 with
        chans := r.2.chans ++ [false]
        watchers := r.2.watchers ++ [{ clientContext := cc, cancelChan := cancelChan, cancel := r.1.2 }] })

/-! ## nano_interfaces.go -/

/-- The interface `Client`.  A nil `*Ctx` and a nil request are `none`. -/
structure Client (σ V : Type) where
  Request : Option Addr → Option V → World σ → Outcome (Option V × Option GoError) × World σ

/-- The interface `ClientSet`; `LookupClient` may panic. -/
structure ClientSet (σ V : Type) where
  LookupClient : String → Outcome (Client σ V)

/-- A value of the interface `Service`, together with the optional interfaces
`ServiceInit` and `ServiceInitFinished` its dynamic type may implement (the type
assertions `svc.(ServiceInit)` and `svc.(ServiceInitFinished)` succeed exactly when
the field is `some`).  `ptr` is the identity of the dynamic value, which is what
`==` on interface values compares.  `Handle` receives the `*Ctx` as an address. -/
structure Service (σ V : Type) where
  ptr : Addr
  Name : String
  Handle : Addr → Option V → World σ → Outcome (Option V × Option GoError) × World σ
  Init : Option (ClientSet σ V → World σ → Outcome (Option GoError) × World σ)
  InitFinished : Option (World σ → Outcome (Option GoError) × World σ)

/-- The interface `ServiceSet`. -/
structure ServiceSet (σ V : Type) where
  LookupService : String → Option (Service σ V) × Option GoError

/-! ## Calls made by the runtime -/

/-- A call made by one of the functions of nano.go, with what the callee returned. -/
inductive Event (V : Type) where
  | NewReqID (res : Outcome (String × Option GoError))
  | NewContext (clientContext : Option GoContext) (c : GoContext) (cancel : CancelFunc)
  | Handle (svc : Addr) (c : Addr) (ctx : Ctx) (req : Option V)
      (res : Outcome (Option V × Option GoError))
  | cancel (f : CancelFunc) (res : Outcome Unit)
  | Init (svc : Addr) (name : String) (res : Outcome (Option GoError))
  | InitFinished (svc : Addr) (name : String) (res : Outcome (Option GoError))

/-- Whether the event is a call of `Service.Handle`. -/
def Event.isHandle {V : Type} : Event V → Bool
  | .Handle _ _ _ _ _ => true
  | _ => false

/-- Whether the event is a call of `NewReqID`. -/
def Event.isNewReqID {V : Type} : Event V → Bool
  | .NewReqID _ => true
  | _ => false

/-- Whether the event is a call of `NewContext`. -/
def Event.isNewContext {V : Type} : Event V → Bool
  | .NewContext _ _ _ => true
  | _ => false

/-- Whether the event is a call of `ServiceInit.Init`. -/
def Event.isInit {V : Type} : Event V → Bool
  | .Init _ _ _ => true
  | _ => false

/-- Whether the event is a call of `ServiceInitFinished.InitFinished`. -/
def Event.isInitFinished {V : Type} : Event V → Bool
  | .InitFinished _ _ _ => true
  | _ => false

/-- Whether the event is a call of `Init` or `InitFinished` that returned a nil error. -/
def Event.hookSucceeded {V : Type} : Event V → Bool
  | .Init _ _ (.ret none) => true
  | .InitFinished _ _ (.ret none) => true
  | _ => false

/-! ## client -/

/-- The struct `client`; `svc` is an interface value and may be nil. -/
structure client (σ V : Type) where
  svc : Option (Service σ V)
  ownerName : String

/-- Lines 226 to 229 of `client.Request`: `var c2 Ctx; if c != nil { c2 = *c }`.
The result is `none` when `c` does not point into the heap. -/
def client.Request.copy {σ : Type} (w : World σ) : Option Addr → Option Ctx
  | none => some {}
  | some a => w.ctxHeap[a]?

/-- Lines 237 to 242 of `client.Request`, entered with the copy `c2` whose `ReqID`
has been settled: `NewContext`, the assignment of `Svc` and `ClientName`, the call
`p.svc.Handle(&c2, req)` and the deferred `cancel()`, which runs whether `Handle`
returns or panics.  `&c2` is a fresh heap cell. -/
def client.Request.invoke {σ V : Type} (p : client σ V) (c2 : Ctx) (req : Option V)
    (w : World σ) : Outcome (Option V × Option GoError) × World σ × List (Event V) :=
  let nc := NewContext c2.Context w
  let cancel := nc.1.2
  let c3 : Ctx :=
    { c2 with Context := some nc.1.1, Svc := p.svc.map (fun s => s.ptr), ClientName := p.ownerName }
  let a := nc.2.ctxHeap.length
  let w1 := { nc.2 with ctxHeap := nc.2.ctxHeap ++ [c3] }
  let h : Outcome (Option V × Option GoError) × World σ :=
    match p.svc with
    | none => (.panic "runtime error: invalid memory address or nil pointer dereference", w1)
    | some svc => svc.Handle a req w1
  let calls : List (Event V) :=
    match p.svc with
    | none => []
    | some svc => [Event.Handle svc.ptr a c3 req h.1]
  let d := cancel.call h.2
  let trace := Event.NewContext c2.Context nc.1.1 cancel :: (calls ++ [Event.cancel cancel d.1])
  match d.1 with
  | .ret _ => (h.1, d.2, trace)
  | .panic m => (.panic m, d.2, trace)

/-- The method `(*client).Request`.  Dereferencing a pointer that does not point
into the heap panics. -/
def client.Request {σ V : Type} (p : client σ V) (c : Option Addr) (req : Option V)
    (w : World σ) : Outcome (Option V × Option GoError) × World σ × List (Event V) :=
  match client.Request.copy w c with
  | none => (.panic "runtime error: invalid memory address or nil pointer dereference", w, [])
  | some c2 =>
    if c2.ReqID = "" then
      match NewReqID w with
      | (.panic m, w1) => (.panic m, w1, [Event.NewReqID (.panic m)])
      | (.ret (id, some err), w1) =>
        (.ret (none, some err), w1, [Event.NewReqID (.ret (id, some err))])
      | (.ret (id, none), w1) =>
        let r := client.Request.invoke p { c2 with ReqID := id } req w1
        (r.1, r.2.1, Event.NewReqID (.ret (id, none)) :: r.2.2)
    else
      client.Request.invoke p c2 req w

/-- The default `NewClient`, as a value of the interface `Client`. -/
def NewClient {σ V : Type} (svc : Option (Service σ V)) (ownerName : String) : Client σ V :=
  let p : client σ V := { svc := svc, ownerName := ownerName }
  { Request := fun c req w => let r := p.Request c req w; (r.1, r.2.1) }

/-! ## serviceSet and clientSet -/

/-- A Go `map[string]T`: the bindings, newest first, at most one for each key. -/
abbrev GoMap (α : Type) := List (String × α)

/-- The assignment `m[k] = v`. -/
def GoMap.set {α : Type} (m : GoMap α) (k : String) (v : α) : GoMap α :=
  (k, v) :: m.filter (fun e => e.1 != k)

/-- The lookup `v, ok := m[k]`. -/
def GoMap.get? {α : Type} (m : GoMap α) (k : String) : Option α :=
  (m.find? (fun e => e.1 == k)).map (fun e => e.2)

/-- The type `serviceSet`, a `map[string]Service`. -/
abbrev serviceSet (σ V : Type) := GoMap (Service σ V)

/-- The method `serviceSet.LookupService`. -/
def serviceSet.LookupService {σ V : Type} (p : serviceSet σ V) (svcName : String) :
    Option (Service σ V) × Option GoError :=
  match GoMap.get? p svcName with
  | none => (none, some { Error := "service not found: " ++ svcName })
  | some svc => (some svc, none)

/-- A `serviceSet` as a value of the interface `ServiceSet`. -/
def serviceSet.toServiceSet {σ V : Type} (p : serviceSet σ V) : ServiceSet σ V :=
  { LookupService := p.LookupService }

/-- The struct `clientSet`. -/
structure clientSet (σ V : Type) where
  ss : ServiceSet σ V
  ownerName : String

/-- The method `(*clientSet).LookupClient`. -/
def clientSet.LookupClient {σ V : Type} (printable : Char → Bool) (p : clientSet σ V)
    (svcName : String) : Outcome (Client σ V) :=
  match p.ss.LookupService svcName with
  | (_, some err) =>
    .panic ("service " ++ strconv.Quote printable p.ownerName ++ " failed to lookup client " ++ strconv.Quote printable svcName
      ++ " :: " ++ err.Error)
  | (svc, none) => .ret (NewClient svc p.ownerName)

/-- The default `NewClientSet`, as a value of the interface `ClientSet`. -/
def NewClientSet {σ V : Type} (printable : Char → Bool) (ss : ServiceSet σ V)
    (ownerName : String) : ClientSet σ V :=
  let p : clientSet σ V := { ss := ss, ownerName := ownerName }
  { LookupClient := clientSet.LookupClient printable p }

/-! ## NewServiceSet -/

/-- The first loop of `NewServiceSet`: every service is stored under its name. -/
def NewServiceSet.index {σ V : Type} : List (Service σ V) → serviceSet σ V → serviceSet σ V
  | [], ss => ss
  | svc :: rest, ss => NewServiceSet.index rest (GoMap.set ss svc.Name svc)

/-- The second loop of `NewServiceSet`: `Init` of every service that implements
`ServiceInit`, in the order of the argument list; a non-nil error panics. -/
def NewServiceSet.initLoop {σ V : Type} (printable : Char → Bool) (ss : serviceSet σ V) :
    List (Service σ V) → World σ → Outcome Unit × World σ × List (Event V)
  | [], w => (.ret (), w, [])
  | svc :: rest, w =>
    match svc.Init with
    | none => NewServiceSet.initLoop printable ss rest w
    | some init =>
      let r := init (NewClientSet printable ss.toServiceSet svc.Name) w
      match r.1 with
      | .panic m => (.panic m, r.2, [Event.Init svc.ptr svc.Name r.1])
      | .ret (some err) =>
        (.panic ("error initialising service " ++ strconv.Quote printable svc.Name ++ " :: " ++ err.Error), r.2,
          [Event.Init svc.ptr svc.Name r.1])
      | .ret none =>
        let t := NewServiceSet.initLoop printable ss rest r.2
        (t.1, t.2.1, Event.Init svc.ptr svc.Name r.1 :: t.2.2)

/-- The third loop of `NewServiceSet`: `InitFinished` of every service that
implements `ServiceInitFinished`, in the order of the argument list. -/
def NewServiceSet.initFinishedLoop {σ V : Type} (printable : Char → Bool) :
    List (Service σ V) → World σ → Outcome Unit × World σ × List (Event V)
  | [], w => (.ret (), w, [])
  | svc :: rest, w =>
    match svc.InitFinished with
    | none => NewServiceSet.initFinishedLoop printable rest w
    | some initFinished =>
      let r := initFinished w
      match r.1 with
      | .panic m => (.panic m, r.2, [Event.InitFinished svc.ptr svc.Name r.1])
      | .ret (some err) =>
        (.panic ("InitFinished error in service " ++ strconv.Quote printable svc.Name ++ " :: " ++ err.Error), r.2,
          [Event.InitFinished svc.ptr svc.Name r.1])
      | .ret none =>
        let t := NewServiceSet.initFinishedLoop printable rest r.2
        (t.1, t.2.1, Event.InitFinished svc.ptr svc.Name r.1 :: t.2.2)

/-- The default `NewServiceSet`. -/
def NewServiceSet {σ V : Type} (printable : Char → Bool) (services : List (Service σ V))
    (w : World σ) : Outcome (serviceSet σ V) × World σ × List (Event V) :=
  let ss := NewServiceSet.index services []
  let i := NewServiceSet.initLoop printable ss services w
  match i.1 with
  | .panic m => (.panic m, i.2.1, i.2.2)
  | .ret _ =>
    let f := NewServiceSet.initFinishedLoop printable services i.2.1
    match f.1 with
    | .panic m => (.panic m, f.2.1, i.2.2 ++ f.2.2)
    | .ret _ => (.ret ss, f.2.1, i.2.2 ++ f.2.2)

/-! ## Sample inputs -/

/-- A handler that records nothing and returns `(nil, nil)`, as in the tests. -/
def sampleHandle : Addr → Option String → World Unit →
    Outcome (Option String × Option GoError) × World Unit :=
  fun _ _ w => (.ret (none, none), w)

/-- The service `svc1` of the tests: no optional interface. -/
def svc1 : Service Unit String :=
  { ptr := 1, Name := "svc1", Handle := sampleHandle, Init := none, InitFinished := none }

/-- The service `svc2` of `TestNewServiceSet`: it implements `ServiceInit`. -/
def svc2 : Service Unit String :=
  { ptr := 2, Name := "svc2", Handle := sampleHandle,
    Init := some (fun _ w => (.ret none, w)), InitFinished := none }

/-- The service `svc3` of `TestNewServiceSet`: it implements `ServiceInitFinished`. -/
def svc3 : Service Unit String :=
  { ptr := 3, Name := "svc3", Handle := sampleHandle,
    Init := none, InitFinished := some (fun w => (.ret none, w)) }

/-- The service `svc4` of `TestNewServiceSet`: it implements both optional interfaces. -/
def svc4 : Service Unit String :=
  { ptr := 4, Name := "svc4", Handle := sampleHandle,
    Init := some (fun _ w => (.ret none, w)), InitFinished := some (fun w => (.ret none, w)) }

/-- A service whose `Init` returns an error. -/
def svcBadInit : Service Unit String :=
  { ptr := 5, Name := "bad", Handle := sampleHandle,
    Init := some (fun _ w => (.ret (some { Error := "boom" }), w)),
    InitFinished := some (fun w => (.ret none, w)) }

/-- A service whose `Init` succeeds and whose `InitFinished` returns an error. -/
def svcBadInitFinished : Service Unit String :=
  { ptr := 7, Name := "late", Handle := sampleHandle,
    Init := some (fun _ w => (.ret none, w)),
    InitFinished := some (fun w => (.ret (some { Error := "bang" }), w)) }

/-- A second service that calls itself `svc1`. -/
def svc1b : Service Unit String :=
  { ptr := 6, Name := "svc1", Handle := sampleHandle, Init := none, InitFinished := none }

/-- The `Ctx` passed by `TestClient_Request_With_Ctx`. -/
def inputCtx : Ctx :=
  { ReqID := "MyReqID", Context := some .background, Svc := some 99, ClientName := "ignored" }

/-- A world whose heap holds `inputCtx` at address 0 and an empty `Ctx` at address 1,
and in which `rand.Read` succeeds. -/
def sampleWorld : World Unit :=
  { user := (), GeneratedReqIDBytesLen := GeneratedReqIDBytesLen_default,
    rand := fun _ => .fill (fun i => 37 * i + 5), randCalls := 0,
    ctxHeap := [inputCtx, {}], now := 0, contexts := [], chans := [], watchers := [] }

/-- The same world with a failing randomness source. -/
def failingWorld : World Unit :=
  { sampleWorld with rand := fun _ => .fail { Error := "entropy source unavailable" } }

/-- A table that holds no rune beyond U+00FF to be printable. -/
def noWidePrintable : Char → Bool := fun _ => false


/-! ## addons/transport/http/config/error_codes.go -/

/-- The constant `ErrorCodeBadRequest`. -/
def config.ErrorCodeBadRequest : String := "C-BAD-REQUEST"

/-- The constant `ErrorCodeNotFound`. -/
def config.ErrorCodeNotFound : String := "C-NOT-FOUND"

/-- The constant `ErrorCodeBadRequestContentType`. -/
def config.ErrorCodeBadRequestContentType : String := "C-BAD-CONTENT-TYPE"

/-- The constant `ErrorCodeServerError`. -/
def config.ErrorCodeServerError : String := "S-ERROR"

/-- The constant `ClientErrorCodePrefix`. -/
def config.ClientErrorCodePrefix : String := "C-"

/-- The constant `ServerErrorCodePrefix`. -/
def config.ServerErrorCodePrefix : String := "S-"

/-- The function `strings.HasPrefix`. -/
def strings.HasPrefix (s pfx : String) : Bool := pfx.data.isPrefixOf s.data

/-- The map `codeToStatus`. -/
def config.codeToStatus : GoMap Nat :=
  [(config.ErrorCodeBadRequest, 400), (config.ErrorCodeNotFound, 404),
   (config.ErrorCodeBadRequestContentType, 415)]

/-- The default `ErrorCodeToHTTPStatus`. -/
def config.ErrorCodeToHTTPStatus (code : String) : Nat :=
  match GoMap.get? config.codeToStatus code with
  | some status => status
  | none => if strings.HasPrefix code config.ClientErrorCodePrefix then 400 else 500

/-! ## addons/util/nano_error.go -/

/-- The variable `ErrMsgChainSeparator`, at its initial value. -/
def util.ErrMsgChainSeparator : String := " :: "

/-- The struct `nanoError`; `cause` is a value of the interface `error`, nil being `none`. -/
structure util.nanoError where
  cause : Option GoError
  code : String
  msg : String

/-- The method `(*nanoError).Error`. -/
def util.nanoError.Error (p : util.nanoError) : String :=
  match p.cause with
  | some cause => p.msg ++ util.ErrMsgChainSeparator ++ cause.Error
  | none => p.msg

/-- The method `(*nanoError).Code`. -/
def util.nanoError.Code (p : util.nanoError) : String := p.code

/-- A `*nanoError` as a value of the interfaces `error` and `NanoError`. -/
def util.nanoError.toError (p : util.nanoError) : GoError :=
  { Error := p.Error, Code := some p.Code }

/-- The function `GetErrCode`, for a non-nil error: the type assertion
`err.(NanoError)` succeeds exactly when the error has a `Code` method. -/
def util.GetErrCode (err : GoError) : String :=
  match err.Code with
  | some code => code
  | none => ""

/-- The function `ErrCode`. -/
def util.ErrCode (cause : Option GoError) (code msg : String) : GoError :=
  let e : util.nanoError := { cause := cause, code := code, msg := msg }
  match cause with
  | some c => (if e.code = "" then { e with code := util.GetErrCode c } else e).toError
  | none => e.toError

/-- The function `Err`. -/
def util.Err (cause : Option GoError) (msg : String) : GoError := util.ErrCode cause "" msg

/-! ## Values with a dynamic type -/

/-- A value of `reflect.Type`: a named type or the type of pointers to a type. -/
inductive GoType where
  | named (name : String)
  | ptr (elem : GoType)
  deriving DecidableEq, Repr

/-- A non-nil value of type `interface{}`: its dynamic type and its content.  For a
pointer the content is that of the object pointed to. -/
structure GoValue (D : Type) where
  typ : GoType
  data : D
  deriving DecidableEq, Repr

/-- The function `reflect.TypeOf`, which is nil for a nil interface value. -/
def reflect.TypeOf {D : Type} (v : Option (GoValue D)) : Option GoType := v.map (fun x => x.typ)

/-- The function `reflect.PtrTo`. -/
def reflect.PtrTo (t : GoType) : GoType := .ptr t

/-- The expression `reflect.New(t).Interface()`: a pointer to a new zero value of `t`;
`zero` gives the zero value of each type. -/
def reflect.New {D : Type} (zero : GoType → D) (t : GoType) : GoValue D :=
  { typ := .ptr t, data := zero t }

/-! ## addons/transport/http/config/config.go -/

/-- The struct `EndpointConfig`.  `ReqType` is never nil in this model; a nil `RespType`
is `none`. -/
structure config.EndpointConfig where
  Method : String
  Path : String
  HasReqContent : Bool
  ReqType : GoType
  RespType : Option GoType
  deriving DecidableEq, Repr

/-- The struct `ServiceConfig`. -/
structure config.ServiceConfig where
  ServiceName : String
  Endpoints : List config.EndpointConfig
  deriving DecidableEq, Repr

/-! ## Pieces of `net/http`, `io`, `fmt`, `mime` and `encoding/json` -/

/-- The type `http.Header`, a `map[string][]string`.  Keys are written in canonical form
throughout, as the constants of the serializers are. -/
abbrev nethttp.Header := GoMap (List String)

/-- The method `Header.Set`. -/
def nethttp.Header.Set (h : nethttp.Header) (key value : String) : nethttp.Header :=
  GoMap.set h key [value]

/-- The method `Header.Get`: the first value stored under the key, or the empty string. -/
def nethttp.Header.Get (h : nethttp.Header) (key : String) : String :=
  match GoMap.get? h key with
  | some (v :: _) => v
  | _ => ""

/-- A request or response body, an `io.ReadCloser`: the bytes it yields and how the
stream ends, with `io.EOF` (`none`) or with an error of the connection, of which `err` is
the text.  Such an error does not implement `util.NanoError`. -/
structure nethttp.Body where
  data : List Nat
  err : Option String
  deriving DecidableEq, Repr

/-- The error result of a `Read`: `io.EOF` or another error. -/
inductive io.ReadErr where
  | EOF
  | other (text : String)
  deriving DecidableEq, Repr

/-- The function `ioutil.ReadAll`: everything read, and the error unless it is `io.EOF`. -/
def ioutil.ReadAll (b : nethttp.Body) : List Nat × Option GoError :=
  (b.data, b.err.map (fun t => { Error := t }))

/-- The call `Body.Read(buf)` with a buffer of one byte, on a body not read before. -/
def nethttp.Body.Read1 (b : nethttp.Body) : Nat × Option io.ReadErr :=
  match b.data with
  | _ :: _ => (1, none)
  | [] =>
    match b.err with
    | none => (0, some .EOF)
    | some t => (0, some (.other t))

/-- The fields of `http.Request` that the serializers read. -/
structure nethttp.Request where
  Header : nethttp.Header
  Body : nethttp.Body
  ContentLength : Int

/-- The fields of `http.Response` that the serializers read. -/
structure nethttp.Response where
  StatusCode : Nat
  Status : String
  Header : nethttp.Header
  Body : nethttp.Body
  ContentLength : Int

/-- An `http.ResponseWriter`: the header map, the status passed to the first
`WriteHeader`, the bytes written, and the error `Write` returns when the connection is
broken (`none` when writes succeed). -/
structure nethttp.ResponseWriter where
  header : nethttp.Header
  status : Option Nat
  body : List Nat
  writeErr : Option String
  deriving DecidableEq, Repr

/-- The call `w.Header().Set(key, value)`. -/
def nethttp.ResponseWriter.SetHeader (w : nethttp.ResponseWriter) (key value : String) :
    nethttp.ResponseWriter :=
  { w with header := w.header.Set key value }

/-- The method `WriteHeader`: only the first call sets the status. -/
def nethttp.ResponseWriter.WriteHeader (w : nethttp.ResponseWriter) (code : Nat) :
    nethttp.ResponseWriter :=
  match w.status with
  | some _ => w
  | none => { w with status := some code }

/-- The method `Write`: it calls `WriteHeader(200)` when the status is not yet set. -/
def nethttp.ResponseWriter.Write (w : nethttp.ResponseWriter) (b : List Nat) :
    nethttp.ResponseWriter × Option GoError :=
  let w1 := w.WriteHeader 200
  match w1.writeErr with
  | some t => (w1, some { Error := t })
  | none => ({ w1 with body := w1.body ++ b }, none)

/-- The struct `ErrorResponse` of the JSON serializer. -/
structure json.ErrorResponse where
  Code : String := ""
  Msg : String := ""
  deriving DecidableEq, Repr

/-- An argument handed to a formatting function. -/
inductive FmtArg (D : Type) where
  | str (s : String)
  | typ (t : Option GoType)
  | iface (v : Option (GoValue D))
  | slice (xs : List (FmtArg D))

/-- The functions of the Go standard library that the transport calls and that are not
modelled here; `D` is the content of the request and response objects.  The `json`
functions are given for `interface{}` values and for `ErrorResponse`. -/
structure GoLib (D : Type) where
  /-- `fmt.Sprintf` -/
  Sprintf : String → List (FmtArg D) → String
  /-- `mime.ParseMediaType`: the media type and its parameters, or an error -/
  ParseMediaType : String → Except GoError (String × GoMap String)
  /-- `strings.ToLower` -/
  ToLower : String → String
  /-- `json.Marshal` of a request or response object -/
  Marshal : Option (GoValue D) → Except GoError (List Nat)
  /-- `json.Unmarshal` into the object a pointer points to: the object after the call -/
  Unmarshal : List Nat → GoValue D → Except GoError (GoValue D)
  /-- `json.Marshal` of an `*ErrorResponse` -/
  MarshalErrorResponse : json.ErrorResponse → Except GoError (List Nat)
  /-- `json.Unmarshal` into a new `ErrorResponse` -/
  UnmarshalErrorResponse : List Nat → Except GoError json.ErrorResponse
  /-- zero value of a type -/
  zero : GoType → D

/-- The function `util.ErrCodef`.  The source passes the slice `a` to `fmt.Sprintf` as
one argument (`fmt.Sprintf(format, a)`). -/
def util.ErrCodef {D : Type} (lib : GoLib D) (cause : Option GoError) (code format : String)
    (a : List (FmtArg D)) : GoError :=
  util.ErrCode cause code (lib.Sprintf format [FmtArg.slice a])

/-- The function `util.Errf`, which passes the slice `a` to `ErrCodef` as one argument
(`ErrCodef(cause, "", format, a)`). -/
def util.Errf {D : Type} (lib : GoLib D) (cause : Option GoError) (format : String)
    (a : List (FmtArg D)) : GoError :=
  util.ErrCodef lib cause "" format [FmtArg.slice a]

/-! ## addons/transport/http/serialization/serializer.go -/

/-- The struct `ReqInfo`. -/
structure serialization.ReqInfo where
  ReqID : String := ""
  ClientName : String := ""
  deriving DecidableEq, Repr

/-- The struct `ServerSideSerializer`: the interfaces `ReqDeserializer` and
`RespSerializer`.  The `*nano.Ctx` argument is passed as the `Ctx` it points to, `none`
for nil; the response writer is passed and returned. -/
structure serialization.ServerSideSerializer (D : Type) where
  DeserializeRequest : config.EndpointConfig → nethttp.Request →
    Option (GoValue D) × serialization.ReqInfo × Option GoError
  SerializeResponse : config.EndpointConfig → Option Ctx → nethttp.ResponseWriter →
    nethttp.Request → Option (GoValue D) → Option GoError →
    Option GoError × nethttp.ResponseWriter

/-! ## addons/transport/http/serialization/json/json_serializer.go -/

/-- The constant `HeaderReqID`. -/
def json.HeaderReqID : String := "X-Nano-Req-Id"

/-- The constant `HeaderClientName`. -/
def json.HeaderClientName : String := "X-Nano-Client-Name"

/-- The method `reqSerializer.SerializeRequest`: the header map, the body and the error.
`c` is the `Ctx` the caller's pointer points to. -/
def json.reqSerializer.SerializeRequest {D : Type} (lib : GoLib D)
    (ec : config.EndpointConfig) (c : Ctx) (req : Option (GoValue D)) :
    nethttp.Header × List Nat × Option GoError :=
  let m : List Nat × Option GoError :=
    if ec.HasReqContent then
      match lib.Marshal req with
      | .ok body => (body, none)
      | .error err => ([], some (util.Err (some err) "error marshaling request"))
    else ([], none)
  match m.2 with
  | some err => ([], m.1, some err)
  | none =>
    let h : nethttp.Header := []
    let h := if ec.HasReqContent then h.Set "Content-Type" "application/json; charset=utf-8"
      else h
    let h := if c.ReqID ≠ "" then h.Set json.HeaderReqID c.ReqID else h
    let h := if c.ClientName ≠ "" then h.Set json.HeaderClientName c.ClientName else h
    (h, m.1, none)

/-- Lines 67 to 90 of `reqDeserializer.DeserializeRequest`: the check of the
`Content-Type` header, made when the endpoint has request content.  The result is the
error with which `DeserializeRequest` returns, or `none` when it goes on. -/
def json.reqDeserializer.DeserializeRequest.contentType {D : Type} (lib : GoLib D)
    (ec : config.EndpointConfig) (r : nethttp.Request) : Option GoError :=
  if ec.HasReqContent then
    let ct := r.Header.Get "Content-Type"
    if ct = "" then
      some (util.ErrCode none config.ErrorCodeBadRequestContentType
        "missing request Content-Type header")
    else
      match lib.ParseMediaType ct with
      | .error err2 =>
        some (util.ErrCodef lib (some err2) config.ErrorCodeBadRequestContentType
          "error parsing request Content-Type: %q" [.str ct])
      | .ok (mt, mp) =>
        if mt ≠ "application/json" then
          some (util.ErrCodef lib none config.ErrorCodeBadRequestContentType
            "unsupported request Content-Type: %q" [.str ct])
        else
          match GoMap.get? mp "charset" with
          | some cs =>
            if lib.ToLower cs ≠ "utf-8" then
              some (util.ErrCodef lib none config.ErrorCodeBadRequestContentType
                "unsupported request json charset: %v" [.str cs])
            else none
          | none => none
  else none

/-- The method `reqDeserializer.DeserializeRequest`: the request object, the `ReqInfo`
and the error.  When `json.Unmarshal` fails, the object is returned as it was created. -/
def json.reqDeserializer.DeserializeRequest {D : Type} (lib : GoLib D)
    (ec : config.EndpointConfig) (r : nethttp.Request) :
    Option (GoValue D) × serialization.ReqInfo × Option GoError :=
  match json.reqDeserializer.DeserializeRequest.contentType lib ec r with
  | some err => (none, {}, some err)
  | none =>
    let req := reflect.New lib.zero ec.ReqType
    let ri : serialization.ReqInfo :=
      { ReqID := r.Header.Get json.HeaderReqID, ClientName := r.Header.Get json.HeaderClientName }
    if ec.HasReqContent then
      match ioutil.ReadAll r.Body with
      | (_, some err) => (some req, {}, some (util.Err (some err) "error reading request body"))
      | (body, none) =>
        match lib.Unmarshal body req with
        | .error err =>
          (some req, {}, some (util.ErrCodef lib (some err) config.ErrorCodeBadRequest
            "error unmarshaling request of type %T" [.iface (some req)]))
        | .ok req2 => (some req2, ri, none)
    else if r.ContentLength > 0 then
      (some req, {}, some (util.Err none "unexpected request content"))
    else if r.ContentLength < 0 then
      match r.Body.Read1 with
      | (_, some (.other t)) =>
        (some req, {}, some (util.Err (some { Error := t }) "error reading request body"))
      | (n, _) =>
        if n ≠ 0 then (some req, {}, some (util.Err none "unexpected request content"))
        else (some req, ri, none)
    else (some req, ri, none)

/-- The variable `serverError`. -/
def json.serverError : GoError :=
  util.ErrCode none config.ErrorCodeServerError "Internal Server Error"

/-- The function `sendErrorResponse`. -/
def json.sendErrorResponse {D : Type} (lib : GoLib D) (w : nethttp.ResponseWriter)
    (errResp : GoError) : Option GoError × nethttp.ResponseWriter :=
  let code := util.GetErrCode errResp
  match lib.MarshalErrorResponse { Code := code, Msg := errResp.Error } with
  | .error err => (some (util.Err (some err) "error marshaling error response"), w)
  | .ok body =>
    let w1 := w.SetHeader "Content-Type" "application/json; charset=utf-8"
    let w2 := w1.WriteHeader (config.ErrorCodeToHTTPStatus code)
    match w2.Write body with
    | (w3, some err) => (some (util.Err (some err) "error writing error response"), w3)
    | (w3, none) => (none, w3)

/-- The method `respSerializer.SerializeResponse`. -/
def json.respSerializer.SerializeResponse {D : Type} (lib : GoLib D)
    (ec : config.EndpointConfig) (_c : Option Ctx) (w : nethttp.ResponseWriter)
    (_r : nethttp.Request) (resp : Option (GoValue D)) (errResp : Option GoError) :
    Option GoError × nethttp.ResponseWriter :=
  match errResp with
  | some e => json.sendErrorResponse lib w e
  | none =>
    match ec.RespType with
    | none => (none, w)
    | some _ =>
      match lib.Marshal resp with
      | .error err =>
        (some (util.Err (some err) "error marshaling response"),
          (json.sendErrorResponse lib w json.serverError).2)
      | .ok body =>
        let w1 := w.SetHeader "Content-Type" "application/json; charset=utf-8"
        let w2 := w1.WriteHeader 200
        match w2.Write body with
        | (w3, some err) => (some (util.Err (some err) "error writing marshaled response"), w3)
        | (w3, none) => (none, w3)

/-- Lines 180 to 207 of `respDeserializer.DeserializeResponse`: the check of the
`Content-Type` header, made when the endpoint declares a response type. -/
def json.respDeserializer.DeserializeResponse.contentType {D : Type} (lib : GoLib D)
    (ec : config.EndpointConfig) (resp : nethttp.Response) : Option GoError :=
  match ec.RespType with
  | none => none
  | some _ =>
    let ct := resp.Header.Get "Content-Type"
    if ct = "" then
      if resp.StatusCode / 100 ≠ 2 then
        some (util.Errf lib none "HTTP status: %v" [.str resp.Status])
      else some (util.Err none "missing response Content-Type header")
    else
      match lib.ParseMediaType ct with
      | .error err2 =>
        some (util.Errf lib (some err2) "error parsing response Content-Type: %q" [.str ct])
      | .ok (mt, mp) =>
        if mt ≠ "application/json" then
          if resp.StatusCode / 100 ≠ 2 then
            some (util.Errf lib none "HTTP status: %v" [.str resp.Status])
          else some (util.Errf lib none "unsupported response Content-Type: %q" [.str ct])
        else
          match GoMap.get? mp "charset" with
          | some cs =>
            if lib.ToLower cs ≠ "utf-8" then
              some (util.Errf lib none "unsupported response json charset: %v" [.str cs])
            else none
          | none => none

/-- The method `respDeserializer.DeserializeResponse`: the response object, the error
sent by the service (`respErr`) and the error of the transport (`err`). -/
def json.respDeserializer.DeserializeResponse {D : Type} (lib : GoLib D)
    (ec : config.EndpointConfig) (_c : Option Ctx) (resp : nethttp.Response) :
    Option (GoValue D) × Option GoError × Option GoError :=
  match json.respDeserializer.DeserializeResponse.contentType lib ec resp with
  | some err => (none, none, some err)
  | none =>
    if resp.StatusCode / 100 ≠ 2 then
      match ioutil.ReadAll resp.Body with
      | (_, some err2) => (none, none, some (util.Errf lib (some err2) "error reading response body" []))
      | (body, none) =>
        match lib.UnmarshalErrorResponse body with
        | .error err => (none, none, some (util.Err (some err) "error unmarshaling error response"))
        | .ok m => (none, some (util.ErrCode none m.Code m.Msg), none)
    else
      match ec.RespType with
      | some respType =>
        match ioutil.ReadAll resp.Body with
        | (_, some err2) =>
          (none, none, some (util.Errf lib (some err2) "error reading response body" []))
        | (body, none) =>
          let respObj := reflect.New lib.zero respType
          match lib.Unmarshal body respObj with
          | .error err => (some respObj, none, some (util.Err (some err) "error unmarshaling response"))
          | .ok respObj2 => (some respObj2, none, none)
      | none =>
        if resp.ContentLength > 0 then
          (none, none, some (util.Err none "unexpected response content"))
        else if resp.ContentLength < 0 then
          match resp.Body.Read1 with
          | (_, some (.other t)) =>
            (none, none, some (util.Err (some { Error := t }) "error reading response body"))
          | (n, _) =>
            if n ≠ 0 then (none, none, some (util.Err none "unexpected response content"))
            else (none, none, none)
        else (none, none, none)

/-- The variable `ServerSideSerializer` of the JSON serializer. -/
def json.ServerSideSerializer {D : Type} (lib : GoLib D) : serialization.ServerSideSerializer D :=
  { DeserializeRequest := json.reqDeserializer.DeserializeRequest lib
    SerializeResponse := json.respSerializer.SerializeResponse lib }

/-! ## addons/transport/http/listener.go -/

/-- The struct `ListenerOptions`. -/
structure http.ListenerOptions (D : Type) where
  BindAddr : String
  Serializer : serialization.ServerSideSerializer D
  PrefixURLPath : Bool

/-- The struct `endpoint`; `svc` is an interface value and may be nil. -/
structure http.endpoint (σ D : Type) where
  cfg : config.EndpointConfig
  svc : Option (Service σ (GoValue D))
  Serializer : serialization.ServerSideSerializer D

/-- A route registered with the router: the method, the path and the endpoint whose
`Handler` serves it (`none` for the empty handler of the health check). -/
structure httprouter.Route (σ D : Type) where
  method : String
  path : String
  handle : Option (http.endpoint σ D)

/-- The state of an `httprouter.Router`: the routes registered so far, oldest first. -/
abbrev httprouter.Router (σ D : Type) := List (httprouter.Route σ D)

/-- The method `Router.Handle` of the package httprouter, which is not part of the
repository.  It panics when it refuses a route; `refuses` gives the message of that panic
from the methods and paths registered before and the new method and path, and `none`
when the route is accepted. -/
def httprouter.Router.Handle {σ D : Type}
    (refuses : List (String × String) → String → String → Option String)
    (router : httprouter.Router σ D) (method path : String)
    (handle : Option (http.endpoint σ D)) : Outcome (httprouter.Router σ D) :=
  match refuses (router.map (fun x => (x.method, x.path))) method path with
  | some msg => .panic msg
  | none => .ret (router ++ [{ method := method, path := path, handle := handle }])

/-- The struct `listener`, without its `router` field, which `Init` returns. -/
structure http.listener (D : Type) where
  cfgs : List config.ServiceConfig
  opts : http.ListenerOptions D

/-- Lines 55 to 58 of `listener.Init`: the path under which an endpoint is registered. -/
def http.listener.path {D : Type} (p : http.listener D) (cfg : config.ServiceConfig)
    (ec : config.EndpointConfig) : String :=
  if p.opts.PrefixURLPath then "/" ++ cfg.ServiceName ++ ec.Path else ec.Path

/-- The inner loop of `listener.Init` over the endpoints of one service: the result with
which `Init` returns (`.ret none` when the loop runs to its end), the map `duplicateCheck`
and the router. -/
def http.listener.Init.endpoints {σ D : Type}
    (refuses : List (String × String) → String → String → Option String)
    (p : http.listener D) (cfg : config.ServiceConfig) (svc : Option (Service σ (GoValue D))) :
    List config.EndpointConfig → GoMap Unit → httprouter.Router σ D →
    Outcome (Option GoError) × GoMap Unit × httprouter.Router σ D
  | [], duplicateCheck, router => (.ret none, duplicateCheck, router)
  | ec :: rest, duplicateCheck, router =>
    let path := p.path cfg ec
    let id := ec.Method ++ " " ++ path
    match GoMap.get? duplicateCheck id with
    | some _ =>
      (.ret (some { Error := "service " ++ cfg.ServiceName ++ ": duplicate endpoint: " ++ id }),
        duplicateCheck, router)
    | none =>
      let duplicateCheck := GoMap.set duplicateCheck id ()
      let ep : http.endpoint σ D := { cfg := ec, svc := svc, Serializer := p.opts.Serializer }
      match httprouter.Router.Handle refuses router ec.Method path (some ep) with
      | .panic m => (.panic m, duplicateCheck, router)
      | .ret router2 =>
        http.listener.Init.endpoints refuses p cfg svc rest duplicateCheck router2

/-- The outer loop of `listener.Init` over the service descriptors. -/
def http.listener.Init.services {σ D : Type}
    (refuses : List (String × String) → String → String → Option String)
    (p : http.listener D) (srv : ServiceSet σ (GoValue D)) :
    List config.ServiceConfig → GoMap Unit → httprouter.Router σ D →
    Outcome (Option GoError) × GoMap Unit × httprouter.Router σ D
  | [], duplicateCheck, router => (.ret none, duplicateCheck, router)
  | cfg :: rest, duplicateCheck, router =>
    match srv.LookupService cfg.ServiceName with
    | (_, some err) =>
      (.ret (some (util.Err (some err) "listener couldn't lookup a service")),
        duplicateCheck, router)
    | (svc, none) =>
      let e := http.listener.Init.endpoints refuses p cfg svc cfg.Endpoints duplicateCheck router
      match e.1 with
      | .ret none => http.listener.Init.services refuses p srv rest e.2.1 e.2.2
      | _ => e

/-- The method `(*listener).Init`: its result and the router it has built. -/
def http.listener.Init {σ D : Type}
    (refuses : List (String × String) → String → String → Option String)
    (p : http.listener D) (srv : ServiceSet σ (GoValue D)) :
    Outcome (Option GoError) × httprouter.Router σ D :=
  match httprouter.Router.Handle refuses [] "GET" "/health-check" none with
  | .panic m => (.panic m, [])
  | .ret router =>
    let s := http.listener.Init.services refuses p srv p.cfgs [] router
    (s.1, s.2.2)

/-- The endpoints of a listener with their service descriptors, in the order in which
`Init` visits them. -/
def http.listener.entries {D : Type} (p : http.listener D) :
    List (config.ServiceConfig × config.EndpointConfig) :=
  p.cfgs.flatMap (fun cfg => cfg.Endpoints.map (fun ec => (cfg, ec)))

/-- Line 59 of `listener.Init`: the key of an endpoint in `duplicateCheck`. -/
def http.listener.id {D : Type} (p : http.listener D)
    (e : config.ServiceConfig × config.EndpointConfig) : String :=
  e.2.Method ++ " " ++ p.path e.1 e.2

/-- Lines 61 and 62 of `listener.Init`: the error returned for an endpoint whose key is
already in `duplicateCheck`. -/
def http.listener.duplicateError {D : Type} (p : http.listener D)
    (e : config.ServiceConfig × config.EndpointConfig) : GoError :=
  { Error := "service " ++ e.1.ServiceName ++ ": duplicate endpoint: " ++ p.id e }

/-- The key that a registered route has in `duplicateCheck`. -/
def httprouter.Route.id {σ D : Type} (x : httprouter.Route σ D) : String :=
  x.method ++ " " ++ x.path

/-- The method and the path with which `Init` calls `router.Handle` for an endpoint
(line 71 of `listener.Init`). -/
def http.listener.route {D : Type} (p : http.listener D)
    (e : config.ServiceConfig × config.EndpointConfig) : String × String :=
  (e.2.Method, p.path e.1 e.2)

/-- Calls of `Router.Handle` for the given methods and paths in turn, on a router that
holds the methods and paths `routes`: the panic of the first call that the router refuses,
or the methods and paths that the router holds after the last call. -/
def httprouter.handleAll
    (refuses : List (String × String) → String → String → Option String) :
    List (String × String) → List (String × String) → Outcome (List (String × String))
  | routes, [] => .ret routes
  | routes, r :: rest =>
    match refuses routes r.1 r.2 with
    | some msg => .panic msg
    | none => httprouter.handleAll refuses (routes ++ [r]) rest

/-- The two loops of `listener.Init` written as one loop over the endpoints with their
service descriptors, where `svcs` gives the service that `LookupService` returned for a
descriptor.  The theorem `services_eq_flat` proves that this is what the loops of `Init`
compute when every service name resolves. -/
def http.listener.Init.flat {σ D : Type}
    (refuses : List (String × String) → String → String → Option String)
    (p : http.listener D) (svcs : config.ServiceConfig → Option (Service σ (GoValue D))) :
    List (config.ServiceConfig × config.EndpointConfig) → GoMap Unit → httprouter.Router σ D →
    Outcome (Option GoError) × GoMap Unit × httprouter.Router σ D
  | [], duplicateCheck, router => (.ret none, duplicateCheck, router)
  | e :: rest, duplicateCheck, router =>
    match GoMap.get? duplicateCheck (p.id e) with
    | some _ => (.ret (some (p.duplicateError e)), duplicateCheck, router)
    | none =>
      let duplicateCheck := GoMap.set duplicateCheck (p.id e) ()
      let ep : http.endpoint σ D :=
        { cfg := e.2, svc := svcs e.1, Serializer := p.opts.Serializer }
      match httprouter.Router.Handle refuses router e.2.Method (p.path e.1 e.2) (some ep) with
      | .panic m => (.panic m, duplicateCheck, router)
      | .ret router2 => http.listener.Init.flat refuses p svcs rest duplicateCheck router2

/-- The variable `serverError` of the package `http`. -/
def http.serverError : GoError :=
  util.ErrCode none config.ErrorCodeServerError "Internal Server Error"

/-- A call made by `endpoint.Handler`, with what the callee returned.  A `*nano.Ctx`
argument is recorded as the `Ctx` it points to at the time of the call. -/
inductive http.Call (D : Type) where
  | DeserializeRequest (res : Option (GoValue D) × serialization.ReqInfo × Option GoError)
  | log (c : Option Ctx) (err : Option GoError) (msg : String)
  | Request (clientName : String) (c : Ctx) (req : Option (GoValue D))
      (res : Outcome (Option (GoValue D) × Option GoError))
  | SerializeResponse (c : Option Ctx) (resp : Option (GoValue D)) (errResp : Option GoError)
      (res : Option GoError)

/-- Whether the call is a call of `SerializeResponse`. -/
def http.Call.isSerializeResponse {D : Type} : http.Call D → Bool
  | .SerializeResponse _ _ _ _ => true
  | _ => false

/-- The tail of `endpoint.Handler`: a call of `SerializeResponse` and, when it returns an
error, a call of `log.Err` with the given message. -/
def http.endpoint.Handler.respond {σ D : Type} (p : http.endpoint σ D) (c : Option Ctx)
    (w : nethttp.ResponseWriter) (r : nethttp.Request) (resp : Option (GoValue D))
    (errResp : Option GoError) (msg : String) :
    nethttp.ResponseWriter × List (http.Call D) :=
  let s := p.Serializer.SerializeResponse p.cfg c w r resp errResp
  match s.1 with
  | some err => (s.2, [.SerializeResponse c resp errResp s.1, .log c (some err) msg])
  | none => (s.2, [.SerializeResponse c resp errResp s.1])

/-- The method `(*endpoint).Handler`: how it ends, the response writer, the world and the
calls it made.  The `Ctx` allocated for the request is a new heap cell. -/
def http.endpoint.Handler {σ D : Type} (lib : GoLib D) (p : http.endpoint σ D)
    (w : nethttp.ResponseWriter) (r : nethttp.Request) (world : World σ) :
    Outcome Unit × nethttp.ResponseWriter × World σ × List (http.Call D) :=
  let d := p.Serializer.DeserializeRequest p.cfg r
  match d.2.2 with
  | some err =>
    let s := http.endpoint.Handler.respond p none w r none (some err)
      "error serialising error response"
    (.ret (), s.1, world,
      .DeserializeRequest d :: .log none (some err) "error deserialising request" :: s.2)
  | none =>
    let client := NewClient p.svc d.2.1.ClientName
    let c : Ctx := { ReqID := d.2.1.ReqID }
    let a := world.ctxHeap.length
    let q := client.Request (some a) d.1 { world with ctxHeap := world.ctxHeap ++ [c] }
    let cNow : Option Ctx := some ((q.2.ctxHeap[a]?).getD c)
    let calls : List (http.Call D) :=
      [.DeserializeRequest d, .Request d.2.1.ClientName c d.1 q.1]
    match q.1 with
    | .panic m => (.panic m, w, q.2, calls)
    | .ret (_, some err) =>
      let s := http.endpoint.Handler.respond p cNow w r none (some err)
        "error serialising response"
      (.ret (), s.1, q.2, calls ++ s.2)
    | .ret (resp, none) =>
      let expectedType := p.cfg.RespType.map reflect.PtrTo
      if reflect.TypeOf resp ≠ expectedType then
        let s := http.endpoint.Handler.respond p cNow w r none (some http.serverError)
          "error serialising error response"
        (.ret (), s.1, q.2,
          calls ++ .log cNow none (lib.Sprintf "service returned an object of type %v, want %v"
            [.typ (reflect.TypeOf resp), .typ expectedType]) :: s.2)
      else
        let s := http.endpoint.Handler.respond p cNow w r resp none "error serialising response"
        (.ret (), s.1, q.2, calls ++ s.2)

/-! ## What the HTTP connection delivers -/

/-- A request as the server receives it when the client sent the header map `h` and the
body `body`: the three headers of the serializer and the body arrive as sent, and the
length is the length of the body or is not known (`-1`). -/
def nethttp.Request.carries (r : nethttp.Request) (h : nethttp.Header) (body : List Nat) :
    Prop :=
  r.Header.Get "Content-Type" = h.Get "Content-Type" ∧
  r.Header.Get json.HeaderReqID = h.Get json.HeaderReqID ∧
  r.Header.Get json.HeaderClientName = h.Get json.HeaderClientName ∧
  r.Body = { data := body, err := none } ∧
  (r.ContentLength = body.length ∨ r.ContentLength = -1)

/-- A response as the client receives it for what a handler wrote to `w`: the status
(200 when `WriteHeader` was never called), the `Content-Type` header and the body arrive
as written. -/
def nethttp.Response.carries (resp : nethttp.Response) (w : nethttp.ResponseWriter) : Prop :=
  resp.StatusCode = w.status.getD 200 ∧
  resp.Header.Get "Content-Type" = w.header.Get "Content-Type" ∧
  resp.Body = { data := w.body, err := none }

/-- What the serializers need of `mime.ParseMediaType` and `strings.ToLower`: the
content type they write themselves is read back as `application/json` with a charset
that lowercases to `utf-8`. -/
def GoLib.readsJSONContentType {D : Type} (lib : GoLib D) : Prop :=
  ∃ mp, lib.ParseMediaType "application/json; charset=utf-8" = .ok ("application/json", mp) ∧
    ∀ cs, GoMap.get? mp "charset" = some cs → lib.ToLower cs = "utf-8"

/-! ## Sample inputs for the transport -/

/-- A stand-in for `mime.ParseMediaType` that knows four header values. -/
def sampleParseMediaType (ct : String) : Except GoError (String × GoMap String) :=
  if ct = "application/json; charset=utf-8" then .ok ("application/json", [("charset", "utf-8")])
  else if ct = "application/json; charset=latin1" then
    .ok ("application/json", [("charset", "latin1")])
  else if ct = "application/json" then .ok ("application/json", [])
  else if ct = "text/plain" then .ok ("text/plain", [])
  else .error { Error := "mime: no media type" }

/-- A stand-in for the JSON encoding of an `ErrorResponse`: the characters of the code, a
zero, the characters of the message. -/
def sampleMarshalErrorResponse (m : json.ErrorResponse) : List Nat :=
  m.Code.data.map Char.toNat ++ 0 :: m.Msg.data.map Char.toNat

/-- The decoder for `sampleMarshalErrorResponse`. -/
def sampleUnmarshalErrorResponse (b : List Nat) : Except GoError json.ErrorResponse :=
  if 0 ∈ b then
    .ok { Code := String.mk ((b.takeWhile (fun x => x != 0)).map Char.ofNat),
          Msg := String.mk (((b.dropWhile (fun x => x != 0)).drop 1).map Char.ofNat) }
  else .error { Error := "unexpected end of JSON input" }

/-- A library whose objects are byte strings that are their own encoding. -/
def sampleLib : GoLib (List Nat) :=
  { Sprintf := fun format _ => format
    ParseMediaType := sampleParseMediaType
    ToLower := fun s => String.mk (s.data.map Char.toLower)
    Marshal := fun v =>
      match v with
      | some x => .ok x.data
      | none => .ok [110, 117, 108, 108]
    Unmarshal := fun b v => .ok { v with data := b }
    MarshalErrorResponse := fun m => .ok (sampleMarshalErrorResponse m)
    UnmarshalErrorResponse := sampleUnmarshalErrorResponse
    zero := fun _ => [] }

/-- The endpoint `endpointConfigNoContent` of the serializer tests. -/
def endpointConfigNoContent : config.EndpointConfig :=
  { Method := "GET", Path := "/path", HasReqContent := false,
    ReqType := .named "ReqNoContent", RespType := none }

/-- The endpoint `endpointConfigWithContent` of the serializer tests. -/
def endpointConfigWithContent : config.EndpointConfig :=
  { Method := "POST", Path := "/path", HasReqContent := true,
    ReqType := .named "ReqWithContent", RespType := some (.named "RespWithContent") }

/-- An endpoint without request content whose request type has fields, like the second
endpoint of `listenCFG` in the listener tests but with a non-empty request struct. -/
def endpointGetWithFields : config.EndpointConfig :=
  { Method := "GET", Path := "/", HasReqContent := false,
    ReqType := .named "ReqWithContent", RespType := some (.named "RespWithContent") }

/-- A request object `&ReqWithContent{...}` with non-zero fields. -/
def sampleReq : GoValue (List Nat) := { typ := .ptr (.named "ReqWithContent"), data := [115, 42] }

/-- The context made by `newCtx` in the serializer tests. -/
def testCtx : Ctx :=
  { ReqID := "TestReqID", Context := some .background, ClientName := "test" }

/-- A response writer on which nothing has been written. -/
def newRecorder : nethttp.ResponseWriter :=
  { header := [], status := none, body := [], writeErr := none }

/-- A request without header and body. -/
def emptyRequest : nethttp.Request :=
  { Header := [], Body := { data := [], err := none }, ContentLength := 0 }

/-! ## Sample inputs for the listener -/

/-- A service whose handler returns an object of a type no endpoint declares. -/
def listenSvc : Service Unit (GoValue (List Nat)) :=
  { ptr := 8, Name := "test_svc",
    Handle := fun _ _ w => (.ret (some { typ := .ptr (.named "Other"), data := [1] }, none), w),
    Init := none, InitFinished := none }

/-- The service descriptor `listenCFG` of the listener tests. -/
def listenCFG : config.ServiceConfig :=
  { ServiceName := "test_svc",
    Endpoints :=
      [{ Method := "POST", Path := "/", HasReqContent := true,
         ReqType := .named "ListenReq", RespType := some (.named "ListenResp") },
       { Method := "GET", Path := "/", HasReqContent := false,
         ReqType := .named "ListenGetReq", RespType := some (.named "ListenGetResp") },
       { Method := "GET", Path := "/dir", HasReqContent := false,
         ReqType := .named "ListenGetDirReq", RespType := none }] }

/-- A service descriptor that repeats the method and path of the second endpoint of
`listenCFG`. -/
def duplicateCFG : config.ServiceConfig :=
  { ServiceName := "test_svc",
    Endpoints :=
      [{ Method := "GET", Path := "/dir", HasReqContent := false,
         ReqType := .named "ListenGetDirReq", RespType := none },
       { Method := "GET", Path := "/", HasReqContent := false,
         ReqType := .named "Again", RespType := none }] }

/-- The listener made by `newListener(true, h)` in the tests, for the given descriptors. -/
def sampleListener (cfgs : List config.ServiceConfig) : http.listener (List Nat) :=
  { cfgs := cfgs,
    opts := { BindAddr := "", Serializer := json.ServerSideSerializer sampleLib,
              PrefixURLPath := true } }

/-- A router that refuses a method and path registered before, with the message of
httprouter for it, and accepts every other route.  This is what httprouter does for
paths that start with a slash and have no wildcard. -/
def refusesRegistered (routes : List (String × String)) (method path : String) : Option String :=
  if (method, path) ∈ routes then
    some ("a handle is already registered for path \x27" ++ path ++ "\x27")
  else none

/-- A service descriptor with two endpoints at the method and path of the health check
that `Init` registers itself. -/
def healthCheckCFG : config.ServiceConfig :=
  { ServiceName := "test_svc",
    Endpoints :=
      [{ Method := "GET", Path := "/health-check", HasReqContent := false,
         ReqType := .named "ListenGetReq", RespType := none },
       { Method := "GET", Path := "/health-check", HasReqContent := false,
         ReqType := .named "ListenGetDirReq", RespType := none }] }

/-- The listener made by `newListener(false, h)`, which does not prefix the paths with the
service name, for the given descriptors. -/
def plainListener (cfgs : List config.ServiceConfig) : http.listener (List Nat) :=
  { cfgs := cfgs,
    opts := { BindAddr := "", Serializer := json.ServerSideSerializer sampleLib,
              PrefixURLPath := false } }

/-- The registry made by `nano.NewServiceSet(svc)` in the listener tests. -/
def listenServiceSet : ServiceSet Unit (GoValue (List Nat)) :=
  serviceSet.toServiceSet (NewServiceSet.index [listenSvc] [])

/-- The endpoint of `listenSvc` for `GET /dir`, which declares no response type. -/
def listenEndpoint : http.endpoint Unit (List Nat) :=
  { cfg := { Method := "GET", Path := "/dir", HasReqContent := false,
             ReqType := .named "ListenGetDirReq", RespType := none },
    svc := some listenSvc, Serializer := json.ServerSideSerializer sampleLib }

/-- The request of `TestListen_GetDirReq`. -/
def listenRequest : nethttp.Request :=
  { Header := [(json.HeaderClientName, ["test_client"]), (json.HeaderReqID, ["TestReqID"])],
    Body := { data := [], err := none }, ContentLength := 0 }

/-! ## Sample inputs for the end-to-end scenarios -/

/-- The service of `testListen_ErrorResponse` for the code `C-MYERROR`: its handler
returns `(nil, util.ErrCode(nil, "C-MYERROR", "test error"))`. -/
def errorSvc : Service Unit (GoValue (List Nat)) :=
  { ptr := 9, Name := "test_svc",
    Handle := fun _ _ w => (.ret (none, some (util.ErrCode none "C-MYERROR" "test error")), w),
    Init := none, InitFinished := none }

/-- The endpoint of `errorSvc` for `GET /`. -/
def errorEndpoint : http.endpoint Unit (List Nat) :=
  { cfg := { Method := "GET", Path := "/", HasReqContent := false,
             ReqType := .named "ListenGetReq", RespType := some (.named "ListenGetResp") },
    svc := some errorSvc, Serializer := json.ServerSideSerializer sampleLib }

/-- The service of `TestListen_GetDirReq`: its handler returns `(nil, nil)`. -/
def nilSvc : Service Unit (GoValue (List Nat)) :=
  { ptr := 10, Name := "test_svc",
    Handle := fun _ _ w => (.ret (none, none), w),
    Init := none, InitFinished := none }

/-- The endpoint of `nilSvc` for `GET /dir`, which declares no response type. -/
def nilEndpoint : http.endpoint Unit (List Nat) :=
  { cfg := { Method := "GET", Path := "/dir", HasReqContent := false,
             ReqType := .named "ListenGetDirReq", RespType := none },
    svc := some nilSvc, Serializer := json.ServerSideSerializer sampleLib }

/-! ## A fragment of `fmt.Sprintf` -/

mutual
/-- What the verb `%v` prints for an operand: a string as it is, a slice as its elements
between brackets, separated by blanks.  Other operands are outside the fragment. -/
def fmt.printValue {D : Type} : FmtArg D → Option String
  | .str s => some s
  | .slice xs => (fmt.printValues xs).map (fun ss => "[" ++ " ".intercalate ss ++ "]")
  | .typ _ => none
  | .iface _ => none
/-- The operands of a list printed by `%v`. -/
def fmt.printValues {D : Type} : List (FmtArg D) → Option (List String)
  | [] => some []
  | x :: xs =>
    match fmt.printValue x, fmt.printValues xs with
    | some s, some ss => some (s :: ss)
    | _, _ => none
end

/-- The name of the type of an operand, as `%T` and the `EXTRA` report print it. -/
def fmt.typeName {D : Type} : FmtArg D → Option String
  | .str _ => some "string"
  | .slice _ => some "[]interface \x7b\x7d"
  | .typ _ => none
  | .iface _ => none

/-- The report of `fmt` for operands that no verb has used: `%!(EXTRA type=value, ...)`. -/
def fmt.extra {D : Type} (a : List (FmtArg D)) : Option String :=
  (a.mapM (fun x =>
    match fmt.typeName x, fmt.printValue x with
    | some t, some v => some (t ++ "=" ++ v)
    | _, _ => none)).map (fun xs => "%!(EXTRA " ++ ", ".intercalate xs ++ ")")

/-- The loop of `fmt.Sprintf` over the format, for the verb `%v` and the escape `%%`:
each `%v` prints the next operand, or `%!v(MISSING)` when none is left, and operands left
at the end are reported.  The result is `none` when the format or an operand is outside
this fragment. -/
def fmt.Sprintf.loop {D : Type} : List Char → List (FmtArg D) → Option String
  | [], [] => some ""
  | [], x :: xs => fmt.extra (x :: xs)
  | ch :: rest, a =>
    if ch = '%' then
      match rest with
      | [] => none
      | verb :: rest2 =>
        if verb = 'v' then
          match a with
          | [] => (fmt.Sprintf.loop rest2 ([] : List (FmtArg D))).map (fun s => "%!v(MISSING)" ++ s)
          | x :: xs =>
            match fmt.printValue x, fmt.Sprintf.loop rest2 xs with
            | some v, some s => some (v ++ s)
            | _, _ => none
        else if verb = '%' then (fmt.Sprintf.loop rest2 a).map (fun s => "%" ++ s)
        else none
    else (fmt.Sprintf.loop rest a).map (fun s => String.mk [ch] ++ s)

/-- The function `fmt.Sprintf` on the fragment above. -/
def fmt.Sprintf {D : Type} (format : String) (a : List (FmtArg D)) : Option String :=
  fmt.Sprintf.loop format.data a

/-- The library `sampleLib` with the fragment of `fmt.Sprintf` for its `Sprintf`; outside
the fragment the text is empty. -/
def fmtLib : GoLib (List Nat) :=
  { sampleLib with Sprintf := fun format a => (fmt.Sprintf format a).getD "" }

/-! ## addons/transport/http/client.go -/

/-- The variable `BadReqTypeError` of nano.go, made by `errors.New`. -/
def BadReqTypeError : GoError := { Error := "bad request type" }

/-- The method `String` of a `reflect.Type`. -/
def GoType.String : GoType → String
  | .named name => name
  | .ptr elem => "*" ++ elem.String

/-- A Go map whose keys are values of `reflect.Type`: the bindings, newest first, at most
one for each key. -/
abbrev TypeMap (α : Type) := List (GoType × α)

/-- The assignment `m[k] = v`. -/
def TypeMap.set {α : Type} (m : TypeMap α) (k : GoType) (v : α) : TypeMap α :=
  (k, v) :: m.filter (fun e => e.1 != k)

/-- The lookup `v, ok := m[k]`. -/
def TypeMap.get? {α : Type} (m : TypeMap α) (k : GoType) : Option α :=
  (m.find? (fun e => e.1 == k)).map (fun e => e.2)

/-- The struct `ClientSideSerializer`: the interfaces `ReqSerializer` and
`RespDeserializer`.  The `*nano.Ctx` argument of `SerializeRequest` is passed as the `Ctx`
it points to. -/
structure serialization.ClientSideSerializer (D : Type) where
  SerializeRequest : config.EndpointConfig → Ctx → Option (GoValue D) →
    nethttp.Header × List Nat × Option GoError
  DeserializeResponse : config.EndpointConfig → Option Ctx → nethttp.Response →
    Option (GoValue D) × Option GoError × Option GoError

/-- The variable `ClientSideSerializer` of the JSON serializer. -/
def json.ClientSideSerializer {D : Type} (lib : GoLib D) : serialization.ClientSideSerializer D :=
  { SerializeRequest := json.reqSerializer.SerializeRequest lib
    DeserializeResponse := json.respDeserializer.DeserializeResponse lib }

/-- An `*http.Client`, as what its method `Do` returns for a request with the given
method, URL, header and body: a response or an error. -/
abbrev nethttp.Client := String → String → nethttp.Header → List Nat →
  Except GoError nethttp.Response

/-- The parts of `net/http` that the transport client calls and that are not modelled
here. -/
structure nethttp.Lib where
  /-- `http.NewRequest`: the error for a method and a URL it rejects, `none` otherwise -/
  NewRequest : String → String → Option GoError
  /-- `http.DefaultClient` -/
  DefaultClient : nethttp.Client

/-- The struct `ClientOptions`.  `Discoverer` is the method `Discover` of the
discoverer. -/
structure http.ClientOptions (D : Type) where
  Client : Option nethttp.Client
  Discoverer : String → String × Option GoError
  Serializer : serialization.ClientSideSerializer D
  PrefixURLPath : Bool

/-- The method `(*ClientOptions).client`. -/
def http.ClientOptions.client {D : Type} (net : nethttp.Lib) (p : http.ClientOptions D) :
    nethttp.Client :=
  match p.Client with
  | none => net.DefaultClient
  | some c => c

/-- The struct `client` of the transport, which implements `nano.Service`. -/
structure http.client (D : Type) where
  svcName : String
  endpoints : TypeMap config.EndpointConfig
  opts : http.ClientOptions D

/-- The loop of the transport's `NewClient` over the endpoints of the descriptor. -/
def http.NewClient.loop : List config.EndpointConfig → TypeMap config.EndpointConfig →
    Outcome (TypeMap config.EndpointConfig)
  | [], endpoints => .ret endpoints
  | ep :: rest, endpoints =>
    match TypeMap.get? endpoints ep.ReqType with
    | some _ => .panic ("multiple endpoints have the same req type: " ++ ep.ReqType.String)
    | none => http.NewClient.loop rest (TypeMap.set endpoints ep.ReqType ep)

/-- The function `NewClient` of the transport; `DefaultClientOptions` is the package
variable of that name. -/
def http.NewClient {D : Type} (DefaultClientOptions : Option (http.ClientOptions D))
    (opts : Option (http.ClientOptions D)) (cfg : config.ServiceConfig) :
    Outcome (http.client D) :=
  let o := match opts with
    | some o => some o
    | none => DefaultClientOptions
  match o with
  | none => .panic "both opts and DefaultClientOptions are nil"
  | some o =>
    match http.NewClient.loop cfg.Endpoints [] with
    | .panic m => .panic m
    | .ret endpoints => .ret { svcName := cfg.ServiceName, endpoints := endpoints, opts := o }

/-- The effective path of an endpoint in the words of the specification:
`"/" + ServiceName + Path` when `PrefixURLPath` is set and `Path` otherwise. -/
def spec.effectivePath (prefixURLPath : Bool) (serviceName path : String) : String :=
  if prefixURLPath then "/" ++ serviceName ++ path else path

/-- The method `(*client).Err`. -/
def http.client.Err {D : Type} (p : http.client D) (cause : Option GoError) (msg : String) :
    GoError :=
  util.Err cause ("service " ++ p.svcName ++ ": " ++ msg)

/-- A call that `client.Handle` makes to the discoverer or to `net/http`, with what the
callee returned. -/
inductive http.ClientCall where
  | Discover (name : String) (res : String × Option GoError)
  | NewRequest (method url : String) (res : Option GoError)
  | Do (method url : String) (header : nethttp.Header) (body : List Nat)
      (res : Except GoError nethttp.Response)

/-- Whether the call is a call of `http.NewRequest`. -/
def http.ClientCall.isNewRequest : http.ClientCall → Bool
  | .NewRequest _ _ _ => true
  | _ => false

/-- The method `(*client).Handle` of the transport: its result and the calls it made.
`c` is the `Ctx` that the pointer it receives points to.  `reflect.TypeOf(req)` is nil for
a nil request, and the call `reqType.Kind()` on it panics. -/
def http.client.Handle {D : Type} (net : nethttp.Lib) (p : http.client D) (c : Ctx)
    (req : Option (GoValue D)) :
    Outcome (Option (GoValue D) × Option GoError) × List http.ClientCall :=
  match reflect.TypeOf req with
  | none => (.panic "runtime error: invalid memory address or nil pointer dereference", [])
  | some (.named name) =>
    (.ret (none, some (p.Err none
      ("expected a pointer request type, got " ++ (GoType.named name).String))), [])
  | some (.ptr elem) =>
    match TypeMap.get? p.endpoints elem with
    | none =>
      (.ret (none, some (p.Err none
        ("can\x27t handle request type " ++ (GoType.ptr elem).String))), [])
    | some ec =>
      let d := p.opts.Discoverer p.svcName
      match d.2 with
      | some err => (.ret (none, some err), [.Discover p.svcName d])
      | none =>
        let url := "http://" ++ d.1
        let url := if p.opts.PrefixURLPath then url ++ "/" ++ p.svcName else url
        let url := url ++ ec.Path
        let s := p.opts.Serializer.SerializeRequest ec c req
        match s.2.2 with
        | some err =>
          (.ret (none, some (p.Err (some err) "error serializing request")),
            [.Discover p.svcName d])
        | none =>
          let n := net.NewRequest ec.Method url
          match n with
          | some err =>
            (.ret (none, some (p.Err (some err) "error creating request")),
              [.Discover p.svcName d, .NewRequest ec.Method url n])
          | none =>
            let h := p.opts.client net ec.Method url s.1 s.2.1
            let calls : List http.ClientCall :=
              [.Discover p.svcName d, .NewRequest ec.Method url n,
                .Do ec.Method url s.1 s.2.1 h]
            match h with
            | .error err => (.ret (none, some (p.Err (some err) "http request failure")), calls)
            | .ok httpResp =>
              let r := p.opts.Serializer.DeserializeResponse ec (some c) httpResp
              match r.2.2 with
              | some err =>
                (.ret (none, some (p.Err (some err) "error deserializing response")), calls)
              | none => (.ret (r.1, r.2.1), calls)

/-! ## Sample inputs for the transport client -/

/-- The descriptor `clientCFG` of the client tests. -/
def clientCFG : config.ServiceConfig :=
  { ServiceName := "test_svc",
    Endpoints :=
      [{ Method := "POST", Path := "/", HasReqContent := true,
         ReqType := .named "ClientReq", RespType := some (.named "ClientResp") },
       { Method := "GET", Path := "/", HasReqContent := false,
         ReqType := .named "ClientGetReq", RespType := some (.named "ClientGetResp") },
       { Method := "GET", Path := "/dir", HasReqContent := false,
         ReqType := .named "ClientGetDirReq", RespType := none }] }

/-- The stand-in for `net/http` of the samples: every request is accepted and answered
with status 200 and no body. -/
def sampleNet : nethttp.Lib :=
  { NewRequest := fun _ _ => none
    DefaultClient := fun _ _ _ _ =>
      .ok { StatusCode := 200, Status := "200 OK", Header := [],
            Body := { data := [], err := none }, ContentLength := 0 } }

/-- The options made by `newClient(prefixURLPath, h)` in the client tests, with the
static discoverer that knows `test_svc`. -/
def sampleClientOptions (prefixURLPath : Bool) : http.ClientOptions (List Nat) :=
  { Client := none,
    Discoverer := fun name =>
      if name = "test_svc" then ("test_svc:8000", none) else ("", some { Error := "not found" }),
    Serializer := json.ClientSideSerializer sampleLib,
    PrefixURLPath := prefixURLPath }

/-- The transport client for `clientCFG` as `NewClient` builds it. -/
def sampleClient (prefixURLPath : Bool) : http.client (List Nat) :=
  { svcName := "test_svc",
    endpoints :=
      [(.named "ClientGetDirReq",
          { Method := "GET", Path := "/dir", HasReqContent := false,
            ReqType := .named "ClientGetDirReq", RespType := none }),
       (.named "ClientGetReq",
          { Method := "GET", Path := "/", HasReqContent := false,
            ReqType := .named "ClientGetReq", RespType := some (.named "ClientGetResp") }),
       (.named "ClientReq",
          { Method := "POST", Path := "/", HasReqContent := true,
            ReqType := .named "ClientReq", RespType := some (.named "ClientResp") })],
    opts := sampleClientOptions prefixURLPath }

/-! ## addons/transport/http/serialization/gogo_proto/gogo_proto_serializer.go -/

/-- The message `RequestMeta` of the envelope, with the fields that the serializer
uses. -/
structure gogo_proto.RequestMeta where
  ReqId : String := ""
  ClientName : String := ""
  deriving DecidableEq, Repr

/-- The message `Request`, the envelope of a request.  `Meta` is a pointer
(`SerializeRequest` stores `&RequestMeta{...}` in it), nil being `none`. -/
structure gogo_proto.Request where
  Meta : Option gogo_proto.RequestMeta := none
  Payload : List Nat := []
  deriving DecidableEq, Repr

/-- The functions of the package `proto` that the serializer calls, which are not
modelled here; `D` is the content of the request and response objects. -/
structure ProtoLib (D : Type) where
  /-- whether the type assertion `v.(proto.Message)` succeeds -/
  IsMessage : Option (GoValue D) → Bool
  /-- `proto.Marshal` of a request or response object -/
  Marshal : GoValue D → Except GoError (List Nat)
  /-- `proto.Unmarshal` into the object a pointer points to: the object after the call -/
  Unmarshal : List Nat → GoValue D → Except GoError (GoValue D)
  /-- `proto.Marshal` of a `*Request` -/
  MarshalRequest : gogo_proto.Request → Except GoError (List Nat)
  /-- `proto.Unmarshal` into a new `Request` -/
  UnmarshalRequest : List Nat → Except GoError gogo_proto.Request

/-- The method `reqSerializer.SerializeRequest` of the protobuf serializer: the header
map, the body and the error.  `c` is the `Ctx` the caller's pointer points to. -/
def gogo_proto.reqSerializer.SerializeRequest {D : Type} (lib : GoLib D) (plib : ProtoLib D)
    (_ec : config.EndpointConfig) (c : Ctx) (req : Option (GoValue D)) :
    nethttp.Header × List Nat × Option GoError :=
  match req with
  | none => ([], [], some (util.Errf lib none "expected proto.Message, got %T" [.iface req]))
  | some m =>
    if plib.IsMessage req = false then
      ([], [], some (util.Errf lib none "expected proto.Message, got %T" [.iface req]))
    else
      match plib.Marshal m with
      | .error err => ([], [], some (util.Err (some err) "error marshaling request"))
      | .ok payload =>
        let request : gogo_proto.Request :=
          { Meta := some { ReqId := c.ReqID, ClientName := c.ClientName }, Payload := payload }
        match plib.MarshalRequest request with
        | .error err => ([], [], some (util.Err (some err) "error marshaling request"))
        | .ok body => (nethttp.Header.Set [] "Content-Type" "application/x-protobuf", body, none)

/-- The method `reqDeserializer.DeserializeRequest` of the protobuf serializer: how it
ends and, when it returns, the request object, the `ReqInfo` and the error.  The last two
statements read `request.Meta.ReqId` and `request.Meta.ClientName` through the pointer
`request.Meta`. -/
def gogo_proto.reqDeserializer.DeserializeRequest {D : Type} (lib : GoLib D)
    (plib : ProtoLib D) (ec : config.EndpointConfig) (r : nethttp.Request) :
    Outcome (Option (GoValue D) × serialization.ReqInfo × Option GoError) :=
  let ct := r.Header.Get "Content-Type"
  if ct = "" then
    .ret (none, {}, some (util.ErrCode none config.ErrorCodeBadRequestContentType
      "missing request Content-Type header"))
  else
    match lib.ParseMediaType ct with
    | .error err =>
      .ret (none, {}, some (util.ErrCodef lib (some err) config.ErrorCodeBadRequestContentType
        "error parsing request Content-Type: %q" [.str ct]))
    | .ok (mt, _) =>
      if mt ≠ "application/x-protobuf" then
        .ret (none, {}, some (util.ErrCodef lib none config.ErrorCodeBadRequestContentType
          "unsupported request Content-Type: %q" [.str ct]))
      else
        match ioutil.ReadAll r.Body with
        | (_, some err) =>
          .ret (none, {}, some (util.Errf lib (some err) "error reading request body" []))
        | (body, none) =>
          match plib.UnmarshalRequest body with
          | .error err =>
            .ret (none, {}, some (util.ErrCode (some err) config.ErrorCodeBadRequest
              "error unmarshaling proto request"))
          | .ok request =>
            let req := reflect.New lib.zero ec.ReqType
            if plib.IsMessage (some req) = false then
              .ret (some req, {}, some (util.Errf lib none
                "request doesn\x27t implement proto.Message: %T" [.iface (some req)]))
            else
              match plib.Unmarshal request.Payload req with
              | .error err =>
                .ret (some req, {}, some (util.ErrCodef lib (some err)
                  config.ErrorCodeBadRequest "error unmarshaling request of type %T"
                  [.iface (some req)]))
              | .ok req2 =>
                match request.Meta with
                | none => .panic "runtime error: invalid memory address or nil pointer dereference"
                | some md =>
                  .ret (some req2, { ReqID := md.ReqId, ClientName := md.ClientName }, none)

/-! ## Sample inputs for the protobuf serializer -/

/-- The library `sampleLib` with a media type parser that also knows
`application/x-protobuf`. -/
def protoSampleLib : GoLib (List Nat) :=
  { sampleLib with
    ParseMediaType := fun ct =>
      if ct = "application/x-protobuf" then .ok ("application/x-protobuf", [])
      else sampleParseMediaType ct }

/-- A stand-in for the package `proto`: objects are byte strings that are their own
encoding; the empty body decodes to the empty envelope, which has no `Meta`, and a body
that begins with the two bytes of an empty `Meta` field decodes to an envelope with an
empty `Meta` and the rest for its payload. -/
def sampleProtoLib : ProtoLib (List Nat) :=
  { IsMessage := fun v => v.isSome
    Marshal := fun v => .ok v.data
    Unmarshal := fun b v => .ok { v with data := b }
    MarshalRequest := fun m =>
      match m.Meta with
      | some _ => .ok (10 :: 0 :: m.Payload)
      | none => .ok m.Payload
    UnmarshalRequest := fun b =>
      match b with
      | [] => .ok { Meta := none, Payload := [] }
      | 10 :: 0 :: rest => .ok { Meta := some {}, Payload := rest }
      | _ => .error { Error := "proto: illegal wireType" } }

/-- A request with the protobuf content type and an empty body. -/
def emptyProtoRequest : nethttp.Request :=
  { Header := [("Content-Type", ["application/x-protobuf"])],
    Body := { data := [], err := none }, ContentLength := 0 }

/-! ## The goroutine of `NewContext` -/

/-- Whether a receive from `c.Done()` proceeds: never for `context.Background()`, whose
`Done` channel is nil; for a context object, once it is cancelled or its deadline has
passed. -/
def GoContext.isDone {σ : Type} (w : World σ) : GoContext → Bool
  | .background => false
  | .obj id =>
    match w.contexts[id]? with
    | some o =>
      o.cancelled ||
        (match o.deadline with
         | some d => decide (d ≤ w.now)
         | none => false)
    | none => false

/-- Whether the `select` of the goroutine can proceed: `clientContext.Done()` is closed or
`cancelChan` is closed. -/
def Watcher.ready {σ : Type} (w : World σ) (wt : Watcher) : Bool :=
  wt.clientContext.isDone w || (w.chans[wt.cancelChan]?).getD false

/-- The goroutine at index `i` runs from its `select` to its end, when the `select` can
proceed: it calls `cancel()` and is gone.  The result is the new world and the goroutine
that ran, `none` when there is no such goroutine or it is blocked. -/
def World.runWatcher {σ : Type} (i : Nat) (w : World σ) : Option (World σ × Watcher) :=
  match w.watchers[i]? with
  | none => none
  | some wt =>
    if wt.ready w then
      some ({ (wt.cancel.call w).2 with watchers := w.watchers.eraseIdx i }, wt)
    else none

/-- What can happen next in a program that uses `NewContext`: a goroutine of `NewContext`
is scheduled, some code calls a cancel function, some code calls `NewContext`, or time
passes. -/
inductive Action where
  | watcher (i : Nat)
  | call (f : CancelFunc)
  | newContext (clientContext : Option GoContext)
  | tick (n : Nat)
  deriving DecidableEq, Repr

/-- One action: the new world, and the goroutine that ran to its end, if one did. -/
def World.step {σ : Type} (a : Action) (w : World σ) : World σ × List Watcher :=
  match a with
  | .watcher i =>
    match w.runWatcher i with
    | some (w2, wt) => (w2, [wt])
    | none => (w, [])
  | .call f => ((f.call w).2, [])
  | .newContext cc => ((NewContext cc w).2, [])
  | .tick n => ({ w with now := w.now + n }, [])

/-- A sequence of actions: the final world and the goroutines that ran to their end, each
of which has called its `cancel` once. -/
def World.run {σ : Type} : List Action → World σ → World σ × List Watcher
  | [], w => (w, [])
  | a :: rest, w =>
    let s := World.step a w
    let t := World.run rest s.1
    (t.1, s.2 ++ t.2)

/-- The world of `TestNewContext_With_Parent_Cancel` after its first line,
`parentContext, parentCancel := context.WithCancel(context.Background())`: the parent is
the context object 0. -/
def parentWorld : World Unit := (context.WithCancel sampleWorld).2

/-! ## examples/example1: the API types -/

/-- Modelled from the spec: the request type `Req` of the API package `svc1`
(`Req{Param: p}`), whose declaration is not in the source tree.  A request or response
object of the example is a pointer to a struct with one string field, which is its
content. -/
def api.svc1.Req (param : String) : GoValue String :=
  { typ := .ptr (.named "svc1.Req"), data := param }

/-- Modelled from the spec: the response type `Resp` of the API package `svc1`
(`Resp{Value: v}`), whose declaration is not in the source tree. -/
def api.svc1.Resp (value : String) : GoValue String :=
  { typ := .ptr (.named "svc1.Resp"), data := value }

/-- Modelled from the spec: the request type `Req` of the API package `svc2`. -/
def api.svc2.Req (param : String) : GoValue String :=
  { typ := .ptr (.named "svc2.Req"), data := param }

/-- Modelled from the spec: the response type `Resp` of the API package `svc2`. -/
def api.svc2.Resp (value : String) : GoValue String :=
  { typ := .ptr (.named "svc2.Resp"), data := value }

/-- Modelled from the spec: the request type `GetReq` of the API package `svc2`, which
has no field that the services read. -/
def api.svc2.GetReq : GoValue String :=
  { typ := .ptr (.named "svc2.GetReq"), data := "" }

/-- Modelled from the spec: the response type `GetResp` of the API package `svc2`. -/
def api.svc2.GetResp (value : String) : GoValue String :=
  { typ := .ptr (.named "svc2.GetResp"), data := value }

/-- Modelled from the spec: the request type `Req` of the API package `svc3`. -/
def api.svc3.Req (param : String) : GoValue String :=
  { typ := .ptr (.named "svc3.Req"), data := param }

/-- Modelled from the spec: the response type `Resp` of the API package `svc3`. -/
def api.svc3.Resp (value : String) : GoValue String :=
  { typ := .ptr (.named "svc3.Resp"), data := value }

/-- Modelled from the spec: the request type `Req` of the API package `svc4`. -/
def api.svc4.Req (param : String) : GoValue String :=
  { typ := .ptr (.named "svc4.Req"), data := param }

/-- Modelled from the spec: the response type `Resp` of the API package `svc4`. -/
def api.svc4.Resp (value : String) : GoValue String :=
  { typ := .ptr (.named "svc4.Resp"), data := value }

/-- The panic of a failed type assertion `resp.(*T)`. -/
def typeAssertionPanic {α : Type} (resp : Option (GoValue String)) (want : String) :
    Outcome α :=
  .panic ("interface conversion: interface \x7b\x7d is " ++
    (match resp with
     | none => "nil"
     | some v => v.typ.String) ++ ", not " ++ want)

/-! ## examples/example1/services -/

/-- The method `Handle` of the service `svc1`. -/
def svc1.svc.Handle {σ : Type} (_c : Addr) (req : Option (GoValue String)) (w : World σ) :
    Outcome (Option (GoValue String) × Option GoError) × World σ :=
  match req with
  | some r =>
    if r.typ = .ptr (.named "svc1.Req") then
      (.ret (some (api.svc1.Resp ("svc1_" ++ r.data)), none), w)
    else (.ret (none, some BadReqTypeError), w)
  | none => (.ret (none, some BadReqTypeError), w)

/-- The method `Handle` of the service `svc4`. -/
def svc4.svc.Handle {σ : Type} (_c : Addr) (req : Option (GoValue String)) (w : World σ) :
    Outcome (Option (GoValue String) × Option GoError) × World σ :=
  match req with
  | some r =>
    if r.typ = .ptr (.named "svc4.Req") then
      (.ret (some (api.svc4.Resp ("svc4_" ++ r.data)), none), w)
    else (.ret (none, some BadReqTypeError), w)
  | none => (.ret (none, some BadReqTypeError), w)

/-- The struct `svc` of the service `svc3`; a nil `Client` is `none`. -/
structure svc3.svc (σ : Type) where
  svc4 : Option (Client σ (GoValue String)) := none

/-- The method `Init` of the service `svc3`: the struct after the call, which returns
nil, or the panic of `LookupClient`. -/
def svc3.svc.Init {σ : Type} (_p : svc3.svc σ) (cs : ClientSet σ (GoValue String)) :
    Outcome (svc3.svc σ) :=
  match cs.LookupClient "svc4" with
  | .panic m => .panic m
  | .ret c4 => .ret { svc4 := some c4 }

/-- The method `handleReq` of the service `svc3`. -/
def svc3.svc.handleReq {σ : Type} (p : svc3.svc σ) (c : Addr) (r : GoValue String)
    (w : World σ) : Outcome (Option (GoValue String) × Option GoError) × World σ :=
  match p.svc4 with
  | none => (.panic "runtime error: invalid memory address or nil pointer dereference", w)
  | some client =>
    match client.Request (some c) (some (api.svc4.Req r.data)) w with
    | (.panic m, w2) => (.panic m, w2)
    | (.ret (_, some err), w2) => (.ret (none, some (util.Err (some err) "svc4 failure")), w2)
    | (.ret (resp, none), w2) =>
      match resp with
      | some v =>
        if v.typ = .ptr (.named "svc4.Resp") then
          (.ret (some (api.svc3.Resp ("svc3_" ++ v.data)), none), w2)
        else (typeAssertionPanic resp "*svc4.Resp", w2)
      | none => (typeAssertionPanic resp "*svc4.Resp", w2)

/-- The method `Handle` of the service `svc3`. -/
def svc3.svc.Handle {σ : Type} (p : svc3.svc σ) (c : Addr) (req : Option (GoValue String))
    (w : World σ) : Outcome (Option (GoValue String) × Option GoError) × World σ :=
  match req with
  | some r =>
    if r.typ = .ptr (.named "svc3.Req") then p.handleReq c r w
    else (.ret (none, some BadReqTypeError), w)
  | none => (.ret (none, some BadReqTypeError), w)

/-- The struct `svc` of the service `svc2`; a nil `Client` is `none`. -/
structure svc2.svc (σ : Type) where
  svc1 : Option (Client σ (GoValue String)) := none
  svc3 : Option (Client σ (GoValue String)) := none

/-- The method `Init` of the service `svc2`: the struct after the call, which returns
nil, or the panic of `LookupClient`. -/
def svc2.svc.Init {σ : Type} (_p : svc2.svc σ) (cs : ClientSet σ (GoValue String)) :
    Outcome (svc2.svc σ) :=
  match cs.LookupClient "svc1" with
  | .panic m => .panic m
  | .ret c1 =>
    match cs.LookupClient "svc3" with
    | .panic m => .panic m
    | .ret c3 => .ret { svc1 := some c1, svc3 := some c3 }

/-- The method `handleReq` of the service `svc2`. -/
def svc2.svc.handleReq {σ : Type} (p : svc2.svc σ) (c : Addr) (r : GoValue String)
    (w : World σ) : Outcome (Option (GoValue String) × Option GoError) × World σ :=
  match p.svc1 with
  | none => (.panic "runtime error: invalid memory address or nil pointer dereference", w)
  | some client =>
    match client.Request (some c) (some (api.svc1.Req r.data)) w with
    | (.panic m, w2) => (.panic m, w2)
    | (.ret (_, some err), w2) => (.ret (none, some (util.Err (some err) "svc1 failure")), w2)
    | (.ret (resp, none), w2) =>
      match resp with
      | some v =>
        if v.typ = .ptr (.named "svc1.Resp") then
          (.ret (some (api.svc2.Resp ("svc2_" ++ v.data)), none), w2)
        else (typeAssertionPanic resp "*svc1.Resp", w2)
      | none => (typeAssertionPanic resp "*svc1.Resp", w2)

/-- The method `handleGetReq` of the service `svc2`. -/
def svc2.svc.handleGetReq {σ : Type} (p : svc2.svc σ) (c : Addr) (w : World σ) :
    Outcome (Option (GoValue String) × Option GoError) × World σ :=
  match p.svc3 with
  | none => (.panic "runtime error: invalid memory address or nil pointer dereference", w)
  | some client =>
    match client.Request (some c) (some (api.svc3.Req "getparam")) w with
    | (.panic m, w2) => (.panic m, w2)
    | (.ret (_, some err), w2) => (.ret (none, some (util.Err (some err) "svc3 failure")), w2)
    | (.ret (resp, none), w2) =>
      match resp with
      | some v =>
        if v.typ = .ptr (.named "svc3.Resp") then
          (.ret (some (api.svc2.GetResp ("svc2_" ++ v.data)), none), w2)
        else (typeAssertionPanic resp "*svc3.Resp", w2)
      | none => (typeAssertionPanic resp "*svc3.Resp", w2)

/-- The method `Handle` of the service `svc2`. -/
def svc2.svc.Handle {σ : Type} (p : svc2.svc σ) (c : Addr) (req : Option (GoValue String))
    (w : World σ) : Outcome (Option (GoValue String) × Option GoError) × World σ :=
  match req with
  | some r =>
    if r.typ = .ptr (.named "svc2.Req") then p.handleReq c r w
    else if r.typ = .ptr (.named "svc2.GetReq") then p.handleGetReq c w
    else (.ret (none, some BadReqTypeError), w)
  | none => (.ret (none, some BadReqTypeError), w)

/-! ## examples/example1: the four services in one registry

The structs of `svc2` and `svc3` hold clients, which are closures over the world, so they
cannot be kept in the state of the world.  The services are therefore given with the
fields that `Init` stores in them, and `Init` is a separate function on the struct; that
these fields are what `Init` stores, for the client set of the registry of the four
services, is part of what is proved. -/

/-- The service `svc1` as a value of the interface `Service`. -/
def example1.svc1 {σ : Type} : Service σ (GoValue String) :=
  { ptr := 1, Name := "svc1", Handle := svc1.svc.Handle, Init := none, InitFinished := none }

/-- The service `svc4` as a value of the interface `Service`. -/
def example1.svc4 {σ : Type} : Service σ (GoValue String) :=
  { ptr := 4, Name := "svc4", Handle := svc4.svc.Handle, Init := none, InitFinished := none }

/-- The struct of `svc3` after `Init`. -/
def example1.svc3Struct {σ : Type} : svc3.svc σ :=
  { svc4 := some (NewClient (some example1.svc4) "svc3") }

/-- The service `svc3` as a value of the interface `Service`; its `Init` hook changes
nothing outside the struct. -/
def example1.svc3 {σ : Type} : Service σ (GoValue String) :=
  { ptr := 3, Name := "svc3", Handle := example1.svc3Struct.Handle,
    Init := some (fun cs w =>
      match example1.svc3Struct.Init cs with
      | .panic m => (.panic m, w)
      | .ret _ => (.ret none, w)),
    InitFinished := none }

/-- The struct of `svc2` after `Init`. -/
def example1.svc2Struct {σ : Type} : svc2.svc σ :=
  { svc1 := some (NewClient (some example1.svc1) "svc2"),
    svc3 := some (NewClient (some example1.svc3) "svc2") }

/-- The service `svc2` as a value of the interface `Service`; its `Init` hook changes
nothing outside the struct. -/
def example1.svc2 {σ : Type} : Service σ (GoValue String) :=
  { ptr := 2, Name := "svc2", Handle := example1.svc2Struct.Handle,
    Init := some (fun cs w =>
      match example1.svc2Struct.Init cs with
      | .panic m => (.panic m, w)
      | .ret _ => (.ret none, w)),
    InitFinished := none }

/-- The services passed to `NewTestClientSet` in the tests of `svc2`. -/
def example1.services {σ : Type} : List (Service σ (GoValue String)) :=
  [example1.svc1, example1.svc2, example1.svc3, example1.svc4]

/-- The registry of the four services. -/
def example1.registry {σ : Type} : serviceSet σ (GoValue String) :=
  NewServiceSet.index example1.services []

/-! ## What a request needs of the world and leaves of it -/

/-- The source of randomness never fails and the length of generated request ids is not
negative, so `NewReqID` succeeds. -/
def World.randomOK {σ : Type} (w : World σ) : Prop :=
  0 ≤ w.GeneratedReqIDBytesLen ∧ ∀ k, ∃ src, w.rand k = .fill src

/-- The world `w2` comes after `w`: the settings of `NewReqID` are the same, the heap of
`Ctx` objects has not shrunk, and the channels that were open are open. -/
def World.after {σ : Type} (w2 w : World σ) : Prop :=
  w2.GeneratedReqIDBytesLen = w.GeneratedReqIDBytesLen ∧ w2.rand = w.rand ∧
  w.ctxHeap.length ≤ w2.ctxHeap.length ∧
  ∀ ch : Nat, w.chans[ch]? = some false → w2.chans[ch]? = some false

/-! ## Frame lemmas for the runtime helpers -/

theorem NewContext_ctxHeap {σ : Type} (cc : Option GoContext) (w : World σ) :
    (NewContext cc w).2.ctxHeap = w.ctxHeap := by
  unfold NewContext
  cases cc with
  | none => rfl
  | some g =>
    cases h : g.Deadline w <;> simp [h, context.WithCancel, context.WithDeadline]

theorem CancelFunc_call_ctxHeap {σ : Type} (f : CancelFunc) (w : World σ) :
    (f.call w).2.ctxHeap = w.ctxHeap := by
  cases f with
  | cancelCtx id =>
    simp only [CancelFunc.call]
    split <;> rfl
  | closeChan ch =>
    simp only [CancelFunc.call]
    split <;> rfl

theorem NewReqID_ctxHeap {σ : Type} (w : World σ) : (NewReqID w).2.ctxHeap = w.ctxHeap := by
  unfold NewReqID randRead
  split
  · rfl
  · cases w.rand w.randCalls <;> rfl

/-- The calls made by the second half of `Request`, whatever the deferred cancel does. -/
theorem invoke_trace {σ V : Type} (svc : Service σ V) (ownerName : String) (c2 : Ctx)
    (req : Option V) (w : World σ) :
    (client.Request.invoke ⟨some svc, ownerName⟩ c2 req w).2.2 =
      [Event.NewContext c2.Context (NewContext c2.Context w).1.1 (NewContext c2.Context w).1.2,
       Event.Handle svc.ptr w.ctxHeap.length
         { c2 with Context := some (NewContext c2.Context w).1.1, Svc := some svc.ptr,
                   ClientName := ownerName } req
         (svc.Handle w.ctxHeap.length req
           { (NewContext c2.Context w).2 with
             ctxHeap := w.ctxHeap ++ [{ c2 with Context := some (NewContext c2.Context w).1.1,
                                                Svc := some svc.ptr, ClientName := ownerName }] }).1,
       Event.cancel (NewContext c2.Context w).1.2
         ((NewContext c2.Context w).1.2.call
           (svc.Handle w.ctxHeap.length req
             { (NewContext c2.Context w).2 with
               ctxHeap := w.ctxHeap ++ [{ c2 with Context := some (NewContext c2.Context w).1.1,
                                                  Svc := some svc.ptr, ClientName := ownerName }] }).2).1] := by
  simp only [client.Request.invoke, NewContext_ctxHeap, Option.map]
  split <;> rfl


/-! ## `client.Request`: case lemmas -/

theorem invoke_ctxHeap_get {σ V : Type} (p : client σ V) (c2 : Ctx) (req : Option V)
    (w : World σ) (c : Addr) (ctx : Ctx) (hc : w.ctxHeap[c]? = some ctx)
    (hH : ∀ svc, p.svc = some svc → ∀ (a : Addr) (r : Option V) (w0 : World σ), a ≠ c →
      (svc.Handle a r w0).2.ctxHeap[c]? = w0.ctxHeap[c]?) :
    (client.Request.invoke p c2 req w).2.1.ctxHeap[c]? = some ctx := by
  have hlt : c < w.ctxHeap.length := by
    rcases Nat.lt_or_ge c w.ctxHeap.length with h | h
    · exact h
    · rw [List.getElem?_eq_none h] at hc
      cases hc
  have hne : w.ctxHeap.length ≠ c := Nat.ne_of_gt hlt
  obtain ⟨svc, ownerName⟩ := p
  cases svc with
  | none =>
    simp only [client.Request.invoke, NewContext_ctxHeap]
    split <;> simp [CancelFunc_call_ctxHeap, List.getElem?_append_left hlt, hc]
  | some svc =>
    have h1 := hH svc rfl
    simp only [client.Request.invoke, NewContext_ctxHeap]
    split <;> simp [CancelFunc_call_ctxHeap, h1 _ _ _ hne, List.getElem?_append_left hlt, hc]

theorem Request_of_nonempty {σ V : Type} (p : client σ V) (c : Option Addr) (ctx : Ctx)
    (req : Option V) (w : World σ) (hc : client.Request.copy w c = some ctx)
    (hid : ctx.ReqID ≠ "") :
    p.Request c req w = client.Request.invoke p ctx req w := by
  simp [client.Request, hc, hid]

theorem Request_of_generated {σ V : Type} (p : client σ V) (c : Option Addr) (ctx : Ctx)
    (req : Option V) (w w1 : World σ) (id : String)
    (hc : client.Request.copy w c = some ctx) (hid : ctx.ReqID = "")
    (hg : NewReqID w = (.ret (id, none), w1)) :
    p.Request c req w =
      ((client.Request.invoke p { ctx with ReqID := id } req w1).1,
       (client.Request.invoke p { ctx with ReqID := id } req w1).2.1,
       Event.NewReqID (.ret (id, none)) ::
         (client.Request.invoke p { ctx with ReqID := id } req w1).2.2) := by
  simp [client.Request, hc, hid, hg]

theorem invoke_handle_events {σ V : Type} (svc : Service σ V) (ownerName : String) (c2 : Ctx)
    (req : Option V) (w : World σ) :
    ∃ (a : Addr) (c3 : Ctx) (w1 : World σ),
      (client.Request.invoke ⟨some svc, ownerName⟩ c2 req w).2.2.filter Event.isHandle =
        [Event.Handle svc.ptr a c3 req (svc.Handle a req w1).1] ∧
      w1.ctxHeap[a]? = some c3 ∧ c3.ReqID = c2.ReqID ∧ c3.Svc = some svc.ptr ∧
      c3.ClientName = ownerName ∧ w1.chans = (NewContext c2.Context w).2.chans ∧
      (client.Request.invoke ⟨some svc, ownerName⟩ c2 req w).2.2.filter Event.isNewReqID = [] ∧
      (((NewContext c2.Context w).1.2.call (svc.Handle a req w1).2).1 = .ret () →
        (client.Request.invoke ⟨some svc, ownerName⟩ c2 req w).1 = (svc.Handle a req w1).1) := by
  refine ⟨w.ctxHeap.length,
    { c2 with Context := some (NewContext c2.Context w).1.1, Svc := some svc.ptr,
              ClientName := ownerName },
    { (NewContext c2.Context w).2 with
      ctxHeap := w.ctxHeap ++ [{ c2 with Context := some (NewContext c2.Context w).1.1,
                                         Svc := some svc.ptr, ClientName := ownerName }] },
    ?_, ?_, rfl, rfl, rfl, rfl, ?_, ?_⟩
  · rw [invoke_trace]
    simp [List.filter, Event.isHandle]
  · simp
  · rw [invoke_trace]
    simp [List.filter, Event.isNewReqID]
  · intro hd
    simp only [client.Request.invoke, NewContext_ctxHeap, Option.map]
    rw [hd]


/-! ## The verb `%x` -/

theorem hexDigit_mem (d : Nat) : hexDigit d ∈ ldigits := by
  unfold hexDigit
  rcases Nat.lt_or_ge d 16 with h | h
  · interval_cases d <;> decide
  · have : ldigits.length ≤ d := by simpa [ldigits] using h
    rw [List.getD_eq_getElem?_getD, List.getElem?_eq_none this]
    decide

theorem hexDigit_utf8Size (d : Nat) : (hexDigit d).utf8Size = 1 := by
  have h := hexDigit_mem d
  generalize hexDigit d = ch at h
  simp only [ldigits, List.mem_cons, List.mem_singleton, List.not_mem_nil, or_false] at h
  rcases h with h | h | h | h | h | h | h | h | h | h | h | h | h | h | h | h <;> subst h <;> decide

theorem flatMap_hexByte_length (b : List Nat) : (b.flatMap hexByte).length = 2 * b.length := by
  induction b with
  | nil => rfl
  | cons x xs ih =>
    simp only [List.flatMap_cons, List.length_append, ih, hexByte, List.length_cons,
      List.length_nil]
    omega

theorem fmtHex_length (b : List Nat) : (fmtHex b).length = 2 * b.length := by
  show (b.flatMap hexByte).length = 2 * b.length
  exact flatMap_hexByte_length b

theorem utf8ByteSize_go_ascii (l : List Char) (h : ∀ ch ∈ l, ch.utf8Size = 1) :
    String.utf8ByteSize.go l = l.length := by
  induction l with
  | nil => rfl
  | cons x xs ih =>
    have hx : x.utf8Size = 1 := h x (List.mem_cons_self _ _)
    have hxs := ih (fun ch hch => h ch (List.mem_cons_of_mem _ hch))
    simp only [String.utf8ByteSize.go, hx, hxs, List.length_cons]

theorem fmtHex_utf8ByteSize (b : List Nat) : (fmtHex b).utf8ByteSize = 2 * b.length := by
  show String.utf8ByteSize.go (b.flatMap hexByte) = 2 * b.length
  rw [utf8ByteSize_go_ascii, flatMap_hexByte_length]
  intro ch hch
  simp only [List.mem_flatMap, hexByte, List.mem_cons, List.mem_singleton,
    List.not_mem_nil, or_false] at hch
  obtain ⟨x, -, h | h⟩ := hch <;> subst h <;> exact hexDigit_utf8Size _

theorem fmtHex_digits (b : List Nat) : ∀ ch ∈ (fmtHex b).data, ch ∈ ldigits := by
  intro ch hch
  simp only [fmtHex, List.mem_flatMap, hexByte, List.mem_cons, List.mem_singleton,
    List.not_mem_nil, or_false] at hch
  obtain ⟨x, -, h | h⟩ := hch <;> subst h <;> exact hexDigit_mem _

theorem NewReqID_of_fill {σ : Type} (w : World σ) (src : Nat → Nat)
    (hn : 0 ≤ w.GeneratedReqIDBytesLen) (hr : w.rand w.randCalls = .fill src) :
    NewReqID w =
      (.ret (fmtHex ((List.range w.GeneratedReqIDBytesLen.toNat).map (fun i => src i % 256)), none),
        { w with randCalls := w.randCalls + 1 }) := by
  have h : ¬ w.GeneratedReqIDBytesLen < 0 := not_lt.mpr hn
  simp [NewReqID, randRead, h, hr]

theorem NewReqID_of_fail {σ : Type} (w : World σ) (e : GoError)
    (hn : 0 ≤ w.GeneratedReqIDBytesLen) (hr : w.rand w.randCalls = .fail e) :
    NewReqID w =
      (.ret ("", some { Error := "error generating request ID :: " ++ e.Error }),
        { w with randCalls := w.randCalls + 1 }) := by
  have h : ¬ w.GeneratedReqIDBytesLen < 0 := not_lt.mpr hn
  simp [NewReqID, randRead, h, hr]


theorem NewContext_cancel_ret {σ : Type} (cc : Option GoContext) (w w2 : World σ)
    (h : ∀ ch : Nat, (NewContext cc w).2.chans[ch]? = some false → w2.chans[ch]? = some false) :
    ((NewContext cc w).1.2.call w2).1 = .ret () := by
  cases cc with
  | none =>
    simp only [NewContext, context.WithCancel, CancelFunc.call]
    split <;> rfl
  | some g =>
    have h2 := h ((match g.Deadline w with
      | some deadline => context.WithDeadline deadline w
      | none => context.WithCancel w).2.chans.length)
    simp only [NewContext, List.getElem?_concat_length, forall_const] at h2
    simp only [NewContext, CancelFunc.call, h2]

/-! ## Claims about `client.Request` -/

/-- C1: a client bound to `(svc, ownerName)` that receives a caller context with a
non-empty `ReqID` calls `svc.Handle` exactly once, with the request it was given and a
`*Ctx` whose `ReqID` is the caller's `ReqID`; `NewReqID` is not called. -/
theorem Request_forwards_ReqID {σ V : Type} (svc : Service σ V) (ownerName : String)
    (c : Addr) (ctx : Ctx) (req : Option V) (w : World σ)
    (hc : w.ctxHeap[c]? = some ctx) (hid : ctx.ReqID ≠ "") :
    ∃ (a : Addr) (c2 : Ctx) (w1 : World σ),
      (client.Request ⟨some svc, ownerName⟩ (some c) req w).2.2.filter Event.isHandle =
        [Event.Handle svc.ptr a c2 req (svc.Handle a req w1).1] ∧
      w1.ctxHeap[a]? = some c2 ∧ c2.ReqID = ctx.ReqID ∧
      (client.Request ⟨some svc, ownerName⟩ (some c) req w).2.2.filter Event.isNewReqID = [] := by
  rw [Request_of_nonempty _ (some c) ctx req w hc hid]
  obtain ⟨a, c3, w1, h1, h2, h3, -, -, -, h4, -⟩ := invoke_handle_events svc ownerName ctx req w
  exact ⟨a, c3, w1, h1, h2, h3, h4⟩

theorem Request_forwards_ReqID_witness :
    sampleWorld.ctxHeap[0]? = some inputCtx ∧ inputCtx.ReqID ≠ "" ∧
    ∃ (a : Addr) (c2 : Ctx) (w1 : World Unit),
      (client.Request ⟨some svc1, "test"⟩ (some 0) (none : Option String)
          sampleWorld).2.2.filter Event.isHandle =
        [Event.Handle svc1.ptr a c2 none (svc1.Handle a none w1).1] ∧
      w1.ctxHeap[a]? = some c2 ∧ c2.ReqID = inputCtx.ReqID ∧
      (client.Request ⟨some svc1, "test"⟩ (some 0) (none : Option String)
          sampleWorld).2.2.filter Event.isNewReqID = [] :=
  ⟨rfl, by decide,
    Request_forwards_ReqID svc1 "test" 0 inputCtx none sampleWorld rfl (by decide)⟩

/-- C2: when the caller context is nil or has an empty `ReqID`, `rand.Read` succeeds and
`GeneratedReqIDBytesLen` is not negative, `NewReqID` returns the lowercase hexadecimal
text of the random bytes with a nil error, that text has exactly
`2 * GeneratedReqIDBytesLen` characters (and bytes), 32 for the default length, and it
is the `ReqID` of the context with which `Request` calls `Handle`. -/
theorem Request_generates_ReqID {σ V : Type} (svc : Service σ V) (ownerName : String)
    (c : Option Addr) (req : Option V) (w : World σ) (src : Nat → Nat)
    (hn : 0 ≤ w.GeneratedReqIDBytesLen) (hr : w.rand w.randCalls = .fill src)
    (hc : ∀ a, c = some a → ∃ ctx, w.ctxHeap[a]? = some ctx ∧ ctx.ReqID = "") :
    ∃ id : String,
      (NewReqID w).1 = .ret (id, none) ∧
      id = fmtHex ((List.range w.GeneratedReqIDBytesLen.toNat).map (fun i => src i % 256)) ∧
      (id.length : Int) = 2 * w.GeneratedReqIDBytesLen ∧
      (id.utf8ByteSize : Int) = 2 * w.GeneratedReqIDBytesLen ∧
      (∀ ch ∈ id.data, ch ∈ ldigits) ∧
      (w.GeneratedReqIDBytesLen = GeneratedReqIDBytesLen_default → id.length = 32) ∧
      ∃ (a : Addr) (c2 : Ctx) (w1 : World σ),
        (client.Request ⟨some svc, ownerName⟩ c req w).2.2.filter Event.isHandle =
          [Event.Handle svc.ptr a c2 req (svc.Handle a req w1).1] ∧
        w1.ctxHeap[a]? = some c2 ∧ c2.ReqID = id := by
  have hg := NewReqID_of_fill w src hn hr
  have hlen : ((List.range w.GeneratedReqIDBytesLen.toNat).map (fun i => src i % 256)).length
      = w.GeneratedReqIDBytesLen.toNat := by simp
  have hnat : ((w.GeneratedReqIDBytesLen.toNat : Nat) : Int) = w.GeneratedReqIDBytesLen :=
    Int.toNat_of_nonneg hn
  refine ⟨_, by rw [hg], rfl, ?_, ?_, fmtHex_digits _, ?_, ?_⟩
  · rw [fmtHex_length, hlen]; push_cast; rw [hnat]
  · rw [fmtHex_utf8ByteSize, hlen]; push_cast; rw [hnat]
  · intro hd
    rw [fmtHex_length, hlen, hd]; rfl
  · obtain ⟨ctx, hcopy, hid⟩ : ∃ ctx, client.Request.copy w c = some ctx ∧ ctx.ReqID = "" := by
      cases c with
      | none => exact ⟨{}, rfl, rfl⟩
      | some a => exact hc a rfl
    rw [Request_of_generated _ c ctx req w _ _ hcopy hid hg]
    obtain ⟨a, c3, w1, h1, h2, h3, -⟩ :=
      invoke_handle_events svc ownerName { ctx with ReqID := _ } req
        { w with randCalls := w.randCalls + 1 }
    refine ⟨a, c3, w1, ?_, h2, h3⟩
    simpa [List.filter, Event.isHandle] using h1

theorem Request_generates_ReqID_witness :
    (0 : Int) ≤ sampleWorld.GeneratedReqIDBytesLen ∧
    sampleWorld.ctxHeap[1]? = some ({} : Ctx) ∧
    ∃ id : String,
      (NewReqID sampleWorld).1 = .ret (id, none) ∧
      id = fmtHex ((List.range sampleWorld.GeneratedReqIDBytesLen.toNat).map
        (fun i => (37 * i + 5) % 256)) ∧
      (id.length : Int) = 2 * sampleWorld.GeneratedReqIDBytesLen ∧
      (id.utf8ByteSize : Int) = 2 * sampleWorld.GeneratedReqIDBytesLen ∧
      (∀ ch ∈ id.data, ch ∈ ldigits) ∧
      (sampleWorld.GeneratedReqIDBytesLen = GeneratedReqIDBytesLen_default → id.length = 32) ∧
      ∃ (a : Addr) (c2 : Ctx) (w1 : World Unit),
        (client.Request ⟨some svc1, "test"⟩ (some 1) (none : Option String)
            sampleWorld).2.2.filter Event.isHandle =
          [Event.Handle svc1.ptr a c2 none (svc1.Handle a none w1).1] ∧
        w1.ctxHeap[a]? = some c2 ∧ c2.ReqID = id :=
  ⟨by decide, rfl,
    Request_generates_ReqID svc1 "test" (some 1) none sampleWorld (fun i => 37 * i + 5)
      (by decide) rfl (fun a h => by cases h; exact ⟨{}, rfl, rfl⟩)⟩

/-- C3: `Request` called with a pointer `c` to a caller context leaves that context as it
was: after the call the heap cell `c` still holds the same four fields, whether `Handle`
returns a response, an error or panics, and whether or not a request id was generated.
The handler is given a fresh cell, never `c`; it is assumed not to write to a cell it
was not given. -/
theorem Request_leaves_caller_Ctx {σ V : Type} (p : client σ V) (c : Addr) (ctx : Ctx)
    (req : Option V) (w : World σ) (hc : w.ctxHeap[c]? = some ctx)
    (hH : ∀ svc, p.svc = some svc → ∀ (a : Addr) (r : Option V) (w0 : World σ), a ≠ c →
      (svc.Handle a r w0).2.ctxHeap[c]? = w0.ctxHeap[c]?) :
    (p.Request (some c) req w).2.1.ctxHeap[c]? = some ctx := by
  have hcopy : client.Request.copy w (some c) = some ctx := hc
  by_cases hid : ctx.ReqID = ""
  · have hheap := NewReqID_ctxHeap w
    rcases hg : NewReqID w with ⟨(⟨id, (_ | err)⟩ | m), w1⟩
    · rw [Request_of_generated p (some c) ctx req w w1 id hcopy hid hg]
      rw [hg] at hheap
      exact invoke_ctxHeap_get p _ req w1 c ctx (by rw [hheap]; exact hc) hH
    · rw [hg] at hheap
      simp only [client.Request, hcopy, hid, hg, if_true]
      rw [hheap]; exact hc
    · rw [hg] at hheap
      simp only [client.Request, hcopy, hid, hg, if_true]
      rw [hheap]; exact hc
  · rw [Request_of_nonempty p (some c) ctx req w hcopy hid]
    exact invoke_ctxHeap_get p ctx req w c ctx hc hH

theorem Request_leaves_caller_Ctx_witness :
    sampleWorld.ctxHeap[0]? = some inputCtx ∧
    ((client.Request ⟨some svc1, "test"⟩ (some 0) (none : Option String)
        sampleWorld).2.1.ctxHeap[0]? = some inputCtx) :=
  ⟨rfl, Request_leaves_caller_Ctx ⟨some svc1, "test"⟩ 0 inputCtx none sampleWorld rfl
    (fun svc h a r w0 _ => by cases h; rfl)⟩

/-- C4: whatever caller context a client bound to `(svc, ownerName)` receives (nil, empty,
or carrying other `Svc` and `ClientName` values), every call of `Handle` it makes is a
call of `svc.Handle` with a context whose `Svc` is `svc` and whose `ClientName` is
`ownerName`. -/
theorem Request_sets_Svc_and_ClientName {σ V : Type} (svc : Service σ V) (ownerName : String)
    (c : Option Addr) (req : Option V) (w : World σ) (e : Event V)
    (he : e ∈ (client.Request ⟨some svc, ownerName⟩ c req w).2.2) (hh : e.isHandle = true) :
    ∃ (a : Addr) (c2 : Ctx) (res : Outcome (Option V × Option GoError)),
      e = Event.Handle svc.ptr a c2 req res ∧ c2.Svc = some svc.ptr ∧
      c2.ClientName = ownerName := by
  have key : ∀ (c2 : Ctx) (w0 : World σ),
      e ∈ (client.Request.invoke ⟨some svc, ownerName⟩ c2 req w0).2.2 →
      ∃ (a : Addr) (c3 : Ctx) (res : Outcome (Option V × Option GoError)),
        e = Event.Handle svc.ptr a c3 req res ∧ c3.Svc = some svc.ptr ∧
        c3.ClientName = ownerName := by
    intro c2 w0 hmem
    rw [invoke_trace] at hmem
    simp only [List.mem_cons, List.mem_singleton, List.not_mem_nil, or_false] at hmem
    rcases hmem with h | h | h
    · subst h; cases hh
    · exact ⟨_, _, _, h, rfl, rfl⟩
    · subst h; cases hh
  rcases hcopy : client.Request.copy w c with _ | ctx
  · simp [client.Request, hcopy] at he
  · by_cases hid : ctx.ReqID = ""
    · rcases hg : NewReqID w with ⟨(⟨id, (_ | err)⟩ | m), w1⟩
      · rw [Request_of_generated _ c ctx req w w1 id hcopy hid hg] at he
        simp only [List.mem_cons] at he
        rcases he with h | h
        · subst h; cases hh
        · exact key _ _ h
      · simp only [client.Request, hcopy, hid, hg, if_true, List.mem_singleton] at he
        subst he; cases hh
      · simp only [client.Request, hcopy, hid, hg, if_true, List.mem_singleton] at he
        subst he; cases hh
    · rw [Request_of_nonempty _ c ctx req w hcopy hid] at he
      exact key _ _ he

theorem Request_sets_Svc_and_ClientName_witness :
    ∃ e ∈ (client.Request ⟨some svc1, "test"⟩ (some 0) (none : Option String) sampleWorld).2.2,
      e.isHandle = true ∧
      ∃ (a : Addr) (c2 : Ctx) (res : Outcome (Option String × Option GoError)),
        e = Event.Handle svc1.ptr a c2 none res ∧ c2.Svc = some svc1.ptr ∧
        c2.ClientName = "test" :=
  ⟨Event.Handle 1 2
      { ReqID := "MyReqID", Context := some (.obj 0), Svc := some 1, ClientName := "test" }
      none (.ret (none, none)),
    List.Mem.tail _ (List.Mem.head _), rfl,
    Request_sets_Svc_and_ClientName svc1 "test" (some 0) none sampleWorld _
      (List.Mem.tail _ (List.Mem.head _)) rfl⟩


/-- C5: when request-id generation does not fail, `Request` calls the `Handle` of its
service exactly once, with the request it was given, and returns what that call returned
(a response and error pair, or its panic), unchanged.  The handler is assumed not to
close channels of the runtime that were open when it was called. -/
theorem Request_returns_Handle_result {σ V : Type} (svc : Service σ V) (ownerName : String)
    (c : Option Addr) (ctx : Ctx) (req : Option V) (w : World σ)
    (hc : client.Request.copy w c = some ctx)
    (hgen : ctx.ReqID = "" → ∃ id, (NewReqID w).1 = .ret (id, none))
    (hch : ∀ (a : Addr) (r : Option V) (w0 : World σ) (ch : Nat),
      w0.chans[ch]? = some false → (svc.Handle a r w0).2.chans[ch]? = some false) :
    ∃ (a : Addr) (c2 : Ctx) (w1 : World σ),
      (client.Request ⟨some svc, ownerName⟩ c req w).2.2.filter Event.isHandle =
        [Event.Handle svc.ptr a c2 req (svc.Handle a req w1).1] ∧
      w1.ctxHeap[a]? = some c2 ∧
      (client.Request ⟨some svc, ownerName⟩ c req w).1 = (svc.Handle a req w1).1 := by
  have key : ∀ (c2 : Ctx) (w0 : World σ),
      ∃ (a : Addr) (c3 : Ctx) (w1 : World σ),
        (client.Request.invoke ⟨some svc, ownerName⟩ c2 req w0).2.2.filter Event.isHandle =
          [Event.Handle svc.ptr a c3 req (svc.Handle a req w1).1] ∧
        w1.ctxHeap[a]? = some c3 ∧
        (client.Request.invoke ⟨some svc, ownerName⟩ c2 req w0).1 = (svc.Handle a req w1).1 := by
    intro c2 w0
    obtain ⟨a, c3, w1, h1, h2, -, -, -, h6, -, h8⟩ := invoke_handle_events svc ownerName c2 req w0
    refine ⟨a, c3, w1, h1, h2, h8 ?_⟩
    apply NewContext_cancel_ret
    intro ch hopen
    exact hch a req w1 ch (by rw [h6]; exact hopen)
  by_cases hid : ctx.ReqID = ""
  · obtain ⟨id, hg⟩ := hgen hid
    have hg2 : NewReqID w = (.ret (id, none), (NewReqID w).2) := by
      rw [← hg]
    rw [Request_of_generated _ c ctx req w _ id hc hid hg2]
    obtain ⟨a, c3, w1, h1, h2, h3⟩ := key { ctx with ReqID := id } (NewReqID w).2
    refine ⟨a, c3, w1, ?_, h2, h3⟩
    simpa [List.filter, Event.isHandle] using h1
  · rw [Request_of_nonempty _ c ctx req w hc hid]
    exact key ctx w

theorem Request_returns_Handle_result_witness :
    client.Request.copy sampleWorld (some 1) = some {} ∧
    (∃ id, (NewReqID sampleWorld).1 = .ret (id, none)) ∧
    ∃ (a : Addr) (c2 : Ctx) (w1 : World Unit),
      (client.Request ⟨some svc1, "test"⟩ (some 1) (some "ping") sampleWorld).2.2.filter
          Event.isHandle =
        [Event.Handle svc1.ptr a c2 (some "ping") (svc1.Handle a (some "ping") w1).1] ∧
      w1.ctxHeap[a]? = some c2 ∧
      (client.Request ⟨some svc1, "test"⟩ (some 1) (some "ping") sampleWorld).1 =
        (svc1.Handle a (some "ping") w1).1 :=
  ⟨rfl, ⟨_, rfl⟩,
    Request_returns_Handle_result svc1 "test" (some 1) {} (some "ping") sampleWorld rfl
      (fun _ => ⟨_, rfl⟩) (fun _ _ _ _ h => h)⟩

/-- C6: when the caller's `ReqID` is empty and `NewReqID` returns an error, `Request`
returns `(nil, that error)` and has called neither `NewContext` nor `Handle`; when the
caller's `ReqID` is not empty, `Request` does not call `NewReqID` and goes on to call
`NewContext` and `Handle`. -/
theorem Request_NewReqID_error {σ V : Type} (svc : Service σ V) (ownerName : String)
    (c : Option Addr) (ctx : Ctx) (req : Option V) (w : World σ)
    (hc : client.Request.copy w c = some ctx) :
    (ctx.ReqID = "" → ∀ (id : String) (err : GoError) (w1 : World σ),
      NewReqID w = (.ret (id, some err), w1) →
      client.Request ⟨some svc, ownerName⟩ c req w =
        (.ret (none, some err), w1, [Event.NewReqID (.ret (id, some err))]) ∧
      (client.Request ⟨some svc, ownerName⟩ c req w).2.2.filter Event.isHandle = [] ∧
      (client.Request ⟨some svc, ownerName⟩ c req w).2.2.filter Event.isNewContext = []) ∧
    (ctx.ReqID ≠ "" →
      (client.Request ⟨some svc, ownerName⟩ c req w).2.2.filter Event.isNewReqID = [] ∧
      ((client.Request ⟨some svc, ownerName⟩ c req w).2.2.filter Event.isNewContext).length = 1 ∧
      ((client.Request ⟨some svc, ownerName⟩ c req w).2.2.filter Event.isHandle).length = 1) := by
  constructor
  · intro hid id err w1 hg
    have h : client.Request ⟨some svc, ownerName⟩ c req w =
        (.ret (none, some err), w1, [Event.NewReqID (.ret (id, some err))]) := by
      simp [client.Request, hc, hid, hg]
    rw [h]
    exact ⟨rfl, rfl, rfl⟩
  · intro hid
    rw [Request_of_nonempty _ c ctx req w hc hid, invoke_trace]
    exact ⟨rfl, rfl, rfl⟩

theorem Request_NewReqID_error_witness :
    client.Request.copy failingWorld (some 1) = some {} ∧
    client.Request ⟨some svc1, "test"⟩ (some 1) (none : Option String) failingWorld =
      (.ret (none, some { Error := "error generating request ID :: entropy source unavailable" }),
        { failingWorld with randCalls := 1 },
        [Event.NewReqID
          (.ret ("", some { Error := "error generating request ID :: entropy source unavailable" }))]) :=
  ⟨rfl, ((Request_NewReqID_error svc1 "test" (some 1) {} none failingWorld rfl).1 rfl
    "" { Error := "error generating request ID :: entropy source unavailable" }
    { failingWorld with randCalls := 1 } rfl).1⟩


/-! ## The registry map -/

theorem find?_filter_other {α : Type} (m : List (String × α)) (k k2 : String) (h : k2 ≠ k) :
    (m.filter (fun e => e.1 != k)).find? (fun e => e.1 == k2) =
      m.find? (fun e => e.1 == k2) := by
  induction m with
  | nil => rfl
  | cons e es ih =>
    by_cases he : e.1 = k
    · have hb1 : (e.1 != k) = false := by simp [he]
      have hb2 : (e.1 == k2) = false := by
        simpa using fun e2 : e.1 = k2 => h (e2.symm.trans he)
      simp only [List.filter_cons, List.find?_cons, hb1, hb2, ih, Bool.false_eq_true, if_false]
    · have hb1 : (e.1 != k) = true := by simp [he]
      simp only [List.filter_cons, List.find?_cons, hb1, ih, if_true]

theorem GoMap_get?_set {α : Type} (m : GoMap α) (k k2 : String) (v : α) :
    GoMap.get? (GoMap.set m k v) k2 = if k2 = k then some v else GoMap.get? m k2 := by
  unfold GoMap.get? GoMap.set
  by_cases h : k2 = k
  · subst h
    simp
  · have h2 : ¬ k = k2 := fun e => h e.symm
    simp only [List.find?_cons, h, if_false]
    rw [show (k == k2) = false from by simpa using h2]
    simp only [find?_filter_other m k k2 h]

theorem index_append {σ V : Type} (xs ys : List (Service σ V)) (m : serviceSet σ V) :
    NewServiceSet.index (xs ++ ys) m = NewServiceSet.index ys (NewServiceSet.index xs m) := by
  induction xs generalizing m with
  | nil => rfl
  | cons x xs ih => exact ih _

theorem index_get?_other {σ V : Type} (xs : List (Service σ V)) (m : serviceSet σ V)
    (n : String) (h : ∀ s ∈ xs, s.Name ≠ n) :
    GoMap.get? (NewServiceSet.index xs m) n = GoMap.get? m n := by
  induction xs generalizing m with
  | nil => rfl
  | cons x xs ih =>
    have hx : n ≠ x.Name := fun e => h x (List.mem_cons_self _ _) e.symm
    have := ih (GoMap.set m x.Name x) (fun s hs => h s (List.mem_cons_of_mem _ hs))
    simp only [NewServiceSet.index, this, GoMap_get?_set, hx, if_false]

theorem index_get?_last {σ V : Type} (pre post : List (Service σ V)) (s : Service σ V)
    (m : serviceSet σ V) (h : ∀ t ∈ post, t.Name ≠ s.Name) :
    GoMap.get? (NewServiceSet.index (pre ++ s :: post) m) s.Name = some s := by
  rw [index_append]
  simp only [NewServiceSet.index]
  rw [index_get?_other post _ s.Name h, GoMap_get?_set]
  simp

theorem exists_last_named {σ V : Type} (xs : List (Service σ V)) (n : String)
    (h : ∃ s ∈ xs, s.Name = n) :
    ∃ pre s post, xs = pre ++ s :: post ∧ s.Name = n ∧ ∀ t ∈ post, t.Name ≠ n := by
  induction xs with
  | nil => obtain ⟨s, hs, -⟩ := h; cases hs
  | cons x xs ih =>
    by_cases hx : ∃ s ∈ xs, s.Name = n
    · obtain ⟨pre, s, post, h1, h2, h3⟩ := ih hx
      exact ⟨x :: pre, s, post, by rw [h1]; rfl, h2, h3⟩
    · obtain ⟨s, hs, hn⟩ := h
      rcases List.mem_cons.mp hs with e | e
      · subst e
        exact ⟨[], s, xs, rfl, hn, fun t ht e => hx ⟨t, ht, e⟩⟩
      · exact absurd ⟨s, e, hn⟩ hx


/-! ## The two hook loops of `NewServiceSet` -/

theorem initLoop_spec {σ V : Type} (printable : Char → Bool) (ss : serviceSet σ V)
    (services : List (Service σ V)) (w : World σ) :
    ((NewServiceSet.initLoop printable ss services w).1 = .ret () ∧
      (NewServiceSet.initLoop printable ss services w).2.2 =
        (services.filter (fun s => s.Init.isSome)).map
          (fun s => Event.Init s.ptr s.Name (.ret none))) ∨
    (∃ (pre : List (Event V)) (s : Service σ V) (res : Outcome (Option GoError)) (m : String),
      (NewServiceSet.initLoop printable ss services w).1 = .panic m ∧
      (NewServiceSet.initLoop printable ss services w).2.2 = pre ++ [Event.Init s.ptr s.Name res] ∧
      s ∈ services ∧ (∀ e ∈ pre, e.hookSucceeded = true ∧ e.isInit = true) ∧
      (res = .panic m ∨ ∃ err, res = .ret (some err) ∧
        m = "error initialising service " ++ strconv.Quote printable s.Name ++ " :: " ++ err.Error)) := by
  induction services generalizing w with
  | nil => exact Or.inl ⟨rfl, rfl⟩
  | cons svc rest ih =>
    cases hI : svc.Init with
    | none =>
      simp only [NewServiceSet.initLoop, hI]
      rcases ih w with ⟨h1, h2⟩ | ⟨pre, s, res, m, h1, h2, h3, h4, h5⟩
      · refine Or.inl ⟨h1, ?_⟩
        rw [h2, List.filter_cons]
        simp [hI]
      · exact Or.inr ⟨pre, s, res, m, h1, h2, List.mem_cons_of_mem _ h3, h4, h5⟩
    | some init =>
      simp only [NewServiceSet.initLoop, hI]
      rcases hr : (init (NewClientSet printable ss.toServiceSet svc.Name) w).1 with (_ | err) | m
      · simp only
        rcases ih (init (NewClientSet printable ss.toServiceSet svc.Name) w).2 with
          ⟨h1, h2⟩ | ⟨pre, s, res, m, h1, h2, h3, h4, h5⟩
        · refine Or.inl ⟨h1, ?_⟩
          rw [h2, List.filter_cons]
          simp [hI]
        · refine Or.inr ⟨_ :: pre, s, res, m, h1, by rw [h2]; rfl,
            List.mem_cons_of_mem _ h3, ?_, h5⟩
          intro e he
          rcases List.mem_cons.mp he with h | h
          · subst h; exact ⟨rfl, rfl⟩
          · exact h4 e h
      · exact Or.inr ⟨[], svc, _, _, rfl, rfl, List.mem_cons_self _ _, by simp,
          Or.inr ⟨err, rfl, rfl⟩⟩
      · exact Or.inr ⟨[], svc, _, _, rfl, rfl, List.mem_cons_self _ _, by simp, Or.inl rfl⟩

theorem initFinishedLoop_spec {σ V : Type} (printable : Char → Bool)
    (services : List (Service σ V)) (w : World σ) :
    ((NewServiceSet.initFinishedLoop (V := V) printable services w).1 = .ret () ∧
      (NewServiceSet.initFinishedLoop printable services w).2.2 =
        (services.filter (fun s => s.InitFinished.isSome)).map
          (fun s => Event.InitFinished s.ptr s.Name (.ret none))) ∨
    (∃ (pre : List (Event V)) (s : Service σ V) (res : Outcome (Option GoError)) (m : String),
      (NewServiceSet.initFinishedLoop printable services w).1 = .panic m ∧
      (NewServiceSet.initFinishedLoop printable services w).2.2 =
        pre ++ [Event.InitFinished s.ptr s.Name res] ∧
      s ∈ services ∧ (∀ e ∈ pre, e.hookSucceeded = true ∧ e.isInitFinished = true) ∧
      (res = .panic m ∨ ∃ err, res = .ret (some err) ∧
        m = "InitFinished error in service " ++ strconv.Quote printable s.Name ++ " :: " ++ err.Error)) := by
  induction services generalizing w with
  | nil => exact Or.inl ⟨rfl, rfl⟩
  | cons svc rest ih =>
    cases hI : svc.InitFinished with
    | none =>
      simp only [NewServiceSet.initFinishedLoop, hI]
      rcases ih w with ⟨h1, h2⟩ | ⟨pre, s, res, m, h1, h2, h3, h4, h5⟩
      · refine Or.inl ⟨h1, ?_⟩
        rw [h2, List.filter_cons]
        simp [hI]
      · exact Or.inr ⟨pre, s, res, m, h1, h2, List.mem_cons_of_mem _ h3, h4, h5⟩
    | some fin =>
      simp only [NewServiceSet.initFinishedLoop, hI]
      rcases hr : (fin w).1 with (_ | err) | m
      · simp only
        rcases ih (fin w).2 with ⟨h1, h2⟩ | ⟨pre, s, res, m, h1, h2, h3, h4, h5⟩
        · refine Or.inl ⟨h1, ?_⟩
          rw [h2, List.filter_cons]
          simp [hI]
        · refine Or.inr ⟨_ :: pre, s, res, m, h1, by rw [h2]; rfl,
            List.mem_cons_of_mem _ h3, ?_, h5⟩
          intro e he
          rcases List.mem_cons.mp he with h | h
          · subst h; exact ⟨rfl, rfl⟩
          · exact h4 e h
      · exact Or.inr ⟨[], svc, _, _, rfl, rfl, List.mem_cons_self _ _, by simp,
          Or.inr ⟨err, rfl, rfl⟩⟩
      · exact Or.inr ⟨[], svc, _, _, rfl, rfl, List.mem_cons_self _ _, by simp, Or.inl rfl⟩


/-! ## `NewServiceSet`: the three ways it can end -/

theorem isInitFinished_of_isInit {V : Type} (e : Event V) (h : e.isInit = true) :
    e.isInitFinished = false := by
  cases e <;> first | rfl | cases h

theorem NewServiceSet_cases {σ V : Type} (printable : Char → Bool)
    (services : List (Service σ V)) (w : World σ) :
    ((NewServiceSet printable services w).1 = .ret (NewServiceSet.index services []) ∧
      (NewServiceSet printable services w).2.2 =
        (services.filter (fun s => s.Init.isSome)).map
            (fun s => Event.Init s.ptr s.Name (.ret none)) ++
          (services.filter (fun s => s.InitFinished.isSome)).map
            (fun s => Event.InitFinished s.ptr s.Name (.ret none))) ∨
    (∃ (pre : List (Event V)) (s : Service σ V) (res : Outcome (Option GoError)) (m : String),
      (NewServiceSet printable services w).1 = .panic m ∧
      (NewServiceSet printable services w).2.2 = pre ++ [Event.Init s.ptr s.Name res] ∧
      s ∈ services ∧ (∀ e ∈ pre, e.hookSucceeded = true ∧ e.isInit = true) ∧
      (res = .panic m ∨ ∃ err, res = .ret (some err) ∧
        m = "error initialising service " ++ strconv.Quote printable s.Name ++ " :: " ++ err.Error)) ∨
    (∃ (pre : List (Event V)) (s : Service σ V) (res : Outcome (Option GoError)) (m : String),
      (NewServiceSet printable services w).1 = .panic m ∧
      (NewServiceSet printable services w).2.2 = pre ++ [Event.InitFinished s.ptr s.Name res] ∧
      s ∈ services ∧ (∀ e ∈ pre, e.hookSucceeded = true) ∧
      (res = .panic m ∨ ∃ err, res = .ret (some err) ∧
        m = "InitFinished error in service " ++ strconv.Quote printable s.Name ++ " :: " ++ err.Error)) := by
  rcases initLoop_spec printable (NewServiceSet.index services []) services w with
    ⟨h1, h2⟩ | ⟨pre, s, res, m, h1, h2, h3, h4, h5⟩
  · rcases initFinishedLoop_spec (V := V) printable services
        (NewServiceSet.initLoop printable (NewServiceSet.index services []) services w).2.1 with
      ⟨g1, g2⟩ | ⟨pre, s, res, m, g1, g2, g3, g4, g5⟩
    · refine Or.inl ⟨?_, ?_⟩
      · simp only [NewServiceSet, h1, g1]
      · simp only [NewServiceSet, h1, g1, h2, g2]
    · refine Or.inr (Or.inr ⟨(services.filter (fun s => s.Init.isSome)).map
          (fun s => Event.Init s.ptr s.Name (.ret none)) ++ pre, s, res, m, ?_, ?_, g3, ?_, g5⟩)
      · simp only [NewServiceSet, h1, g1]
      · simp only [NewServiceSet, h1, g1, h2, g2, List.append_assoc]
      · intro e he
        rcases List.mem_append.mp he with h | h
        · obtain ⟨t, -, rfl⟩ := List.mem_map.mp h
          rfl
        · exact (g4 e h).1
  · refine Or.inr (Or.inl ⟨pre, s, res, m, ?_, ?_, h3, h4, h5⟩)
    · simp only [NewServiceSet, h1]
    · simp only [NewServiceSet, h1, h2]

theorem NewServiceSet_registry {σ V : Type} (printable : Char → Bool)
    (services : List (Service σ V)) (w : World σ) (ss : serviceSet σ V)
    (h : (NewServiceSet printable services w).1 = .ret ss) :
    ss = NewServiceSet.index services [] := by
  rcases NewServiceSet_cases printable services w with ⟨h1, -⟩ | ⟨_, _, _, _, h1, -⟩ |
    ⟨_, _, _, _, h1, -⟩
  · rw [h1] at h; cases h; rfl
  · rw [h1] at h; cases h
  · rw [h1] at h; cases h


theorem hookSucceeded_Init_failed {V : Type} (p : Addr) (n : String)
    (res : Outcome (Option GoError)) (m msg : String)
    (h : res = .panic m ∨ ∃ err, res = .ret (some err) ∧ m = msg ++ err.Error) :
    (Event.Init (V := V) p n res).hookSucceeded = false := by
  rcases h with h | ⟨err, h, -⟩ <;> subst h <;> rfl

theorem hookSucceeded_InitFinished_failed {V : Type} (p : Addr) (n : String)
    (res : Outcome (Option GoError)) (m msg : String)
    (h : res = .panic m ∨ ∃ err, res = .ret (some err) ∧ m = msg ++ err.Error) :
    (Event.InitFinished (V := V) p n res).hookSucceeded = false := by
  rcases h with h | ⟨err, h, -⟩ <;> subst h <;> rfl

theorem appendEscapedRune_plain (printable : Char → Bool) (ch : Char)
    (h : 0x20 ≤ ch.toNat ∧ ch.toNat < 0x7F ∧ ch.toNat ≠ 34 ∧ ch.toNat ≠ 92) :
    strconv.appendEscapedRune printable ch = [ch] := by
  obtain ⟨h1, h2, h3, h4⟩ := h
  have h5 : ch.toNat ≤ 0xFF := by omega
  simp [strconv.appendEscapedRune, strconv.IsPrint, h1, h2, h3, h4, h5]

theorem Quote_plainName (printable : Char → Bool) (s : String) (h : plainName s) :
    strconv.Quote printable s = "\"" ++ s ++ "\"" := by
  have hflat : ∀ l : List Char,
      (∀ ch ∈ l, 0x20 ≤ ch.toNat ∧ ch.toNat < 0x7F ∧ ch.toNat ≠ 34 ∧ ch.toNat ≠ 92) →
      l.flatMap (strconv.appendEscapedRune printable) = l := by
    intro l hl
    induction l with
    | nil => rfl
    | cons x xs ih =>
      rw [List.flatMap_cons, appendEscapedRune_plain printable x (hl x (List.mem_cons_self _ _)),
        ih (fun ch hch => hl ch (List.mem_cons_of_mem _ hch))]
      rfl
  apply String.ext
  simp only [strconv.Quote, hflat s.data h, String.data_append]
  rfl

/-! ## Claims about `NewServiceSet` and `LookupService` -/

/-- C7: when every hook called by `NewServiceSet` returns a nil error, the hook calls are
the `Init` calls of exactly the services that implement `ServiceInit`, in the order of the
argument list, followed by the `InitFinished` calls of exactly the services that implement
`ServiceInitFinished`, in the order of the argument list, one call for each such list
entry; so every `Init` call comes before every `InitFinished` call, and the registry is
returned. -/
theorem NewServiceSet_hook_order {σ V : Type} (printable : Char → Bool)
    (services : List (Service σ V)) (w : World σ)
    (h : ∀ e ∈ (NewServiceSet printable services w).2.2, e.hookSucceeded = true) :
    (NewServiceSet printable services w).1 = .ret (NewServiceSet.index services []) ∧
    (NewServiceSet printable services w).2.2 =
      (services.filter (fun s => s.Init.isSome)).map
          (fun s => Event.Init s.ptr s.Name (.ret none)) ++
        (services.filter (fun s => s.InitFinished.isSome)).map
          (fun s => Event.InitFinished s.ptr s.Name (.ret none)) := by
  rcases NewServiceSet_cases printable services w with h1 | ⟨pre, s, res, m, -, h2, -, -, h5⟩ |
    ⟨pre, s, res, m, -, h2, -, -, h5⟩
  · exact h1
  · have hs := h (Event.Init s.ptr s.Name res) (by rw [h2]; simp)
    rw [hookSucceeded_Init_failed s.ptr s.Name res m _ h5] at hs
    cases hs
  · have hs := h (Event.InitFinished s.ptr s.Name res) (by rw [h2]; simp)
    rw [hookSucceeded_InitFinished_failed s.ptr s.Name res m _ h5] at hs
    cases hs

theorem NewServiceSet_hook_order_witness :
    (∀ e ∈ (NewServiceSet (V := String) noWidePrintable [svc2, svc4, svc1, svc3] sampleWorld).2.2,
      e.hookSucceeded = true) ∧
    (NewServiceSet (V := String) noWidePrintable [svc2, svc4, svc1, svc3] sampleWorld).1 =
      .ret (NewServiceSet.index [svc2, svc4, svc1, svc3] []) ∧
    (NewServiceSet (V := String) noWidePrintable [svc2, svc4, svc1, svc3] sampleWorld).2.2 =
      [Event.Init 2 "svc2" (.ret none), Event.Init 4 "svc4" (.ret none),
       Event.InitFinished 4 "svc4" (.ret none), Event.InitFinished 3 "svc3" (.ret none)] :=
  ⟨by decide,
    NewServiceSet_hook_order noWidePrintable [svc2, svc4, svc1, svc3] sampleWorld (by decide)⟩

/-- C8: when a hook called by `NewServiceSet` returns a non-nil error, `NewServiceSet`
returns no registry: it panics, and the message holds the name of that service, as printed
by `%q`, and the text of the error.  That hook call is the last call made and every
earlier hook call returned nil, so the service is the first one to fail; when the failing
hook is an `Init`, no `InitFinished` has been called.  For a name of printable ASCII
characters without double quote and backslash, `%q` prints the name itself between double
quotes. -/
theorem NewServiceSet_hook_error {σ V : Type} (printable : Char → Bool)
    (services : List (Service σ V)) (w : World σ) (ptr : Addr) (name : String)
    (err : GoError) :
    (Event.Init ptr name (.ret (some err)) ∈ (NewServiceSet printable services w).2.2 →
      (NewServiceSet printable services w).1 =
        .panic ("error initialising service " ++ strconv.Quote printable name ++ " :: " ++ err.Error) ∧
      (∃ pre, (NewServiceSet printable services w).2.2 =
          pre ++ [Event.Init ptr name (.ret (some err))] ∧
        ∀ e ∈ pre, e.hookSucceeded = true) ∧
      (NewServiceSet printable services w).2.2.filter Event.isInitFinished = [] ∧
      ∃ s ∈ services, s.ptr = ptr ∧ s.Name = name) ∧
    (Event.InitFinished ptr name (.ret (some err)) ∈ (NewServiceSet printable services w).2.2 →
      (NewServiceSet printable services w).1 =
        .panic ("InitFinished error in service " ++ strconv.Quote printable name ++ " :: " ++ err.Error) ∧
      (∃ pre, (NewServiceSet printable services w).2.2 =
          pre ++ [Event.InitFinished ptr name (.ret (some err))] ∧
        ∀ e ∈ pre, e.hookSucceeded = true) ∧
      ∃ s ∈ services, s.ptr = ptr ∧ s.Name = name) ∧
    (plainName name → strconv.Quote printable name = "\"" ++ name ++ "\"") := by
  refine ⟨?_, ?_, Quote_plainName printable name⟩
  · intro hmem
    rcases NewServiceSet_cases printable services w with ⟨-, h2⟩ | ⟨pre, s, res, m, h1, h2, h3, h4, h5⟩ |
      ⟨pre, s, res, m, -, h2, -, h4, -⟩
    · rw [h2] at hmem
      simp at hmem
    · rw [h2] at hmem ⊢
      rcases List.mem_append.mp hmem with h | h
      · have := (h4 _ h).1
        cases this
      · simp only [List.mem_singleton, Event.Init.injEq] at h
        obtain ⟨hp, hn, hres⟩ := h
        subst hres
        rcases h5 with h5 | ⟨err2, h5, hm⟩
        · cases h5
        · cases h5
          refine ⟨by rw [h1, hm, hn], ⟨pre, by rw [hp, hn], fun e he => (h4 e he).1⟩, ?_,
            ⟨s, h3, hp.symm, hn.symm⟩⟩
          rw [List.filter_eq_nil_iff]
          intro e he
          rcases List.mem_append.mp he with h | h
          · rw [isInitFinished_of_isInit e (h4 e h).2]
            simp
          · rw [List.mem_singleton.mp h]
            simp [Event.isInitFinished]
    · rw [h2] at hmem
      rcases List.mem_append.mp hmem with h | h
      · have := h4 _ h
        cases this
      · simp at h
  · intro hmem
    rcases NewServiceSet_cases printable services w with ⟨-, h2⟩ | ⟨pre, s, res, m, -, h2, -, h4, -⟩ |
      ⟨pre, s, res, m, h1, h2, h3, h4, h5⟩
    · rw [h2] at hmem
      simp at hmem
    · rw [h2] at hmem
      rcases List.mem_append.mp hmem with h | h
      · have := (h4 _ h).1
        cases this
      · simp at h
    · rw [h2] at hmem ⊢
      rcases List.mem_append.mp hmem with h | h
      · have := h4 _ h
        cases this
      · simp only [List.mem_singleton, Event.InitFinished.injEq] at h
        obtain ⟨hp, hn, hres⟩ := h
        subst hres
        rcases h5 with h5 | ⟨err2, h5, hm⟩
        · cases h5
        · cases h5
          exact ⟨by rw [h1, hm, hn], ⟨pre, by rw [hp, hn], h4⟩, ⟨s, h3, hp.symm, hn.symm⟩⟩

theorem NewServiceSet_hook_error_witness :
    Event.Init 5 "bad" (.ret (some { Error := "boom" })) ∈
      (NewServiceSet (V := String) noWidePrintable [svc2, svcBadInit, svc1, svc3] sampleWorld).2.2 ∧
    (NewServiceSet (V := String) noWidePrintable [svc2, svcBadInit, svc1, svc3] sampleWorld).1 =
      .panic "error initialising service \"bad\" :: boom" ∧
    (NewServiceSet (V := String) noWidePrintable [svc2, svcBadInit, svc1, svc3]
      sampleWorld).2.2.filter Event.isInitFinished = [] ∧
    Event.InitFinished 7 "late" (.ret (some { Error := "bang" })) ∈
      (NewServiceSet (V := String) noWidePrintable [svc4, svcBadInitFinished, svc3]
        sampleWorld).2.2 ∧
    (NewServiceSet (V := String) noWidePrintable [svc4, svcBadInitFinished, svc3] sampleWorld).1 =
      .panic "InitFinished error in service \"late\" :: bang" :=
  ⟨List.Mem.tail _ (List.Mem.head _),
    ((NewServiceSet_hook_error noWidePrintable [svc2, svcBadInit, svc1, svc3] sampleWorld 5 "bad"
      { Error := "boom" }).1 (List.Mem.tail _ (List.Mem.head _))).1,
    ((NewServiceSet_hook_error noWidePrintable [svc2, svcBadInit, svc1, svc3] sampleWorld 5 "bad"
      { Error := "boom" }).1 (List.Mem.tail _ (List.Mem.head _))).2.2.1,
    List.Mem.tail _ (List.Mem.tail _ (List.Mem.tail _ (List.Mem.head _))),
    ((NewServiceSet_hook_error noWidePrintable [svc4, svcBadInitFinished, svc3] sampleWorld 7 "late"
      { Error := "bang" }).2.1
      (List.Mem.tail _ (List.Mem.tail _ (List.Mem.tail _ (List.Mem.head _))))).1⟩


/-- C9: on a registry returned by `NewServiceSet(services...)`, `LookupService(n)` returns
`(svc, nil)` with `svc` one of the services and `svc.Name() == n` when some service of the
list is called `n`, and returns `(nil, err)` with a non-nil `err` when none is; it is a
function that has no way to panic. -/
theorem LookupService_found_or_error {σ V : Type} (printable : Char → Bool)
    (services : List (Service σ V)) (w : World σ) (ss : serviceSet σ V)
    (h : (NewServiceSet printable services w).1 = .ret ss) (n : String) :
    ((∃ s ∈ services, s.Name = n) →
      ∃ svc ∈ services, ss.LookupService n = (some svc, none) ∧ svc.Name = n) ∧
    ((∀ s ∈ services, s.Name ≠ n) →
      ss.LookupService n = (none, some { Error := "service not found: " ++ n })) := by
  have hss := NewServiceSet_registry printable services w ss h
  subst hss
  constructor
  · intro hex
    obtain ⟨pre, s, post, h1, h2, h3⟩ := exists_last_named services n hex
    refine ⟨s, by rw [h1]; simp, ?_, h2⟩
    subst h2
    have := index_get?_last pre post s ([] : serviceSet σ V) h3
    simp only [serviceSet.LookupService, h1, this]
  · intro hno
    have := index_get?_other services ([] : serviceSet σ V) n hno
    simp only [serviceSet.LookupService, this]
    rfl

theorem LookupService_found_or_error_witness :
    (NewServiceSet (V := String) noWidePrintable [svc1, svc2] sampleWorld).1 =
      .ret (NewServiceSet.index [svc1, svc2] []) ∧
    (∃ svc ∈ [svc1, svc2],
      (NewServiceSet.index [svc1, svc2] []).LookupService "svc2" = (some svc, none) ∧
      svc.Name = "svc2") ∧
    (NewServiceSet.index [svc1, svc2] []).LookupService "svc3" =
      (none, some { Error := "service not found: svc3" }) :=
  ⟨rfl,
    (LookupService_found_or_error noWidePrintable [svc1, svc2] sampleWorld _ rfl "svc2").1
      ⟨svc2, by simp, rfl⟩,
    (LookupService_found_or_error noWidePrintable [svc1, svc2] sampleWorld _ rfl "svc3").2
      (by simp [svc1, svc2])⟩

/-- C10: a list in which several services have the same name is accepted: `NewServiceSet`
panics only when a hook call does not return nil, never because of the names; and on the
registry it returns, `LookupService(name)` returns the last service of the list that has
that name, so that an earlier service of the same name is not what lookup returns. -/
theorem NewServiceSet_duplicate_names {σ V : Type} (printable : Char → Bool)
    (services : List (Service σ V)) (w : World σ) :
    (∀ m, (NewServiceSet printable services w).1 = .panic m →
      ∃ e ∈ (NewServiceSet printable services w).2.2, e.hookSucceeded = false) ∧
    ((∀ e ∈ (NewServiceSet printable services w).2.2, e.hookSucceeded = true) →
      ∃ ss, (NewServiceSet printable services w).1 = .ret ss) ∧
    (∀ (ss : serviceSet σ V) (pre post : List (Service σ V)) (s : Service σ V),
      (NewServiceSet printable services w).1 = .ret ss → services = pre ++ s :: post →
      (∀ t ∈ post, t.Name ≠ s.Name) →
      ss.LookupService s.Name = (some s, none)) := by
  refine ⟨?_, ?_, ?_⟩
  · intro m hm
    rcases NewServiceSet_cases printable services w with ⟨h1, -⟩ | ⟨pre, s, res, m2, -, h2, -, -, h5⟩ |
      ⟨pre, s, res, m2, -, h2, -, -, h5⟩
    · rw [h1] at hm; cases hm
    · exact ⟨_, by rw [h2]; simp, hookSucceeded_Init_failed s.ptr s.Name res m2 _ h5⟩
    · exact ⟨_, by rw [h2]; simp, hookSucceeded_InitFinished_failed s.ptr s.Name res m2 _ h5⟩
  · intro h
    rcases NewServiceSet_cases printable services w with ⟨h1, -⟩ | ⟨pre, s, res, m, -, h2, -, -, h5⟩ |
      ⟨pre, s, res, m, -, h2, -, -, h5⟩
    · exact ⟨_, h1⟩
    · have hs := h (Event.Init s.ptr s.Name res) (by rw [h2]; simp)
      rw [hookSucceeded_Init_failed s.ptr s.Name res m _ h5] at hs
      cases hs
    · have hs := h (Event.InitFinished s.ptr s.Name res) (by rw [h2]; simp)
      rw [hookSucceeded_InitFinished_failed s.ptr s.Name res m _ h5] at hs
      cases hs
  · intro ss pre post s hret hsplit hlast
    have hss := NewServiceSet_registry printable services w ss hret
    subst hss
    have := index_get?_last pre post s ([] : serviceSet σ V) hlast
    simp only [serviceSet.LookupService, hsplit, this]

theorem NewServiceSet_duplicate_names_witness :
    (NewServiceSet (V := String) noWidePrintable [svc1, svc2, svc1b] sampleWorld).1 =
      .ret (NewServiceSet.index [svc1, svc2, svc1b] []) ∧
    svc1.Name = svc1b.Name ∧ svc1.ptr ≠ svc1b.ptr ∧
    (NewServiceSet.index [svc1, svc2, svc1b] []).LookupService "svc1" = (some svc1b, none) :=
  ⟨rfl, rfl, by decide,
    (NewServiceSet_duplicate_names noWidePrintable [svc1, svc2, svc1b] sampleWorld).2.2
      _ [svc1, svc2] [] svc1b rfl rfl (fun t ht => by cases ht)⟩

/-! ## Error codes and HTTP statuses -/

theorem codeToStatus_other (code : String) (h1 : code ≠ "C-BAD-REQUEST")
    (h2 : code ≠ "C-NOT-FOUND") (h3 : code ≠ "C-BAD-CONTENT-TYPE") :
    GoMap.get? config.codeToStatus code = none := by
  have e1 : ("C-BAD-REQUEST" == code) = false := by simpa using fun e => h1 e.symm
  have e2 : ("C-NOT-FOUND" == code) = false := by simpa using fun e => h2 e.symm
  have e3 : ("C-BAD-CONTENT-TYPE" == code) = false := by simpa using fun e => h3 e.symm
  simp only [GoMap.get?, config.codeToStatus, config.ErrorCodeBadRequest,
    config.ErrorCodeNotFound, config.ErrorCodeBadRequestContentType, List.find?, e1, e2, e3,
    Option.map]

theorem ErrorCodeToHTTPStatus_other (code : String) (h1 : code ≠ "C-BAD-REQUEST")
    (h2 : code ≠ "C-NOT-FOUND") (h3 : code ≠ "C-BAD-CONTENT-TYPE") :
    config.ErrorCodeToHTTPStatus code =
      if strings.HasPrefix code "C-" then 400 else 500 := by
  simp only [config.ErrorCodeToHTTPStatus, codeToStatus_other code h1 h2 h3,
    config.ClientErrorCodePrefix]

theorem HasPrefix_S_not_C (code : String) (h : strings.HasPrefix code "S-" = true) :
    strings.HasPrefix code "C-" = false := by
  unfold strings.HasPrefix at h ⊢
  rcases hd : code.data with _ | ⟨a, _ | ⟨b, rest⟩⟩
  · rw [hd] at h; simp [List.isPrefixOf] at h
  · rw [hd] at h; simp [List.isPrefixOf] at h
  · rw [hd] at h
    simp only [List.isPrefixOf, Bool.and_true, Bool.and_eq_true, beq_iff_eq] at h
    simp only [List.isPrefixOf, Bool.and_true, Bool.and_eq_false_imp, beq_iff_eq]
    intro hC
    have := h.1
    rw [← hC] at this
    exact absurd this (by decide)

/-- C11: `ErrorCodeToHTTPStatus` maps the three well-known codes to their fixed statuses,
400 for `C-BAD-REQUEST`, 404 for `C-NOT-FOUND` and 415 for `C-BAD-CONTENT-TYPE`; each of
them starts with `C-`, for which the generic rule alone would give 400, so the table
entry is what decides. -/
theorem ErrorCodeToHTTPStatus_table :
    config.ErrorCodeToHTTPStatus "C-BAD-REQUEST" = 400 ∧
    config.ErrorCodeToHTTPStatus "C-NOT-FOUND" = 404 ∧
    config.ErrorCodeToHTTPStatus "C-BAD-CONTENT-TYPE" = 415 ∧
    config.ErrorCodeToHTTPStatus config.ErrorCodeBadRequest = 400 ∧
    config.ErrorCodeToHTTPStatus config.ErrorCodeNotFound = 404 ∧
    config.ErrorCodeToHTTPStatus config.ErrorCodeBadRequestContentType = 415 ∧
    strings.HasPrefix "C-NOT-FOUND" config.ClientErrorCodePrefix = true ∧
    strings.HasPrefix "C-BAD-CONTENT-TYPE" config.ClientErrorCodePrefix = true ∧
    strings.HasPrefix "C-BAD-REQUEST" config.ClientErrorCodePrefix = true := by
  decide

/-- C12: for a code that is none of the three table entries, `ErrorCodeToHTTPStatus` is
400 when the code starts with `C-` and 500 otherwise; in particular it is 500 for every
code that starts with `S-`. -/
theorem ErrorCodeToHTTPStatus_generic (code : String) (h1 : code ≠ "C-BAD-REQUEST")
    (h2 : code ≠ "C-NOT-FOUND") (h3 : code ≠ "C-BAD-CONTENT-TYPE") :
    (strings.HasPrefix code "C-" = true → config.ErrorCodeToHTTPStatus code = 400) ∧
    (strings.HasPrefix code "C-" = false → config.ErrorCodeToHTTPStatus code = 500) ∧
    (strings.HasPrefix code "S-" = true → config.ErrorCodeToHTTPStatus code = 500) := by
  rw [ErrorCodeToHTTPStatus_other code h1 h2 h3]
  refine ⟨fun h => by rw [h]; rfl, fun h => by rw [h]; rfl, fun h => ?_⟩
  rw [HasPrefix_S_not_C code h]
  rfl

theorem ErrorCodeToHTTPStatus_generic_witness :
    config.ErrorCodeToHTTPStatus "C-" = 400 ∧
    config.ErrorCodeToHTTPStatus "C-WHATEVER" = 400 ∧
    config.ErrorCodeToHTTPStatus "" = 500 ∧
    config.ErrorCodeToHTTPStatus "S-WHATEVER" = 500 ∧
    config.ErrorCodeToHTTPStatus "c-lower" = 500 :=
  ⟨(ErrorCodeToHTTPStatus_generic "C-" (by decide) (by decide) (by decide)).1 (by decide),
   (ErrorCodeToHTTPStatus_generic "C-WHATEVER" (by decide) (by decide) (by decide)).1
     (by decide),
   (ErrorCodeToHTTPStatus_generic "" (by decide) (by decide) (by decide)).2.1 (by decide),
   (ErrorCodeToHTTPStatus_generic "S-WHATEVER" (by decide) (by decide) (by decide)).2.2
     (by decide),
   (ErrorCodeToHTTPStatus_generic "c-lower" (by decide) (by decide) (by decide)).2.1
     (by decide)⟩

/-- C13: the status is a function of the code alone; it is one of 400, 404, 415 and 500;
and it is a 4xx status exactly when the code starts with the caller-fault marker `C-`. -/
theorem ErrorCodeToHTTPStatus_class (code : String) :
    (config.ErrorCodeToHTTPStatus code = 400 ∨ config.ErrorCodeToHTTPStatus code = 404 ∨
      config.ErrorCodeToHTTPStatus code = 415 ∨ config.ErrorCodeToHTTPStatus code = 500) ∧
    (config.ErrorCodeToHTTPStatus code / 100 = 4 ↔
      strings.HasPrefix code config.ClientErrorCodePrefix = true) := by
  by_cases h1 : code = "C-BAD-REQUEST"
  · subst h1; decide
  by_cases h2 : code = "C-NOT-FOUND"
  · subst h2; decide
  by_cases h3 : code = "C-BAD-CONTENT-TYPE"
  · subst h3; decide
  rw [ErrorCodeToHTTPStatus_other code h1 h2 h3]
  show _ ∧ (_ ↔ strings.HasPrefix code "C-" = true)
  cases strings.HasPrefix code "C-" <;> decide


/-! ## Lemmas on headers and `util` errors -/

theorem Header_Get_Set_self (h : nethttp.Header) (k v : String) : (h.Set k v).Get k = v := by
  simp [nethttp.Header.Get, nethttp.Header.Set, GoMap_get?_set]

theorem Header_Get_Set_other (h : nethttp.Header) (k k2 v : String) (hne : k2 ≠ k) :
    (h.Set k v).Get k2 = h.Get k2 := by
  simp [nethttp.Header.Get, nethttp.Header.Set, GoMap_get?_set, hne]

theorem GetErrCode_ErrCode_none (code msg : String) :
    util.GetErrCode (util.ErrCode none code msg) = code := rfl

theorem Error_ErrCode_none (code msg : String) : (util.ErrCode none code msg).Error = msg := rfl

theorem GetErrCode_ErrCode_code (cause : Option GoError) (code msg : String) (h : code ≠ "") :
    util.GetErrCode (util.ErrCode cause code msg) = code := by
  cases cause with
  | none => rfl
  | some c => simp [util.ErrCode, h, util.nanoError.toError, util.GetErrCode, util.nanoError.Code]

theorem GetErrCode_Err_some (cause : GoError) (msg : String) :
    util.GetErrCode (util.Err (some cause) msg) = util.GetErrCode cause := by
  simp [util.Err, util.ErrCode, util.nanoError.toError, util.GetErrCode, util.nanoError.Code]

theorem ErrorCodeToHTTPStatus_values (code : String) :
    config.ErrorCodeToHTTPStatus code = 400 ∨ config.ErrorCodeToHTTPStatus code = 404 ∨
      config.ErrorCodeToHTTPStatus code = 415 ∨ config.ErrorCodeToHTTPStatus code = 500 := by
  by_cases h1 : code = "C-BAD-REQUEST"
  · subst h1; decide
  by_cases h2 : code = "C-NOT-FOUND"
  · subst h2; decide
  by_cases h3 : code = "C-BAD-CONTENT-TYPE"
  · subst h3; decide
  rw [ErrorCodeToHTTPStatus_other code h1 h2 h3]
  cases strings.HasPrefix code "C-" <;> decide

theorem ErrorCodeToHTTPStatus_not_2xx (code : String) :
    config.ErrorCodeToHTTPStatus code / 100 ≠ 2 := by
  rcases ErrorCodeToHTTPStatus_values code with h | h | h | h <;> rw [h] <;> decide

/-! ## The JSON serializer: error responses -/

theorem sendErrorResponse_ok {D : Type} (lib : GoLib D) (w : nethttp.ResponseWriter)
    (e : GoError) (b : List Nat)
    (hw : w.status = none ∧ w.writeErr = none)
    (hM : lib.MarshalErrorResponse { Code := util.GetErrCode e, Msg := e.Error } = .ok b) :
    json.sendErrorResponse lib w e =
      (none, { w with
        header := w.header.Set "Content-Type" "application/json; charset=utf-8"
        status := some (config.ErrorCodeToHTTPStatus (util.GetErrCode e))
        body := w.body ++ b }) := by
  obtain ⟨h1, h2⟩ := hw
  simp [json.sendErrorResponse, hM, nethttp.ResponseWriter.SetHeader,
    nethttp.ResponseWriter.WriteHeader, nethttp.ResponseWriter.Write, h1, h2]

theorem DeserializeResponse_contentType_json {D : Type} (lib : GoLib D)
    (ec : config.EndpointConfig) (resp : nethttp.Response) (hlib : lib.readsJSONContentType)
    (hct : resp.Header.Get "Content-Type" = "application/json; charset=utf-8") :
    json.respDeserializer.DeserializeResponse.contentType lib ec resp = none := by
  obtain ⟨mp, hp, hcs⟩ := hlib
  unfold json.respDeserializer.DeserializeResponse.contentType
  cases ec.RespType with
  | none => rfl
  | some t =>
    simp only [hct, hp]
    rcases hg : GoMap.get? mp "charset" with _ | cs
    · simp
    · simp [hcs cs hg]

/-- C14: for the JSON protocol, when `SerializeResponse` is given an error `e` and a
fresh response writer, it writes the status `ErrorCodeToHTTPStatus(GetErrCode(e))` and
returns nil; and `DeserializeResponse`, for the same endpoint and a response that carries
what was written, returns `(nil, respErr, nil)` with `GetErrCode(respErr) == GetErrCode(e)`
and `respErr.Error() == e.Error()`.  This holds for every error, with or without a code
or a cause, and for every endpoint, with or without a response type.  The JSON codec is
assumed to decode the `ErrorResponse` it encoded, and the media type parser to read back
the content type the serializer writes. -/
theorem error_response_roundtrip {D : Type} (lib : GoLib D) (ec : config.EndpointConfig)
    (c c2 : Option Ctx) (r : nethttp.Request) (w : nethttp.ResponseWriter)
    (resp : Option (GoValue D)) (e : GoError) (b : List Nat) (hr : nethttp.Response)
    (hw : w.status = none ∧ w.body = [] ∧ w.writeErr = none)
    (hM : lib.MarshalErrorResponse { Code := util.GetErrCode e, Msg := e.Error } = .ok b)
    (hU : lib.UnmarshalErrorResponse b = .ok { Code := util.GetErrCode e, Msg := e.Error })
    (hlib : lib.readsJSONContentType)
    (hcar : hr.carries (json.respSerializer.SerializeResponse lib ec c w r resp (some e)).2) :
    (json.respSerializer.SerializeResponse lib ec c w r resp (some e)).1 = none ∧
    (json.respSerializer.SerializeResponse lib ec c w r resp (some e)).2.status =
      some (config.ErrorCodeToHTTPStatus (util.GetErrCode e)) ∧
    ∃ respErr, json.respDeserializer.DeserializeResponse lib ec c2 hr = (none, some respErr, none) ∧
      util.GetErrCode respErr = util.GetErrCode e ∧ respErr.Error = e.Error := by
  have hs : json.respSerializer.SerializeResponse lib ec c w r resp (some e) =
      json.sendErrorResponse lib w e := rfl
  rw [hs, sendErrorResponse_ok lib w e b ⟨hw.1, hw.2.2⟩ hM] at hcar ⊢
  obtain ⟨h1, h2, h3⟩ := hcar
  simp only [Option.getD_some] at h1
  rw [Header_Get_Set_self] at h2
  rw [hw.2.1, List.nil_append] at h3
  refine ⟨rfl, rfl, util.ErrCode none (util.GetErrCode e) e.Error, ?_,
    GetErrCode_ErrCode_none _ _, Error_ErrCode_none _ _⟩
  have hst : hr.StatusCode / 100 ≠ 2 := by
    rw [h1]; exact ErrorCodeToHTTPStatus_not_2xx _
  simp only [json.respDeserializer.DeserializeResponse,
    DeserializeResponse_contentType_json lib ec hr hlib h2, hst, ne_eq, not_false_eq_true,
    if_true, ioutil.ReadAll, h3, Option.map, hU]

theorem sampleLib_readsJSONContentType : sampleLib.readsJSONContentType :=
  ⟨[("charset", "utf-8")], rfl, fun cs h => by cases h; rfl⟩

theorem error_response_roundtrip_witness :
    (json.respSerializer.SerializeResponse sampleLib endpointConfigWithContent (some testCtx)
      newRecorder emptyRequest none
      (some (util.ErrCode (some { Error := "disk full" }) "C-WHATEVER" "test error"))).2.status
      = some 400 ∧
    ∃ respErr,
      json.respDeserializer.DeserializeResponse sampleLib endpointConfigWithContent
        (some testCtx)
        { StatusCode := 400, Status := "400 Bad Request",
          Header := [("Content-Type", ["application/json; charset=utf-8"]),
            ("Content-Length", ["33"])],
          Body := { data := (sampleMarshalErrorResponse
            { Code := "C-WHATEVER", Msg := "test error :: disk full" }), err := none },
          ContentLength := 33 } = (none, some respErr, none) ∧
      util.GetErrCode respErr = "C-WHATEVER" ∧ respErr.Error = "test error :: disk full" :=
  (error_response_roundtrip sampleLib endpointConfigWithContent (some testCtx) (some testCtx)
    emptyRequest newRecorder none
    (util.ErrCode (some { Error := "disk full" }) "C-WHATEVER" "test error")
    (sampleMarshalErrorResponse { Code := "C-WHATEVER", Msg := "test error :: disk full" })
    _ ⟨rfl, rfl, rfl⟩ rfl rfl sampleLib_readsJSONContentType ⟨rfl, rfl, rfl⟩).2


/-! ## The JSON serializer: requests -/

theorem SerializeRequest_body {D : Type} (lib : GoLib D) (ec : config.EndpointConfig)
    (c : Ctx) (req : Option (GoValue D)) :
    (json.reqSerializer.SerializeRequest lib ec c req).2 =
      if ec.HasReqContent then
        match lib.Marshal req with
        | .ok body => (body, none)
        | .error err => ([], some (util.Err (some err) "error marshaling request"))
      else ([], none) := by
  unfold json.reqSerializer.SerializeRequest
  cases ec.HasReqContent with
  | false => rfl
  | true =>
    cases lib.Marshal req <;> rfl

theorem SerializeRequest_header {D : Type} (lib : GoLib D) (ec : config.EndpointConfig)
    (c : Ctx) (req : Option (GoValue D))
    (h : (json.reqSerializer.SerializeRequest lib ec c req).2.2 = none) :
    GoMap.get? (json.reqSerializer.SerializeRequest lib ec c req).1 json.HeaderReqID =
      (if c.ReqID = "" then none else some [c.ReqID]) ∧
    GoMap.get? (json.reqSerializer.SerializeRequest lib ec c req).1 json.HeaderClientName =
      (if c.ClientName = "" then none else some [c.ClientName]) ∧
    GoMap.get? (json.reqSerializer.SerializeRequest lib ec c req).1 "Content-Type" =
      (if ec.HasReqContent then some ["application/json; charset=utf-8"] else none) ∧
    ∀ k, k ≠ json.HeaderReqID → k ≠ json.HeaderClientName → k ≠ "Content-Type" →
      GoMap.get? (json.reqSerializer.SerializeRequest lib ec c req).1 k = none := by
  have hb := SerializeRequest_body lib ec c req
  have k1 : json.HeaderReqID ≠ json.HeaderClientName := by decide
  have k2 : json.HeaderReqID ≠ "Content-Type" := by decide
  have k3 : json.HeaderClientName ≠ "Content-Type" := by decide
  have k4 : json.HeaderClientName ≠ json.HeaderReqID := by decide
  have k5 : "Content-Type" ≠ json.HeaderReqID := by decide
  have k6 : "Content-Type" ≠ json.HeaderClientName := by decide
  have hnil : ∀ k : String, GoMap.get? ([] : nethttp.Header) k = none := fun _ => rfl
  unfold json.reqSerializer.SerializeRequest at h ⊢
  cases hc : ec.HasReqContent with
  | false =>
    simp only [hc, Bool.false_eq_true, if_false]
    by_cases h1 : c.ReqID = "" <;> by_cases h2 : c.ClientName = "" <;>
      simp [h1, h2, nethttp.Header.Set, GoMap_get?_set, hnil, k1, k2, k3, k4, k5, k6] <;>
      intro k e1 e2 e3 <;> simp [e1, e2, e3]
  | true =>
    rcases hm : lib.Marshal req with err | body
    · simp [hc, hm] at h
    · simp only [hc, hm, if_true]
      by_cases h1 : c.ReqID = "" <;> by_cases h2 : c.ClientName = "" <;>
        simp [h1, h2, nethttp.Header.Set, GoMap_get?_set, hnil, k1, k2, k3, k4, k5, k6] <;>
        intro k e1 e2 e3 <;> simp [e1, e2, e3]

theorem SerializeRequest_Get {D : Type} (lib : GoLib D) (ec : config.EndpointConfig)
    (c : Ctx) (req : Option (GoValue D))
    (h : (json.reqSerializer.SerializeRequest lib ec c req).2.2 = none) :
    (json.reqSerializer.SerializeRequest lib ec c req).1.Get json.HeaderReqID = c.ReqID ∧
    (json.reqSerializer.SerializeRequest lib ec c req).1.Get json.HeaderClientName =
      c.ClientName ∧
    (json.reqSerializer.SerializeRequest lib ec c req).1.Get "Content-Type" =
      (if ec.HasReqContent then "application/json; charset=utf-8" else "") := by
  obtain ⟨h1, h2, h3, -⟩ := SerializeRequest_header lib ec c req h
  refine ⟨?_, ?_, ?_⟩
  · rw [nethttp.Header.Get, h1]
    by_cases e : c.ReqID = "" <;> simp [e]
  · rw [nethttp.Header.Get, h2]
    by_cases e : c.ClientName = "" <;> simp [e]
  · rw [nethttp.Header.Get, h3]
    cases ec.HasReqContent <;> simp

theorem DeserializeRequest_contentType_json {D : Type} (lib : GoLib D)
    (ec : config.EndpointConfig) (r : nethttp.Request) (hlib : lib.readsJSONContentType)
    (hct : ec.HasReqContent = true →
      r.Header.Get "Content-Type" = "application/json; charset=utf-8") :
    json.reqDeserializer.DeserializeRequest.contentType lib ec r = none := by
  obtain ⟨mp, hp, hcs⟩ := hlib
  unfold json.reqDeserializer.DeserializeRequest.contentType
  cases hc : ec.HasReqContent with
  | false => rfl
  | true =>
    simp only [hct hc, hp, if_true]
    rcases hg : GoMap.get? mp "charset" with _ | cs
    · simp
    · simp [hcs cs hg]

theorem DeserializeRequest_of_SerializeRequest {D : Type} (lib : GoLib D)
    (ec : config.EndpointConfig) (c : Ctx) (req : Option (GoValue D)) (r : nethttp.Request)
    (hlib : lib.readsJSONContentType)
    (hser : (json.reqSerializer.SerializeRequest lib ec c req).2.2 = none)
    (hcar : r.carries (json.reqSerializer.SerializeRequest lib ec c req).1
      (json.reqSerializer.SerializeRequest lib ec c req).2.1) :
    (ec.HasReqContent = false →
      json.reqDeserializer.DeserializeRequest lib ec r =
        (some (reflect.New lib.zero ec.ReqType),
          { ReqID := c.ReqID, ClientName := c.ClientName }, none)) ∧
    (ec.HasReqContent = true → ∀ body v, lib.Marshal req = .ok body →
      lib.Unmarshal body (reflect.New lib.zero ec.ReqType) = .ok v →
      json.reqDeserializer.DeserializeRequest lib ec r =
        (some v, { ReqID := c.ReqID, ClientName := c.ClientName }, none)) := by
  obtain ⟨g1, g2, g3⟩ := SerializeRequest_Get lib ec c req hser
  obtain ⟨c1, c2, c3, c4, c5⟩ := hcar
  rw [g3] at c1; rw [g1] at c2; rw [g2] at c3
  have hb := SerializeRequest_body lib ec c req
  have hct := DeserializeRequest_contentType_json lib ec r hlib
    (fun hc => by rw [c1, hc]; rfl)
  constructor
  · intro hc
    rw [hc] at hb
    have hbody : (json.reqSerializer.SerializeRequest lib ec c req).2.1 = [] := by rw [hb]; rfl
    rw [hbody] at c4 c5
    simp only [json.reqDeserializer.DeserializeRequest, hct, hc, c2, c3, Bool.false_eq_true,
      if_false]
    rcases c5 with c5 | c5
    · simp [c5]
    · simp [c5, c4, nethttp.Body.Read1]
  · intro hc body v hm hu
    rw [hc, hm] at hb
    have hbody : (json.reqSerializer.SerializeRequest lib ec c req).2.1 = body := by
      rw [hb]; rfl
    rw [hbody] at c4
    simp [json.reqDeserializer.DeserializeRequest, hct, hc, c2, c3, ioutil.ReadAll, c4, hu]


theorem GetErrCode_ErrCodef {D : Type} (lib : GoLib D) (cause : Option GoError)
    (code format : String) (a : List (FmtArg D)) (h : code ≠ "") :
    util.GetErrCode (util.ErrCodef lib cause code format a) = code :=
  GetErrCode_ErrCode_code cause code _ h

/-- C15, as amended: for an endpoint with `HasReqContent = true` and a request object that
the JSON codec round-trips, `DeserializeRequest` applied to a request that carries the
headers and body made by `SerializeRequest` succeeds and returns that object; for an
endpoint with `HasReqContent = false` no body is sent, and `DeserializeRequest` succeeds
and returns a new zero value of the request type, whatever the fields of the object. -/
theorem request_roundtrip {D : Type} (lib : GoLib D) (ec : config.EndpointConfig) (c : Ctx)
    (r0 : GoValue D) (r : nethttp.Request) (hlib : lib.readsJSONContentType)
    (hser : (json.reqSerializer.SerializeRequest lib ec c (some r0)).2.2 = none)
    (hcar : r.carries (json.reqSerializer.SerializeRequest lib ec c (some r0)).1
      (json.reqSerializer.SerializeRequest lib ec c (some r0)).2.1) :
    (ec.HasReqContent = true →
      (∀ body, lib.Marshal (some r0) = .ok body →
        lib.Unmarshal body (reflect.New lib.zero ec.ReqType) = .ok r0) →
      json.reqDeserializer.DeserializeRequest lib ec r =
        (some r0, { ReqID := c.ReqID, ClientName := c.ClientName }, none)) ∧
    (ec.HasReqContent = false →
      (json.reqSerializer.SerializeRequest lib ec c (some r0)).2.1 = [] ∧
      json.reqDeserializer.DeserializeRequest lib ec r =
        (some (reflect.New lib.zero ec.ReqType),
          { ReqID := c.ReqID, ClientName := c.ClientName }, none)) := by
  obtain ⟨h1, h2⟩ := DeserializeRequest_of_SerializeRequest lib ec c (some r0) r hlib hser hcar
  have hb := SerializeRequest_body lib ec c (some r0)
  constructor
  · intro hc hrt
    rcases hm : lib.Marshal (some r0) with err | body
    · rw [hb, hc, hm] at hser
      cases hser
    · exact h2 hc body r0 hm (hrt body hm)
  · intro hc
    refine ⟨?_, h1 hc⟩
    rw [hb, hc]
    rfl

theorem request_roundtrip_witness :
    json.reqDeserializer.DeserializeRequest sampleLib endpointConfigWithContent
        { Header := [(json.HeaderClientName, ["test"]), (json.HeaderReqID, ["TestReqID"]),
            ("Content-Type", ["application/json; charset=utf-8"])],
          Body := { data := [115, 42], err := none }, ContentLength := 2 } =
      (some sampleReq, { ReqID := "TestReqID", ClientName := "test" }, none) :=
  (request_roundtrip sampleLib endpointConfigWithContent testCtx sampleReq
    { Header := [(json.HeaderClientName, ["test"]), (json.HeaderReqID, ["TestReqID"]),
        ("Content-Type", ["application/json; charset=utf-8"])],
      Body := { data := [115, 42], err := none }, ContentLength := 2 }
    sampleLib_readsJSONContentType rfl ⟨rfl, rfl, rfl, rfl, Or.inl rfl⟩).1 rfl
    (fun body h => by cases h; rfl)

/-- C15, as stated, fails for an endpoint without request content: the request object
`sampleReq` has the request type of the endpoint and is round-tripped by the codec, yet
nothing of it is sent, and `DeserializeRequest` returns the zero value, not the object. -/
theorem request_roundtrip_counterexample :
    endpointGetWithFields.HasReqContent = false ∧
    sampleReq.typ = reflect.PtrTo endpointGetWithFields.ReqType ∧
    sampleLib.Marshal (some sampleReq) = .ok [115, 42] ∧
    sampleLib.Unmarshal [115, 42] (reflect.New sampleLib.zero endpointGetWithFields.ReqType) =
      .ok sampleReq ∧
    json.reqSerializer.SerializeRequest sampleLib endpointGetWithFields testCtx (some sampleReq) =
      ([(json.HeaderClientName, ["test"]), (json.HeaderReqID, ["TestReqID"])], [], none) ∧
    json.reqDeserializer.DeserializeRequest sampleLib endpointGetWithFields
        { Header := [(json.HeaderClientName, ["test"]), (json.HeaderReqID, ["TestReqID"])],
          Body := { data := [], err := none }, ContentLength := 0 } =
      (some { typ := .ptr (.named "ReqWithContent"), data := [] },
        { ReqID := "TestReqID", ClientName := "test" }, none) ∧
    (json.reqDeserializer.DeserializeRequest sampleLib endpointGetWithFields
        { Header := [(json.HeaderClientName, ["test"]), (json.HeaderReqID, ["TestReqID"])],
          Body := { data := [], err := none }, ContentLength := 0 }).1 ≠ some sampleReq :=
  ⟨rfl, rfl, rfl, rfl, rfl, rfl, by decide⟩

/-- C16: `SerializeRequest` puts the `ReqID` and the `ClientName` of the context in the
headers `X-Nano-Req-Id` and `X-Nano-Client-Name`, each set exactly when its value is not
empty; the body, the error and every other header are the same for every context; and
`DeserializeRequest`, on a request that carries these headers and this body, returns the
`ReqInfo` with that `ReqID` and that `ClientName`.  For an endpoint with request content
the JSON codec is assumed to decode the body it encoded. -/
theorem request_metadata_in_headers {D : Type} (lib : GoLib D) (ec : config.EndpointConfig)
    (c : Ctx) (req : Option (GoValue D))
    (hser : (json.reqSerializer.SerializeRequest lib ec c req).2.2 = none) :
    GoMap.get? (json.reqSerializer.SerializeRequest lib ec c req).1 json.HeaderReqID =
      (if c.ReqID = "" then none else some [c.ReqID]) ∧
    GoMap.get? (json.reqSerializer.SerializeRequest lib ec c req).1 json.HeaderClientName =
      (if c.ClientName = "" then none else some [c.ClientName]) ∧
    (∀ (c2 : Ctx) (k : String), k ≠ json.HeaderReqID → k ≠ json.HeaderClientName →
      GoMap.get? (json.reqSerializer.SerializeRequest lib ec c2 req).1 k =
        GoMap.get? (json.reqSerializer.SerializeRequest lib ec c req).1 k) ∧
    (∀ c2 : Ctx, (json.reqSerializer.SerializeRequest lib ec c2 req).2 =
      (json.reqSerializer.SerializeRequest lib ec c req).2) ∧
    (∀ r : nethttp.Request, lib.readsJSONContentType →
      r.carries (json.reqSerializer.SerializeRequest lib ec c req).1
        (json.reqSerializer.SerializeRequest lib ec c req).2.1 →
      (ec.HasReqContent = true → ∃ v,
        lib.Unmarshal (json.reqSerializer.SerializeRequest lib ec c req).2.1
          (reflect.New lib.zero ec.ReqType) = .ok v) →
      (json.reqDeserializer.DeserializeRequest lib ec r).2 =
        ({ ReqID := c.ReqID, ClientName := c.ClientName }, none)) := by
  obtain ⟨h1, h2, h3, h4⟩ := SerializeRequest_header lib ec c req hser
  have hbody : ∀ c2 : Ctx, (json.reqSerializer.SerializeRequest lib ec c2 req).2 =
      (json.reqSerializer.SerializeRequest lib ec c req).2 := by
    intro c2
    rw [SerializeRequest_body, SerializeRequest_body]
  refine ⟨h1, h2, ?_, hbody, ?_⟩
  · intro c2 k k1 k2
    have hser2 : (json.reqSerializer.SerializeRequest lib ec c2 req).2.2 = none := by
      rw [hbody c2]; exact hser
    obtain ⟨-, -, g3, g4⟩ := SerializeRequest_header lib ec c2 req hser2
    by_cases k3 : k = "Content-Type"
    · rw [k3, g3, h3]
    · rw [g4 k k1 k2 k3, h4 k k1 k2 k3]
  · intro r hlib hcar hun
    obtain ⟨d1, d2⟩ := DeserializeRequest_of_SerializeRequest lib ec c req r hlib hser hcar
    cases hc : ec.HasReqContent with
    | false => rw [d1 hc]
    | true =>
      obtain ⟨v, hv⟩ := hun hc
      have hb := SerializeRequest_body lib ec c req
      rcases hm : lib.Marshal req with err | body
      · rw [hb, hc, hm] at hser
        cases hser
      · have hbd : (json.reqSerializer.SerializeRequest lib ec c req).2.1 = body := by
          rw [hb, hc, hm]; rfl
        rw [hbd] at hv
        rw [d2 hc body v hm hv]

theorem request_metadata_in_headers_witness :
    (json.reqSerializer.SerializeRequest sampleLib endpointConfigNoContent testCtx
      (some { typ := .ptr (.named "ReqNoContent"), data := [] })).2.2 = none ∧
    GoMap.get? (json.reqSerializer.SerializeRequest sampleLib endpointConfigNoContent testCtx
      (some { typ := .ptr (.named "ReqNoContent"), data := [] })).1 json.HeaderReqID =
      some ["TestReqID"] ∧
    (json.reqDeserializer.DeserializeRequest sampleLib endpointConfigNoContent
      { Header := [(json.HeaderClientName, ["test"]), (json.HeaderReqID, ["TestReqID"])],
        Body := { data := [], err := none }, ContentLength := 0 }).2 =
      ({ ReqID := "TestReqID", ClientName := "test" }, none) :=
  ⟨rfl,
    (request_metadata_in_headers sampleLib endpointConfigNoContent testCtx
      (some { typ := .ptr (.named "ReqNoContent"), data := [] }) rfl).1,
    (request_metadata_in_headers sampleLib endpointConfigNoContent testCtx
      (some { typ := .ptr (.named "ReqNoContent"), data := [] }) rfl).2.2.2.2
      { Header := [(json.HeaderClientName, ["test"]), (json.HeaderReqID, ["TestReqID"])],
        Body := { data := [], err := none }, ContentLength := 0 }
      sampleLib_readsJSONContentType ⟨rfl, rfl, rfl, rfl, Or.inl rfl⟩
      (fun h => by cases h)⟩


/-! ## The JSON serializer: rejected requests -/

theorem contentType_none_of_json {D : Type} (lib : GoLib D) (ec : config.EndpointConfig)
    (r : nethttp.Request) (mp : GoMap String)
    (hp : lib.ParseMediaType (r.Header.Get "Content-Type") = .ok ("application/json", mp))
    (hcs : GoMap.get? mp "charset" = none ∨
      ∃ cs, GoMap.get? mp "charset" = some cs ∧ lib.ToLower cs = "utf-8") :
    r.Header.Get "Content-Type" ≠ "" →
    json.reqDeserializer.DeserializeRequest.contentType lib ec r = none := by
  intro h0
  unfold json.reqDeserializer.DeserializeRequest.contentType
  cases ec.HasReqContent with
  | false => rfl
  | true =>
    simp only [h0, hp, if_true, if_false]
    rcases hcs with h | ⟨cs, h, hl⟩
    · simp [h]
    · simp [h, hl]

/-- C17: for an endpoint with `HasReqContent = true`, `DeserializeRequest` returns an
error with the code `C-BAD-CONTENT-TYPE`, whose status is 415, whenever the `Content-Type`
header is missing, is not parsed as a media type, names a media type other than
`application/json`, or has a `charset` that does not lowercase to `utf-8`; and when the
header is parsed as `application/json` with no `charset`, or with one that lowercases to
`utf-8`, no error that `DeserializeRequest` returns has that code. -/
theorem DeserializeRequest_bad_content_type {D : Type} (lib : GoLib D)
    (ec : config.EndpointConfig) (r : nethttp.Request) (hc : ec.HasReqContent = true) :
    ((r.Header.Get "Content-Type" = "" ∨
      (∃ e, lib.ParseMediaType (r.Header.Get "Content-Type") = .error e) ∨
      (∃ mt mp, lib.ParseMediaType (r.Header.Get "Content-Type") = .ok (mt, mp) ∧
        mt ≠ "application/json") ∨
      (∃ mt mp cs, lib.ParseMediaType (r.Header.Get "Content-Type") = .ok (mt, mp) ∧
        GoMap.get? mp "charset" = some cs ∧ lib.ToLower cs ≠ "utf-8")) →
      ∃ err, json.reqDeserializer.DeserializeRequest lib ec r = (none, {}, some err) ∧
        util.GetErrCode err = "C-BAD-CONTENT-TYPE" ∧
        config.ErrorCodeToHTTPStatus (util.GetErrCode err) = 415) ∧
    ((r.Header.Get "Content-Type" ≠ "" ∧
      ∃ mp, lib.ParseMediaType (r.Header.Get "Content-Type") = .ok ("application/json", mp) ∧
        (GoMap.get? mp "charset" = none ∨
          ∃ cs, GoMap.get? mp "charset" = some cs ∧ lib.ToLower cs = "utf-8")) →
      ∀ err, (json.reqDeserializer.DeserializeRequest lib ec r).2.2 = some err →
        util.GetErrCode err ≠ "C-BAD-CONTENT-TYPE") := by
  have hcode : config.ErrorCodeBadRequestContentType ≠ "" := by decide
  have key : ∀ err, json.reqDeserializer.DeserializeRequest.contentType lib ec r = some err →
      util.GetErrCode err = "C-BAD-CONTENT-TYPE" →
      ∃ err, json.reqDeserializer.DeserializeRequest lib ec r = (none, {}, some err) ∧
        util.GetErrCode err = "C-BAD-CONTENT-TYPE" ∧
        config.ErrorCodeToHTTPStatus (util.GetErrCode err) = 415 := by
    intro err h1 h2
    refine ⟨err, ?_, h2, ?_⟩
    · simp only [json.reqDeserializer.DeserializeRequest, h1]
    · rw [h2]; decide
  have hmissing : r.Header.Get "Content-Type" = "" →
      ∃ err, json.reqDeserializer.DeserializeRequest lib ec r = (none, {}, some err) ∧
        util.GetErrCode err = "C-BAD-CONTENT-TYPE" ∧
        config.ErrorCodeToHTTPStatus (util.GetErrCode err) = 415 := by
    intro h0
    have hct : json.reqDeserializer.DeserializeRequest.contentType lib ec r =
        some (util.ErrCode none config.ErrorCodeBadRequestContentType
          "missing request Content-Type header") := by
      simp only [json.reqDeserializer.DeserializeRequest.contentType, hc, h0, if_true]
    exact key _ hct (GetErrCode_ErrCode_code none _ _ hcode)
  constructor
  · rintro (h | ⟨e, h⟩ | ⟨mt, mp, h, hmt⟩ | ⟨mt, mp, cs, h, hcs, hlow⟩)
    · exact hmissing h
    · by_cases h0 : r.Header.Get "Content-Type" = ""
      · exact hmissing h0
      · have hct : json.reqDeserializer.DeserializeRequest.contentType lib ec r =
            some (util.ErrCodef lib (some e) config.ErrorCodeBadRequestContentType
              "error parsing request Content-Type: %q"
              [.str (r.Header.Get "Content-Type")]) := by
          simp only [json.reqDeserializer.DeserializeRequest.contentType, hc, h0, h, if_true,
            if_false]
        exact key _ hct (GetErrCode_ErrCodef lib _ _ _ _ hcode)
    · by_cases h0 : r.Header.Get "Content-Type" = ""
      · exact hmissing h0
      · have hct : json.reqDeserializer.DeserializeRequest.contentType lib ec r =
            some (util.ErrCodef lib none config.ErrorCodeBadRequestContentType
              "unsupported request Content-Type: %q"
              [.str (r.Header.Get "Content-Type")]) := by
          simp only [json.reqDeserializer.DeserializeRequest.contentType, hc, h0, h, hmt,
            if_true, if_false, ne_eq, not_false_eq_true]
        exact key _ hct (GetErrCode_ErrCodef lib _ _ _ _ hcode)
    · by_cases h0 : r.Header.Get "Content-Type" = ""
      · exact hmissing h0
      · by_cases hmt : mt = "application/json"
        · have hct : json.reqDeserializer.DeserializeRequest.contentType lib ec r =
              some (util.ErrCodef lib none config.ErrorCodeBadRequestContentType
                "unsupported request json charset: %v" [.str cs]) := by
            simp only [json.reqDeserializer.DeserializeRequest.contentType, hc, h0, h, hmt, hcs,
              hlow, if_true, if_false, ne_eq, not_true_eq_false, not_false_eq_true]
          exact key _ hct (GetErrCode_ErrCodef lib _ _ _ _ hcode)
        · have hct : json.reqDeserializer.DeserializeRequest.contentType lib ec r =
              some (util.ErrCodef lib none config.ErrorCodeBadRequestContentType
                "unsupported request Content-Type: %q"
                [.str (r.Header.Get "Content-Type")]) := by
            simp only [json.reqDeserializer.DeserializeRequest.contentType, hc, h0, h, hmt,
              if_true, if_false, ne_eq, not_false_eq_true]
          exact key _ hct (GetErrCode_ErrCodef lib _ _ _ _ hcode)
  · rintro ⟨h0, mp, hp, hcs⟩ err herr
    have hct := contentType_none_of_json lib ec r mp hp hcs h0
    simp only [json.reqDeserializer.DeserializeRequest, hct, hc, if_true, ioutil.ReadAll]
      at herr
    rcases hb : r.Body.err with _ | t
    · rw [hb] at herr
      simp only [Option.map] at herr
      rcases hu : lib.Unmarshal r.Body.data (reflect.New lib.zero ec.ReqType) with e | v
      · rw [hu] at herr
        simp only [Option.some.injEq] at herr
        rw [← herr, GetErrCode_ErrCodef lib _ _ _ _ (by decide)]
        decide
      · rw [hu] at herr
        cases herr
    · rw [hb] at herr
      simp only [Option.map, Option.some.injEq] at herr
      rw [← herr, GetErrCode_Err_some]
      show ("" : String) ≠ "C-BAD-CONTENT-TYPE"
      decide

theorem DeserializeRequest_bad_content_type_witness :
    (∃ err, json.reqDeserializer.DeserializeRequest sampleLib endpointConfigWithContent
        { Header := [("Content-Type", ["text/plain"])],
          Body := { data := [115, 42], err := none }, ContentLength := 2 } =
        (none, {}, some err) ∧
      util.GetErrCode err = "C-BAD-CONTENT-TYPE" ∧
      config.ErrorCodeToHTTPStatus (util.GetErrCode err) = 415) ∧
    (∃ err, json.reqDeserializer.DeserializeRequest sampleLib endpointConfigWithContent
        { Header := [("Content-Type", ["application/json; charset=latin1"])],
          Body := { data := [115, 42], err := none }, ContentLength := 2 } =
        (none, {}, some err) ∧
      util.GetErrCode err = "C-BAD-CONTENT-TYPE" ∧
      config.ErrorCodeToHTTPStatus (util.GetErrCode err) = 415) ∧
    (json.reqDeserializer.DeserializeRequest sampleLib endpointConfigWithContent
        { Header := [("Content-Type", ["application/json"])],
          Body := { data := [115, 42], err := none }, ContentLength := 2 }).2.2 = none :=
  ⟨(DeserializeRequest_bad_content_type sampleLib endpointConfigWithContent
      { Header := [("Content-Type", ["text/plain"])],
        Body := { data := [115, 42], err := none }, ContentLength := 2 } rfl).1
      (Or.inr (Or.inr (Or.inl ⟨"text/plain", [], rfl, by decide⟩))),
    (DeserializeRequest_bad_content_type sampleLib endpointConfigWithContent
      { Header := [("Content-Type", ["application/json; charset=latin1"])],
        Body := { data := [115, 42], err := none }, ContentLength := 2 } rfl).1
      (Or.inr (Or.inr (Or.inr ⟨"application/json", [("charset", "latin1")], "latin1", rfl, rfl,
        by decide⟩))),
    rfl⟩

/-- C18, at the code: for an endpoint with `HasReqContent = false`, a request with a
positive `Content-Length`, or with an unknown length and a readable byte, makes
`DeserializeRequest` return the error `util.Err(nil, "unexpected request content")`.  That
error has the empty code, and the status derived from it is 500: it is not classified. -/
theorem DeserializeRequest_unexpected_content {D : Type} (lib : GoLib D)
    (ec : config.EndpointConfig) (r : nethttp.Request) (hc : ec.HasReqContent = false)
    (hbody : r.ContentLength > 0 ∨ (r.ContentLength < 0 ∧ r.Body.data ≠ [])) :
    json.reqDeserializer.DeserializeRequest lib ec r =
      (some (reflect.New lib.zero ec.ReqType), {},
        some (util.Err none "unexpected request content")) ∧
    util.GetErrCode (util.Err none "unexpected request content") = "" ∧
    config.ErrorCodeToHTTPStatus (util.GetErrCode (util.Err none "unexpected request content"))
      = 500 := by
  refine ⟨?_, rfl, by decide⟩
  have hct : json.reqDeserializer.DeserializeRequest.contentType lib ec r = none := by
    simp [json.reqDeserializer.DeserializeRequest.contentType, hc]
  rcases hbody with h | ⟨h, hd⟩
  · simp [json.reqDeserializer.DeserializeRequest, hct, hc, h]
  · have h2 : ¬ r.ContentLength > 0 := by omega
    rcases hdata : r.Body.data with _ | ⟨x, xs⟩
    · exact absurd hdata hd
    · simp [json.reqDeserializer.DeserializeRequest, hct, hc, h, h2, nethttp.Body.Read1, hdata]

theorem DeserializeRequest_unexpected_content_witness :
    json.reqDeserializer.DeserializeRequest sampleLib endpointConfigNoContent
        { Header := [], Body := { data := [104, 101, 108, 108, 111], err := none },
          ContentLength := 5 } =
      (some { typ := .ptr (.named "ReqNoContent"), data := [] }, {},
        some { Error := "unexpected request content", Code := some "" }) ∧
    config.ErrorCodeToHTTPStatus
      (util.GetErrCode { Error := "unexpected request content", Code := some "" }) = 500 :=
  ⟨(DeserializeRequest_unexpected_content sampleLib endpointConfigNoContent
      { Header := [], Body := { data := [104, 101, 108, 108, 111], err := none },
        ContentLength := 5 } rfl (Or.inl (by decide))).1,
    by decide⟩


/-! ## `listener.Init` -/

theorem endpoints_spec {σ D : Type}
    (refuses : List (String × String) → String → String → Option String)
    (p : http.listener D) (cfg : config.ServiceConfig) (svc : Option (Service σ (GoValue D)))
    (l : List config.EndpointConfig) (dup : GoMap Unit) (router : httprouter.Router σ D) :
    ((http.listener.Init.endpoints refuses p cfg svc l dup router).1 = .ret none →
      (l.map (fun ec => p.id (cfg, ec))).Nodup ∧
      (∀ k ∈ l.map (fun ec => p.id (cfg, ec)), GoMap.get? dup k = none) ∧
      ∀ k, GoMap.get? (http.listener.Init.endpoints refuses p cfg svc l dup router).2.1 k = none ↔
        (GoMap.get? dup k = none ∧ k ∉ l.map (fun ec => p.id (cfg, ec)))) ∧
    (∀ err, (http.listener.Init.endpoints refuses p cfg svc l dup router).1 = .ret (some err) →
      ∃ ec ∈ l, err = p.duplicateError (cfg, ec)) ∧
    (∀ m, (http.listener.Init.endpoints refuses p cfg svc l dup router).1 = .panic m →
      ∃ routes me pa, refuses routes me pa = some m) ∧
    ((((router.filter (fun x => x.handle.isSome)).map httprouter.Route.id).Nodup ∧
        ∀ x ∈ router, x.handle.isSome = true → GoMap.get? dup x.id ≠ none) →
      (((http.listener.Init.endpoints refuses p cfg svc l dup router).2.2.filter
          (fun x => x.handle.isSome)).map httprouter.Route.id).Nodup ∧
        ∀ x ∈ (http.listener.Init.endpoints refuses p cfg svc l dup router).2.2,
          x.handle.isSome = true →
          GoMap.get? (http.listener.Init.endpoints refuses p cfg svc l dup router).2.1 x.id
            ≠ none) ∧
    ((∀ routes, ∀ ec ∈ l, (ec.Method, p.path cfg ec) ∉ routes →
        refuses routes ec.Method (p.path cfg ec) = none) →
      (∀ ec ∈ l, (ec.Method, p.path cfg ec) ≠ ("GET", "/health-check")) →
      (∀ x ∈ router, x.handle.isSome = true → GoMap.get? dup x.id ≠ none) →
      (∀ x ∈ router, x.handle = none → (x.method, x.path) = ("GET", "/health-check")) →
      (∀ m, (http.listener.Init.endpoints refuses p cfg svc l dup router).1 ≠ .panic m) ∧
      (∀ x ∈ (http.listener.Init.endpoints refuses p cfg svc l dup router).2.2,
          x.handle.isSome = true →
          GoMap.get? (http.listener.Init.endpoints refuses p cfg svc l dup router).2.1 x.id
            ≠ none) ∧
      ∀ x ∈ (http.listener.Init.endpoints refuses p cfg svc l dup router).2.2,
        x.handle = none → (x.method, x.path) = ("GET", "/health-check")) := by
  induction l generalizing dup router with
  | nil =>
    refine ⟨fun _ => ⟨List.nodup_nil, by simp, by simp [http.listener.Init.endpoints]⟩,
      fun err h => by simp [http.listener.Init.endpoints] at h,
      fun m h => by simp [http.listener.Init.endpoints] at h, fun h => h,
      fun _ _ h1 h2 => ⟨fun m h => by simp [http.listener.Init.endpoints] at h, h1, h2⟩⟩
  | cons ec rest ih =>
    have hid : ec.Method ++ " " ++ p.path cfg ec = p.id (cfg, ec) := rfl
    rcases hg : GoMap.get? dup (p.id (cfg, ec)) with _ | u
    · -- the key is new
      rcases hr : refuses (router.map (fun x => (x.method, x.path))) ec.Method (p.path cfg ec)
        with _ | m
      · -- the router accepts the route
        have hstep : http.listener.Init.endpoints refuses p cfg svc (ec :: rest) dup router =
            http.listener.Init.endpoints refuses p cfg svc rest
              (GoMap.set dup (p.id (cfg, ec)) ())
              (router ++ [{ method := ec.Method, path := p.path cfg ec,
                            handle := some { cfg := ec, svc := svc,
                                             Serializer := p.opts.Serializer } }]) := by
          simp only [http.listener.Init.endpoints, hid, hg, httprouter.Router.Handle, hr]
        rw [hstep]
        obtain ⟨iA, iB, iC, iD, iE⟩ := ih (GoMap.set dup (p.id (cfg, ec)) ())
          (router ++ [{ method := ec.Method, path := p.path cfg ec,
                        handle := some { cfg := ec, svc := svc,
                                         Serializer := p.opts.Serializer } }])
        refine ⟨?_, ?_, iC, ?_, ?_⟩
        · intro hret
          obtain ⟨a1, a2, a3⟩ := iA hret
          have hnot : p.id (cfg, ec) ∉ rest.map (fun ec => p.id (cfg, ec)) := by
            intro hmem
            have := a2 _ hmem
            rw [GoMap_get?_set] at this
            simp at this
          refine ⟨?_, ?_, ?_⟩
          · rw [List.map_cons]
            exact List.nodup_cons.mpr ⟨hnot, a1⟩
          · intro k hk
            rw [List.map_cons] at hk
            rcases List.mem_cons.mp hk with h | h
            · rw [h]; exact hg
            · have := a2 k h
              rw [GoMap_get?_set] at this
              by_cases hk2 : k = p.id (cfg, ec)
              · rw [hk2]; exact hg
              · simpa [hk2] using this
          · intro k
            rw [a3 k, GoMap_get?_set, List.map_cons, List.mem_cons]
            by_cases hk2 : k = p.id (cfg, ec)
            · simp [hk2]
            · simp [hk2]
        · intro err herr
          obtain ⟨ec2, h1, h2⟩ := iB err herr
          exact ⟨ec2, List.mem_cons_of_mem _ h1, h2⟩
        · rintro ⟨d1, d2⟩
          apply iD
          constructor
          · rw [List.filter_append, List.map_append]
            simp only [List.filter_cons, Option.isSome_some, if_true, List.filter_nil,
              List.map_cons, List.map_nil]
            rw [List.nodup_append]
            refine ⟨d1, List.nodup_singleton _, ?_⟩
            intro k hk1 hk2
            rw [List.mem_singleton] at hk2
            obtain ⟨x, hx, rfl⟩ := List.mem_map.mp hk1
            obtain ⟨hx1, hx2⟩ := List.mem_filter.mp hx
            apply d2 x hx1 hx2
            rw [hk2]
            exact hg
          · intro x hx hsome
            rw [GoMap_get?_set]
            rcases List.mem_append.mp hx with h | h
            · by_cases hk2 : x.id = p.id (cfg, ec)
              · simp [hk2]
              · simpa [hk2] using d2 x h hsome
            · rw [List.mem_singleton] at h
              subst h
              simp [httprouter.Route.id, http.listener.id]
        · intro hacc hhc e1 e2
          apply iE (fun routes ec2 h2 => hacc routes ec2 (List.mem_cons_of_mem _ h2))
            (fun ec2 h2 => hhc ec2 (List.mem_cons_of_mem _ h2))
          · intro x hx hsome
            rw [GoMap_get?_set]
            rcases List.mem_append.mp hx with h | h
            · by_cases hk2 : x.id = p.id (cfg, ec)
              · simp [hk2]
              · simpa [hk2] using e1 x h hsome
            · rw [List.mem_singleton] at h
              subst h
              simp [httprouter.Route.id, http.listener.id]
          · intro x hx hnone
            rcases List.mem_append.mp hx with h | h
            · exact e2 x h hnone
            · rw [List.mem_singleton] at h
              subst h
              cases hnone
      · -- the router refuses the route
        have hstep : http.listener.Init.endpoints refuses p cfg svc (ec :: rest) dup router =
            (.panic m, GoMap.set dup (p.id (cfg, ec)) (), router) := by
          simp only [http.listener.Init.endpoints, hid, hg, httprouter.Router.Handle, hr]
        rw [hstep]
        refine ⟨fun h => (by cases h), fun err h => (by cases h),
          fun m2 h => ⟨_, _, _, (by cases h; exact hr)⟩, ?_, ?_⟩
        · rintro ⟨d1, d2⟩
          refine ⟨d1, fun x hx hsome => ?_⟩
          rw [GoMap_get?_set]
          by_cases hk2 : x.id = p.id (cfg, ec)
          · simp [hk2]
          · simpa [hk2] using d2 x hx hsome
        · intro hacc hhc e1 e2
          exfalso
          have hnot : (ec.Method, p.path cfg ec) ∉ router.map (fun x => (x.method, x.path)) := by
            intro hmem
            obtain ⟨x, hx, hxe⟩ := List.mem_map.mp hmem
            rcases hh : x.handle with _ | ep
            · exact hhc ec (List.mem_cons_self _ _) (hxe ▸ e2 x hx hh)
            · apply e1 x hx (by rw [hh]; rfl)
              have h1 : x.method = ec.Method := congrArg Prod.fst hxe
              have h2 : x.path = p.path cfg ec := congrArg Prod.snd hxe
              rw [httprouter.Route.id, h1, h2]
              exact hg
          rw [hacc _ ec (List.mem_cons_self _ _) hnot] at hr
          cases hr
    · -- the key is already in duplicateCheck
      have hstep : http.listener.Init.endpoints refuses p cfg svc (ec :: rest) dup router =
          (.ret (some (p.duplicateError (cfg, ec))), dup, router) := by
        simp only [http.listener.Init.endpoints, hid, hg, http.listener.duplicateError]
      rw [hstep]
      exact ⟨fun h => (by cases h),
        fun err h => ⟨ec, List.mem_cons_self _ _, (by cases h; rfl)⟩,
        fun m h => (by cases h), fun h => h,
        fun _ _ h1 h2 => ⟨fun m h => (by cases h), h1, h2⟩⟩

theorem services_cons_continue {σ D : Type}
    (refuses : List (String × String) → String → String → Option String)
    (p : http.listener D) (srv : ServiceSet σ (GoValue D)) (cfg : config.ServiceConfig)
    (rest : List config.ServiceConfig) (dup : GoMap Unit) (router : httprouter.Router σ D)
    (hl : (srv.LookupService cfg.ServiceName).2 = none)
    (he : (http.listener.Init.endpoints refuses p cfg (srv.LookupService cfg.ServiceName).1
      cfg.Endpoints dup router).1 = .ret none) :
    http.listener.Init.services refuses p srv (cfg :: rest) dup router =
      http.listener.Init.services refuses p srv rest
        (http.listener.Init.endpoints refuses p cfg (srv.LookupService cfg.ServiceName).1
          cfg.Endpoints dup router).2.1
        (http.listener.Init.endpoints refuses p cfg (srv.LookupService cfg.ServiceName).1
          cfg.Endpoints dup router).2.2 := by
  rcases hs : srv.LookupService cfg.ServiceName with ⟨svc, _ | err⟩
  · rw [hs] at he
    simp only [http.listener.Init.services, hs, he]
  · rw [hs] at hl
    cases hl

theorem services_cons_stop {σ D : Type}
    (refuses : List (String × String) → String → String → Option String)
    (p : http.listener D) (srv : ServiceSet σ (GoValue D)) (cfg : config.ServiceConfig)
    (rest : List config.ServiceConfig) (dup : GoMap Unit) (router : httprouter.Router σ D)
    (hl : (srv.LookupService cfg.ServiceName).2 = none)
    (he : (http.listener.Init.endpoints refuses p cfg (srv.LookupService cfg.ServiceName).1
      cfg.Endpoints dup router).1 ≠ .ret none) :
    http.listener.Init.services refuses p srv (cfg :: rest) dup router =
      http.listener.Init.endpoints refuses p cfg (srv.LookupService cfg.ServiceName).1
        cfg.Endpoints dup router := by
  rcases hs : srv.LookupService cfg.ServiceName with ⟨svc, _ | err⟩
  · rw [hs] at he
    simp only [http.listener.Init.services]
    rw [hs]
    simp only []
  · rw [hs] at hl
    cases hl

theorem services_spec {σ D : Type}
    (refuses : List (String × String) → String → String → Option String)
    (p : http.listener D) (srv : ServiceSet σ (GoValue D)) (cs : List config.ServiceConfig)
    (hres : ∀ cfg ∈ cs, (srv.LookupService cfg.ServiceName).2 = none)
    (dup : GoMap Unit) (router : httprouter.Router σ D) :
    ((http.listener.Init.services refuses p srv cs dup router).1 = .ret none →
      (cs.flatMap (fun cfg => cfg.Endpoints.map (fun ec => p.id (cfg, ec)))).Nodup ∧
      (∀ k ∈ cs.flatMap (fun cfg => cfg.Endpoints.map (fun ec => p.id (cfg, ec))),
        GoMap.get? dup k = none) ∧
      ∀ k, GoMap.get? (http.listener.Init.services refuses p srv cs dup router).2.1 k = none ↔
        (GoMap.get? dup k = none ∧
          k ∉ cs.flatMap (fun cfg => cfg.Endpoints.map (fun ec => p.id (cfg, ec))))) ∧
    (∀ err, (http.listener.Init.services refuses p srv cs dup router).1 = .ret (some err) →
      ∃ e ∈ cs.flatMap (fun cfg => cfg.Endpoints.map (fun ec => (cfg, ec))),
        err = p.duplicateError e) ∧
    (∀ m, (http.listener.Init.services refuses p srv cs dup router).1 = .panic m →
      ∃ routes me pa, refuses routes me pa = some m) ∧
    ((((router.filter (fun x => x.handle.isSome)).map httprouter.Route.id).Nodup ∧
        ∀ x ∈ router, x.handle.isSome = true → GoMap.get? dup x.id ≠ none) →
      (((http.listener.Init.services refuses p srv cs dup router).2.2.filter
          (fun x => x.handle.isSome)).map httprouter.Route.id).Nodup ∧
        ∀ x ∈ (http.listener.Init.services refuses p srv cs dup router).2.2,
          x.handle.isSome = true →
          GoMap.get? (http.listener.Init.services refuses p srv cs dup router).2.1 x.id
            ≠ none) ∧
    ((∀ routes, ∀ e ∈ cs.flatMap (fun cfg => cfg.Endpoints.map (fun ec => (cfg, ec))),
        (e.2.Method, p.path e.1 e.2) ∉ routes →
        refuses routes e.2.Method (p.path e.1 e.2) = none) →
      (∀ e ∈ cs.flatMap (fun cfg => cfg.Endpoints.map (fun ec => (cfg, ec))),
        (e.2.Method, p.path e.1 e.2) ≠ ("GET", "/health-check")) →
      (∀ x ∈ router, x.handle.isSome = true → GoMap.get? dup x.id ≠ none) →
      (∀ x ∈ router, x.handle = none → (x.method, x.path) = ("GET", "/health-check")) →
      (∀ m, (http.listener.Init.services refuses p srv cs dup router).1 ≠ .panic m) ∧
      (∀ x ∈ (http.listener.Init.services refuses p srv cs dup router).2.2,
          x.handle.isSome = true →
          GoMap.get? (http.listener.Init.services refuses p srv cs dup router).2.1 x.id
            ≠ none) ∧
      ∀ x ∈ (http.listener.Init.services refuses p srv cs dup router).2.2,
        x.handle = none → (x.method, x.path) = ("GET", "/health-check")) := by
  induction cs generalizing dup router with
  | nil =>
    refine ⟨fun _ => ⟨List.nodup_nil, by simp, by simp [http.listener.Init.services]⟩,
      fun err h => by simp [http.listener.Init.services] at h,
      fun m h => by simp [http.listener.Init.services] at h, fun h => h,
      fun _ _ h1 h2 => ⟨fun m h => by simp [http.listener.Init.services] at h, h1, h2⟩⟩
  | cons cfg rest ih =>
    have hl := hres cfg (List.mem_cons_self _ _)
    have hres2 : ∀ c ∈ rest, (srv.LookupService c.ServiceName).2 = none :=
      fun c hc => hres c (List.mem_cons_of_mem _ hc)
    obtain ⟨eA, eB, eC, eD, eE⟩ := endpoints_spec refuses p cfg
      (srv.LookupService cfg.ServiceName).1 cfg.Endpoints dup router
    have hmemE : ∀ ec ∈ cfg.Endpoints, (cfg, ec) ∈
        (cfg :: rest).flatMap (fun cfg => cfg.Endpoints.map (fun ec => (cfg, ec))) := by
      intro ec hec
      rw [List.flatMap_cons]
      exact List.mem_append_left _ (List.mem_map.mpr ⟨ec, hec, rfl⟩)
    by_cases he : (http.listener.Init.endpoints refuses p cfg
        (srv.LookupService cfg.ServiceName).1 cfg.Endpoints dup router).1 = .ret none
    · rw [services_cons_continue refuses p srv cfg rest dup router hl he]
      obtain ⟨a1, a2, a3⟩ := eA he
      obtain ⟨iA, iB, iC, iD, iE⟩ := ih hres2
        (http.listener.Init.endpoints refuses p cfg (srv.LookupService cfg.ServiceName).1
          cfg.Endpoints dup router).2.1
        (http.listener.Init.endpoints refuses p cfg (srv.LookupService cfg.ServiceName).1
          cfg.Endpoints dup router).2.2
      refine ⟨?_, ?_, iC, fun h => iD (eD h), ?_⟩
      · intro hret
        obtain ⟨b1, b2, b3⟩ := iA hret
        refine ⟨?_, ?_, ?_⟩
        · rw [List.flatMap_cons, List.nodup_append]
          refine ⟨a1, b1, ?_⟩
          intro k hk1 hk2
          exact ((a3 k).mp (b2 k hk2)).2 hk1
        · intro k hk
          rw [List.flatMap_cons] at hk
          rcases List.mem_append.mp hk with h | h
          · exact a2 k h
          · exact ((a3 k).mp (b2 k h)).1
        · intro k
          rw [b3 k, a3 k, List.flatMap_cons, List.mem_append]
          constructor
          · rintro ⟨⟨h1, h2⟩, h3⟩
            exact ⟨h1, fun h => h.elim h2 h3⟩
          · rintro ⟨h1, h2⟩
            exact ⟨⟨h1, fun h => h2 (Or.inl h)⟩, fun h => h2 (Or.inr h)⟩
      · intro err herr
        obtain ⟨e, h1, h2⟩ := iB err herr
        refine ⟨e, ?_, h2⟩
        rw [List.flatMap_cons]
        exact List.mem_append_right _ h1
      · intro hacc hhc e1 e2
        obtain ⟨-, f1, f2⟩ := eE (fun routes ec hec => hacc routes (cfg, ec) (hmemE ec hec))
          (fun ec hec => hhc (cfg, ec) (hmemE ec hec)) e1 e2
        refine iE (fun routes e h => hacc routes e ?_) (fun e h => hhc e ?_) f1 f2
        · rw [List.flatMap_cons]
          exact List.mem_append_right _ h
        · rw [List.flatMap_cons]
          exact List.mem_append_right _ h
    · rw [services_cons_stop refuses p srv cfg rest dup router hl he]
      refine ⟨fun h => absurd h he, ?_, eC, eD, ?_⟩
      · intro err herr
        obtain ⟨ec, h1, h2⟩ := eB err herr
        exact ⟨(cfg, ec), hmemE ec h1, h2⟩
      · intro hacc hhc e1 e2
        exact eE (fun routes ec hec => hacc routes (cfg, ec) (hmemE ec hec))
          (fun ec hec => hhc (cfg, ec) (hmemE ec hec)) e1 e2

theorem entries_ids {D : Type} (p : http.listener D) (cs : List config.ServiceConfig) :
    cs.flatMap (fun cfg => cfg.Endpoints.map (fun ec => p.id (cfg, ec))) =
      ((cs.flatMap (fun cfg => cfg.Endpoints.map (fun ec => (cfg, ec)))).map
        (fun e => (e.2.Method, p.path e.1 e.2))).map (fun q => q.1 ++ " " ++ q.2) := by
  induction cs with
  | nil => rfl
  | cons cfg rest ih =>
    rw [List.flatMap_cons, List.flatMap_cons, List.map_append, List.map_append, ← ih,
      List.map_map, List.map_map]
    rfl

theorem endpoints_eq_flat {σ D : Type}
    (refuses : List (String × String) → String → String → Option String)
    (p : http.listener D) (svcs : config.ServiceConfig → Option (Service σ (GoValue D)))
    (cfg : config.ServiceConfig) (l : List config.EndpointConfig) (dup : GoMap Unit)
    (router : httprouter.Router σ D) :
    http.listener.Init.endpoints refuses p cfg (svcs cfg) l dup router =
      http.listener.Init.flat refuses p svcs (l.map (fun ec => (cfg, ec))) dup router := by
  induction l generalizing dup router with
  | nil => rfl
  | cons ec rest ih =>
    have hid : ec.Method ++ " " ++ p.path cfg ec = p.id (cfg, ec) := rfl
    rw [List.map_cons]
    rcases hg : GoMap.get? dup (p.id (cfg, ec)) with _ | u
    · rcases hr : refuses (router.map (fun x => (x.method, x.path))) ec.Method (p.path cfg ec)
        with _ | m
      · simp only [http.listener.Init.endpoints, http.listener.Init.flat, hid, hg,
          httprouter.Router.Handle, hr]
        exact ih _ _
      · simp only [http.listener.Init.endpoints, http.listener.Init.flat, hid, hg,
          httprouter.Router.Handle, hr]
    · simp only [http.listener.Init.endpoints, http.listener.Init.flat, hid, hg,
        http.listener.duplicateError]

theorem flat_append {σ D : Type}
    (refuses : List (String × String) → String → String → Option String)
    (p : http.listener D) (svcs : config.ServiceConfig → Option (Service σ (GoValue D)))
    (a b : List (config.ServiceConfig × config.EndpointConfig)) (dup : GoMap Unit)
    (router : httprouter.Router σ D) :
    ((http.listener.Init.flat refuses p svcs a dup router).1 = .ret none →
      http.listener.Init.flat refuses p svcs (a ++ b) dup router =
        http.listener.Init.flat refuses p svcs b
          (http.listener.Init.flat refuses p svcs a dup router).2.1
          (http.listener.Init.flat refuses p svcs a dup router).2.2) ∧
    ((http.listener.Init.flat refuses p svcs a dup router).1 ≠ .ret none →
      http.listener.Init.flat refuses p svcs (a ++ b) dup router =
        http.listener.Init.flat refuses p svcs a dup router) := by
  induction a generalizing dup router with
  | nil => exact ⟨fun _ => rfl, fun h => absurd rfl h⟩
  | cons e rest ih =>
    rw [List.cons_append]
    rcases hg : GoMap.get? dup (p.id e) with _ | u
    · rcases hr : refuses (router.map (fun x => (x.method, x.path))) e.2.Method (p.path e.1 e.2)
        with _ | m
      · simp only [http.listener.Init.flat, hg, httprouter.Router.Handle, hr]
        exact ih _ _
      · have h1 : http.listener.Init.flat refuses p svcs (e :: rest) dup router =
            (.panic m, GoMap.set dup (p.id e) (), router) := by
          simp only [http.listener.Init.flat, hg, httprouter.Router.Handle, hr]
        have h2 : http.listener.Init.flat refuses p svcs (e :: (rest ++ b)) dup router =
            (.panic m, GoMap.set dup (p.id e) (), router) := by
          simp only [http.listener.Init.flat, hg, httprouter.Router.Handle, hr]
        rw [h1, h2]
        exact ⟨fun h => (by cases h), fun _ => rfl⟩
    · have h1 : http.listener.Init.flat refuses p svcs (e :: rest) dup router =
          (.ret (some (p.duplicateError e)), dup, router) := by
        simp only [http.listener.Init.flat, hg]
      have h2 : http.listener.Init.flat refuses p svcs (e :: (rest ++ b)) dup router =
          (.ret (some (p.duplicateError e)), dup, router) := by
        simp only [http.listener.Init.flat, hg]
      rw [h1, h2]
      exact ⟨fun h => (by cases h), fun _ => rfl⟩

theorem services_eq_flat {σ D : Type}
    (refuses : List (String × String) → String → String → Option String)
    (p : http.listener D) (srv : ServiceSet σ (GoValue D)) (cs : List config.ServiceConfig)
    (hres : ∀ cfg ∈ cs, (srv.LookupService cfg.ServiceName).2 = none)
    (dup : GoMap Unit) (router : httprouter.Router σ D) :
    http.listener.Init.services refuses p srv cs dup router =
      http.listener.Init.flat refuses p (fun cfg => (srv.LookupService cfg.ServiceName).1)
        (cs.flatMap (fun cfg => cfg.Endpoints.map (fun ec => (cfg, ec)))) dup router := by
  induction cs generalizing dup router with
  | nil => rfl
  | cons cfg rest ih =>
    have hl := hres cfg (List.mem_cons_self _ _)
    have hres2 : ∀ c ∈ rest, (srv.LookupService c.ServiceName).2 = none :=
      fun c hc => hres c (List.mem_cons_of_mem _ hc)
    have hE := endpoints_eq_flat refuses p (fun cfg => (srv.LookupService cfg.ServiceName).1)
      cfg cfg.Endpoints dup router
    obtain ⟨hA, hB⟩ := flat_append refuses p (fun cfg => (srv.LookupService cfg.ServiceName).1)
      (cfg.Endpoints.map (fun ec => (cfg, ec)))
      (rest.flatMap (fun cfg => cfg.Endpoints.map (fun ec => (cfg, ec)))) dup router
    rw [List.flatMap_cons]
    by_cases he : (http.listener.Init.endpoints refuses p cfg
        (srv.LookupService cfg.ServiceName).1 cfg.Endpoints dup router).1 = .ret none
    · rw [services_cons_continue refuses p srv cfg rest dup router hl he, ih hres2]
      rw [hE] at he ⊢
      rw [hA he]
    · rw [services_cons_stop refuses p srv cfg rest dup router hl he]
      rw [hE] at he ⊢
      rw [hB he]

theorem handleAll_ret (refuses : List (String × String) → String → String → Option String)
    (l routes out : List (String × String))
    (h : httprouter.handleAll refuses routes l = .ret out) : out = routes ++ l := by
  induction l generalizing routes with
  | nil =>
    simp only [httprouter.handleAll] at h
    cases h
    simp
  | cons r rest ih =>
    rcases hr : refuses routes r.1 r.2 with _ | m
    · simp only [httprouter.handleAll, hr] at h
      rw [ih _ h, List.append_assoc]
      rfl
    · simp only [httprouter.handleAll, hr] at h
      cases h

theorem flat_first_duplicate {σ D : Type}
    (refuses : List (String × String) → String → String → Option String)
    (p : http.listener D) (svcs : config.ServiceConfig → Option (Service σ (GoValue D)))
    (e : config.ServiceConfig × config.EndpointConfig)
    (post : List (config.ServiceConfig × config.EndpointConfig))
    (pre : List (config.ServiceConfig × config.EndpointConfig)) (dup : GoMap Unit)
    (router : httprouter.Router σ D)
    (hnd : (pre.map p.id).Nodup)
    (hnew : ∀ k ∈ pre.map p.id, GoMap.get? dup k = none)
    (hold : GoMap.get? dup (p.id e) ≠ none ∨ p.id e ∈ pre.map p.id) :
    (∀ routes, httprouter.handleAll refuses (router.map (fun x => (x.method, x.path)))
        (pre.map p.route) = .ret routes →
      (http.listener.Init.flat refuses p svcs (pre ++ e :: post) dup router).1 =
        .ret (some (p.duplicateError e)) ∧
      (http.listener.Init.flat refuses p svcs (pre ++ e :: post) dup router).2.2.map
        (fun x => (x.method, x.path)) = routes) ∧
    (∀ m, httprouter.handleAll refuses (router.map (fun x => (x.method, x.path)))
        (pre.map p.route) = .panic m →
      (http.listener.Init.flat refuses p svcs (pre ++ e :: post) dup router).1 = .panic m) := by
  induction pre generalizing dup router with
  | nil =>
    have hg : GoMap.get? dup (p.id e) ≠ none := by
      rcases hold with h | h
      · exact h
      · cases h
    rcases hg2 : GoMap.get? dup (p.id e) with _ | u
    · exact absurd hg2 hg
    · have h1 : http.listener.Init.flat refuses p svcs ([] ++ e :: post) dup router =
          (.ret (some (p.duplicateError e)), dup, router) := by
        simp only [List.nil_append, http.listener.Init.flat, hg2]
      have h2 : httprouter.handleAll refuses (router.map (fun x => (x.method, x.path)))
          (([] : List (config.ServiceConfig × config.EndpointConfig)).map p.route) =
          .ret (router.map (fun x => (x.method, x.path))) := rfl
      rw [h1, h2]
      exact ⟨fun routes h => ⟨rfl, (by cases h; rfl)⟩, fun m h => (by cases h)⟩
  | cons x rest ih =>
    rw [List.map_cons, List.nodup_cons] at hnd
    have hgx : GoMap.get? dup (p.id x) = none := hnew _ (by simp)
    have hnew2 : ∀ k ∈ rest.map p.id, GoMap.get? (GoMap.set dup (p.id x) ()) k = none := by
      intro k hk
      rw [GoMap_get?_set]
      have hne : k ≠ p.id x := fun h => hnd.1 (h ▸ hk)
      simp only [hne, if_false]
      exact hnew k (by rw [List.map_cons]; exact List.mem_cons_of_mem _ hk)
    have hold2 : GoMap.get? (GoMap.set dup (p.id x) ()) (p.id e) ≠ none ∨
        p.id e ∈ rest.map p.id := by
      rw [GoMap_get?_set]
      by_cases hk : p.id e = p.id x
      · left
        simp [hk]
      · simp only [hk, if_false]
        rcases hold with h | h
        · exact Or.inl h
        · rw [List.map_cons] at h
          rcases List.mem_cons.mp h with h2 | h2
          · exact absurd h2 hk
          · exact Or.inr h2
    rw [List.cons_append, List.map_cons]
    rcases hr : refuses (router.map (fun x => (x.method, x.path))) x.2.Method (p.path x.1 x.2)
      with _ | m
    · have hstep : http.listener.Init.flat refuses p svcs (x :: (rest ++ e :: post)) dup router =
          http.listener.Init.flat refuses p svcs (rest ++ e :: post)
            (GoMap.set dup (p.id x) ())
            (router ++ [{ method := x.2.Method, path := p.path x.1 x.2,
                          handle := some { cfg := x.2, svc := svcs x.1,
                                           Serializer := p.opts.Serializer } }]) := by
        simp only [http.listener.Init.flat, hgx, httprouter.Router.Handle, hr]
      have hall : httprouter.handleAll refuses (router.map (fun x => (x.method, x.path)))
          (p.route x :: rest.map p.route) =
          httprouter.handleAll refuses
            ((router ++ ([{ method := x.2.Method, path := p.path x.1 x.2,
                            handle := some { cfg := x.2, svc := svcs x.1,
                                             Serializer := p.opts.Serializer } }] :
                httprouter.Router σ D)).map (fun x => (x.method, x.path)))
            (rest.map p.route) := by
        simp only [httprouter.handleAll, http.listener.route, hr, List.map_append, List.map_cons,
          List.map_nil]
      rw [hstep, hall]
      exact ih _ _ hnd.2 hnew2 hold2
    · have hstep : http.listener.Init.flat refuses p svcs (x :: (rest ++ e :: post)) dup router =
          (.panic m, GoMap.set dup (p.id x) (), router) := by
        simp only [http.listener.Init.flat, hgx, httprouter.Router.Handle, hr]
      have hall : httprouter.handleAll refuses (router.map (fun x => (x.method, x.path)))
          (p.route x :: rest.map p.route) = .panic m := by
        simp only [httprouter.handleAll, http.listener.route, hr]
      rw [hstep, hall]
      exact ⟨fun routes h => (by cases h), fun m2 h => (by cases h; rfl)⟩

theorem exists_first_duplicate {α β : Type} (f : α → β) (l acc : List α)
    (hacc : (acc.map f).Nodup) (h : ¬ ((acc ++ l).map f).Nodup) :
    ∃ pre e post, acc ++ l = pre ++ e :: post ∧ (pre.map f).Nodup ∧ f e ∈ pre.map f := by
  induction l generalizing acc with
  | nil =>
    rw [List.append_nil] at h
    exact absurd hacc h
  | cons x rest ih =>
    by_cases hx : f x ∈ acc.map f
    · exact ⟨acc, x, rest, rfl, hacc, hx⟩
    · have hacc2 : ((acc ++ [x]).map f).Nodup := by
        rw [List.map_append, List.nodup_append]
        refine ⟨hacc, List.nodup_singleton _, ?_⟩
        intro k hk1 hk2
        simp only [List.map_cons, List.map_nil, List.mem_singleton] at hk2
        exact hx (hk2 ▸ hk1)
      have h2 : ¬ (((acc ++ [x]) ++ rest).map f).Nodup := by
        rw [List.append_assoc]
        exact h
      obtain ⟨pre, e, post, h3, h4, h5⟩ := ih (acc ++ [x]) hacc2 h2
      refine ⟨pre, e, post, ?_, h4, h5⟩
      rw [← h3, List.append_assoc]
      rfl

/-- C19, as amended: let the service names of the listener all resolve and two of its
endpoints, of the same or of different service descriptors, have the same method and the
same effective path.  Then `Init` does not return nil; a panic can only be the router
refusing a route; no method and path are registered for two handlers; and there is a
first endpoint `e` whose key `Method + " " + path` is the key of an endpoint before it.
For that endpoint: when the router accepts the health check and then, in turn, the route
of every endpoint before `e`, `Init` returns the error `service <name>: duplicate
endpoint: <key>` of `e` and the router holds the health check and those routes, so no
handler is registered for `e`; and when the router refuses one of these routes, `Init`
panics with the message of the router. -/
theorem Init_duplicate_endpoint {σ D : Type}
    (refuses : List (String × String) → String → String → Option String)
    (p : http.listener D) (srv : ServiceSet σ (GoValue D))
    (hres : ∀ cfg ∈ p.cfgs, (srv.LookupService cfg.ServiceName).2 = none)
    (hdup : ¬ (p.entries.map (fun e => (e.2.Method,
      if p.opts.PrefixURLPath then "/" ++ e.1.ServiceName ++ e.2.Path else e.2.Path))).Nodup) :
    (http.listener.Init refuses p srv).1 ≠ .ret none ∧
    (∀ m, (http.listener.Init refuses p srv).1 = .panic m →
      ∃ routes me pa, refuses routes me pa = some m) ∧
    (((http.listener.Init refuses p srv).2.filter (fun x => x.handle.isSome)).map
      (fun x => (x.method, x.path))).Nodup ∧
    (∃ pre e post, p.entries = pre ++ e :: post ∧ (pre.map p.id).Nodup ∧
      p.id e ∈ pre.map p.id) ∧
    ∀ pre e post, p.entries = pre ++ e :: post → (pre.map p.id).Nodup →
      p.id e ∈ pre.map p.id →
      (∀ routes, httprouter.handleAll refuses []
          (("GET", "/health-check") :: pre.map p.route) = .ret routes →
        (http.listener.Init refuses p srv).1 = .ret (some (p.duplicateError e)) ∧
        (http.listener.Init refuses p srv).2.map (fun x => (x.method, x.path)) =
          ("GET", "/health-check") :: pre.map p.route) ∧
      (∀ m, httprouter.handleAll refuses []
          (("GET", "/health-check") :: pre.map p.route) = .panic m →
        (http.listener.Init refuses p srv).1 = .panic m) := by
  have hdup2 : ¬ (p.cfgs.flatMap
      (fun cfg => cfg.Endpoints.map (fun ec => p.id (cfg, ec)))).Nodup := by
    intro h
    rw [entries_ids] at h
    exact hdup h.of_map
  have hdup3 : ¬ (p.entries.map p.id).Nodup := by
    intro h
    have hmap : p.entries.map p.id = (p.entries.map (fun e => (e.2.Method,
        if p.opts.PrefixURLPath then "/" ++ e.1.ServiceName ++ e.2.Path else e.2.Path))).map
        (fun q => q.1 ++ " " ++ q.2) := by
      rw [List.map_map]
      rfl
    rw [hmap] at h
    exact hdup h.of_map
  have hsplit : ∃ pre e post, p.entries = pre ++ e :: post ∧ (pre.map p.id).Nodup ∧
      p.id e ∈ pre.map p.id := by
    have := exists_first_duplicate p.id p.entries [] List.nodup_nil (by simpa using hdup3)
    simpa using this
  rcases hh : refuses [] "GET" "/health-check" with _ | m
  · have hI : http.listener.Init refuses p srv =
        ((http.listener.Init.services refuses p srv p.cfgs []
            [{ method := "GET", path := "/health-check", handle := none }]).1,
          (http.listener.Init.services refuses p srv p.cfgs []
            [{ method := "GET", path := "/health-check", handle := none }]).2.2) := by
      simp only [http.listener.Init, httprouter.Router.Handle, List.map_nil, hh, List.nil_append]
    rw [hI]
    obtain ⟨sA, sB, sC, sD, sE⟩ := services_spec refuses p srv p.cfgs hres []
      [{ method := "GET", path := "/health-check", handle := none }]
    have hnil : (http.listener.Init.services refuses p srv p.cfgs []
        [{ method := "GET", path := "/health-check", handle := none }]).1 ≠ .ret none :=
      fun h => hdup2 (sA h).1
    have h1 : ∀ x ∈ ([{ method := "GET", path := "/health-check", handle := none }] :
        httprouter.Router σ D), x.handle.isSome = true → GoMap.get? ([] : GoMap Unit) x.id ≠ none := by
      intro x hx hsome
      rw [List.mem_singleton] at hx
      subst hx
      cases hsome
    refine ⟨hnil, sC, ?_, hsplit, ?_⟩
    · have hn := (sD ⟨List.nodup_nil, h1⟩).1
      have hmap : ∀ l : httprouter.Router σ D, l.map httprouter.Route.id =
          (l.map (fun x => (x.method, x.path))).map (fun q => q.1 ++ " " ++ q.2) := by
        intro l
        rw [List.map_map]
        rfl
      rw [hmap] at hn
      exact hn.of_map
    · intro pre e post hent hnd hmem
      have hflat := services_eq_flat refuses p srv p.cfgs hres []
        [{ method := "GET", path := "/health-check", handle := none }]
      have hent2 : p.cfgs.flatMap (fun cfg => cfg.Endpoints.map (fun ec => (cfg, ec))) =
          pre ++ e :: post := hent
      rw [hent2] at hflat
      rw [hflat]
      have hall : httprouter.handleAll refuses [] (("GET", "/health-check") :: pre.map p.route) =
          httprouter.handleAll refuses
            (([{ method := "GET", path := "/health-check", handle := none }] :
              httprouter.Router σ D).map (fun x => (x.method, x.path)))
            (pre.map p.route) := by
        simp only [httprouter.handleAll, hh, List.nil_append, List.map_cons, List.map_nil]
      rw [hall]
      obtain ⟨f1, f2⟩ := flat_first_duplicate refuses p
        (fun cfg => (srv.LookupService cfg.ServiceName).1) e post pre []
        [{ method := "GET", path := "/health-check", handle := none }] hnd
        (fun k _ => rfl) (Or.inr hmem)
      refine ⟨fun routes hr => ?_, f2⟩
      obtain ⟨g1, g2⟩ := f1 routes hr
      refine ⟨g1, ?_⟩
      rw [g2, handleAll_ret refuses _ _ _ hr]
      rfl
  · have hI : http.listener.Init refuses p srv = (.panic m, []) := by
      simp only [http.listener.Init, httprouter.Router.Handle, List.map_nil, hh]
    rw [hI]
    refine ⟨fun h => (by cases h), fun m2 h => ⟨[], "GET", "/health-check", ?_⟩,
      List.nodup_nil, hsplit, ?_⟩
    · cases h
      exact hh
    · intro pre e post _ _ _
      simp only [httprouter.handleAll, hh]
      exact ⟨fun routes h => (by cases h), fun m2 h => (by cases h; rfl)⟩

theorem Init_duplicate_endpoint_witness :
    (∀ cfg ∈ (sampleListener [listenCFG, duplicateCFG]).cfgs,
      (listenServiceSet.LookupService cfg.ServiceName).2 = none) ∧
    ¬ ((sampleListener [listenCFG, duplicateCFG]).entries.map (fun e => (e.2.Method,
      if (sampleListener [listenCFG, duplicateCFG]).opts.PrefixURLPath
      then "/" ++ e.1.ServiceName ++ e.2.Path else e.2.Path))).Nodup ∧
    (http.listener.Init refusesRegistered (sampleListener [listenCFG, duplicateCFG])
      listenServiceSet).1 ≠ .ret none ∧
    ((http.listener.Init refusesRegistered (sampleListener [listenCFG, duplicateCFG])
      listenServiceSet).1 =
      .ret (some { Error := "service test_svc: duplicate endpoint: GET /test_svc/dir" }) ∧
    ((http.listener.Init refusesRegistered (sampleListener [listenCFG, duplicateCFG])
      listenServiceSet).2.map (fun x => (x.method, x.path))) =
      [("GET", "/health-check"), ("POST", "/test_svc/"), ("GET", "/test_svc/"),
        ("GET", "/test_svc/dir")]) ∧
    (http.listener.Init refusesRegistered (plainListener [healthCheckCFG])
      listenServiceSet).1 =
      .panic "a handle is already registered for path \x27/health-check\x27" :=
  ⟨by decide, by decide,
    (Init_duplicate_endpoint refusesRegistered (sampleListener [listenCFG, duplicateCFG])
      listenServiceSet (by decide) (by decide)).1,
    ((Init_duplicate_endpoint refusesRegistered (sampleListener [listenCFG, duplicateCFG])
      listenServiceSet (by decide) (by decide)).2.2.2.2
      (listenCFG.Endpoints.map (fun ec => (listenCFG, ec)))
      (duplicateCFG, { Method := "GET", Path := "/dir", HasReqContent := false,
                       ReqType := .named "ListenGetDirReq", RespType := none })
      [(duplicateCFG, { Method := "GET", Path := "/", HasReqContent := false,
                        ReqType := .named "Again", RespType := none })]
      rfl (by decide) (by decide)).1
      [("GET", "/health-check"), ("POST", "/test_svc/"), ("GET", "/test_svc/"),
        ("GET", "/test_svc/dir")] (by decide),
    ((Init_duplicate_endpoint refusesRegistered (plainListener [healthCheckCFG])
      listenServiceSet (by decide) (by decide)).2.2.2.2
      [(healthCheckCFG, { Method := "GET", Path := "/health-check", HasReqContent := false,
                          ReqType := .named "ListenGetReq", RespType := none })]
      (healthCheckCFG, { Method := "GET", Path := "/health-check", HasReqContent := false,
                         ReqType := .named "ListenGetDirReq", RespType := none })
      [] rfl (by decide) (by decide)).2
      "a handle is already registered for path \x27/health-check\x27" (by decide)⟩

/-- C19, as stated, fails for a listener that does not prefix the paths and has two
endpoints at `GET /health-check`: the service name resolves and the two endpoints have
the same method and the same effective path, yet `Init` returns no error.  The health
check that `Init` registers itself is not entered in `duplicateCheck`, so the first of the
two endpoints reaches `router.Handle`, and the router panics because the method and path
are registered already. -/
theorem Init_duplicate_endpoint_counterexample :
    (∀ cfg ∈ (plainListener [healthCheckCFG]).cfgs,
      (listenServiceSet.LookupService cfg.ServiceName).2 = none) ∧
    ¬ ((plainListener [healthCheckCFG]).entries.map (fun e => (e.2.Method,
      if (plainListener [healthCheckCFG]).opts.PrefixURLPath
      then "/" ++ e.1.ServiceName ++ e.2.Path else e.2.Path))).Nodup ∧
    (plainListener [healthCheckCFG]).entries.map (fun e => (e.2.Method,
      if (plainListener [healthCheckCFG]).opts.PrefixURLPath
      then "/" ++ e.1.ServiceName ++ e.2.Path else e.2.Path)) =
      [("GET", "/health-check"), ("GET", "/health-check")] ∧
    (http.listener.Init refusesRegistered (plainListener [healthCheckCFG])
      listenServiceSet).1 =
      .panic "a handle is already registered for path \x27/health-check\x27" ∧
    ¬ ∃ err, (http.listener.Init refusesRegistered (plainListener [healthCheckCFG])
      listenServiceSet).1 = .ret (some err) :=
  ⟨by decide, by decide, by decide, by decide, by
    rintro ⟨err, h⟩
    rw [show (http.listener.Init refusesRegistered (plainListener [healthCheckCFG])
      listenServiceSet).1 =
      .panic "a handle is already registered for path \x27/health-check\x27" from by decide] at h
    cases h⟩

/-! ## `endpoint.Handler` -/

theorem respond_SerializeResponse {σ D : Type} (p : http.endpoint σ D) (c : Option Ctx)
    (w : nethttp.ResponseWriter) (r : nethttp.Request) (resp : Option (GoValue D))
    (errResp : Option GoError) (msg : String) :
    (http.endpoint.Handler.respond p c w r resp errResp msg).1 =
      (p.Serializer.SerializeResponse p.cfg c w r resp errResp).2 ∧
    (http.endpoint.Handler.respond p c w r resp errResp msg).2.filter
        http.Call.isSerializeResponse =
      [.SerializeResponse c resp errResp
        (p.Serializer.SerializeResponse p.cfg c w r resp errResp).1] := by
  unfold http.endpoint.Handler.respond
  rcases h : (p.Serializer.SerializeResponse p.cfg c w r resp errResp).1 with _ | err
  · simp [h, http.Call.isSerializeResponse]
  · simp [h, http.Call.isSerializeResponse]

/-- C20: when `DeserializeRequest` succeeds and the request to the service returns
`(resp, nil)` with a `resp` whose dynamic type is not pointer-to-`RespType`, `Handler`
returns, calls `SerializeResponse` exactly once, with a nil response and the error
`serverError`, whose code is `S-ERROR`, whose message is `Internal Server Error` and whose
status is 500, and leaves the writer as that call left it; with the JSON serializer, a
fresh writer and an encodable error response the writer is the same for every `resp`.
A nil `resp` under a declared response type and a non-nil `resp` under no response type
are such results. -/
theorem Handler_type_mismatch {σ D : Type} (lib : GoLib D) (p : http.endpoint σ D)
    (w : nethttp.ResponseWriter) (r : nethttp.Request) (world world2 : World σ)
    (req resp : Option (GoValue D)) (ri : serialization.ReqInfo)
    (hd : p.Serializer.DeserializeRequest p.cfg r = (req, ri, none))
    (hreq : (NewClient p.svc ri.ClientName).Request (some world.ctxHeap.length) req
      { world with ctxHeap := world.ctxHeap ++ [{ ReqID := ri.ReqID }] } =
        (.ret (resp, none), world2))
    (hty : reflect.TypeOf resp ≠ p.cfg.RespType.map reflect.PtrTo) :
    (http.endpoint.Handler lib p w r world).1 = .ret () ∧
    (http.endpoint.Handler lib p w r world).2.2.2.filter http.Call.isSerializeResponse =
      [.SerializeResponse
        (some ((world2.ctxHeap[world.ctxHeap.length]?).getD { ReqID := ri.ReqID }))
        none (some http.serverError)
        (p.Serializer.SerializeResponse p.cfg
          (some ((world2.ctxHeap[world.ctxHeap.length]?).getD { ReqID := ri.ReqID }))
          w r none (some http.serverError)).1] ∧
    (http.endpoint.Handler lib p w r world).2.1 =
      (p.Serializer.SerializeResponse p.cfg
        (some ((world2.ctxHeap[world.ctxHeap.length]?).getD { ReqID := ri.ReqID }))
        w r none (some http.serverError)).2 ∧
    util.GetErrCode http.serverError = "S-ERROR" ∧
    http.serverError.Error = "Internal Server Error" ∧
    config.ErrorCodeToHTTPStatus (util.GetErrCode http.serverError) = 500 ∧
    (∀ b, p.Serializer = json.ServerSideSerializer lib → w.status = none →
      w.writeErr = none →
      lib.MarshalErrorResponse { Code := "S-ERROR", Msg := "Internal Server Error" } = .ok b →
      (http.endpoint.Handler lib p w r world).2.1 =
        { w with
          header := w.header.Set "Content-Type" "application/json; charset=utf-8"
          status := some 500
          body := w.body ++ b }) ∧
    (∀ t, p.cfg.RespType = some t →
      reflect.TypeOf (none : Option (GoValue D)) ≠ p.cfg.RespType.map reflect.PtrTo) ∧
    (∀ v : GoValue D, p.cfg.RespType = none →
      reflect.TypeOf (some v) ≠ p.cfg.RespType.map reflect.PtrTo) := by
  have hH : http.endpoint.Handler lib p w r world =
      (.ret (),
        (http.endpoint.Handler.respond p
          (some ((world2.ctxHeap[world.ctxHeap.length]?).getD { ReqID := ri.ReqID }))
          w r none (some http.serverError) "error serialising error response").1,
        world2,
        [.DeserializeRequest (req, ri, none),
          .Request ri.ClientName { ReqID := ri.ReqID } req (.ret (resp, none))] ++
        .log (some ((world2.ctxHeap[world.ctxHeap.length]?).getD { ReqID := ri.ReqID })) none
          (lib.Sprintf "service returned an object of type %v, want %v"
            [.typ (reflect.TypeOf resp), .typ (p.cfg.RespType.map reflect.PtrTo)]) ::
        (http.endpoint.Handler.respond p
          (some ((world2.ctxHeap[world.ctxHeap.length]?).getD { ReqID := ri.ReqID }))
          w r none (some http.serverError) "error serialising error response").2) := by
    simp only [http.endpoint.Handler, hd, hreq]
    rw [if_pos hty]
  obtain ⟨r1, r2⟩ := respond_SerializeResponse p
    (some ((world2.ctxHeap[world.ctxHeap.length]?).getD { ReqID := ri.ReqID }))
    w r none (some http.serverError) "error serialising error response"
  have hw : (http.endpoint.Handler lib p w r world).2.1 =
      (p.Serializer.SerializeResponse p.cfg
        (some ((world2.ctxHeap[world.ctxHeap.length]?).getD { ReqID := ri.ReqID }))
        w r none (some http.serverError)).2 := by
    rw [hH]
    exact r1
  refine ⟨by rw [hH], ?_, hw, rfl, rfl, by decide, ?_, ?_, ?_⟩
  · rw [hH]
    simp only [List.filter_append, List.filter_cons, List.filter_nil,
      http.Call.isSerializeResponse, r2]
    rfl
  · intro b hs h1 h2 hM
    rw [hw, hs]
    have := sendErrorResponse_ok lib w http.serverError b ⟨h1, h2⟩ hM
    simp only [json.ServerSideSerializer, json.respSerializer.SerializeResponse, this]
    rfl
  · intro t ht h
    rw [ht] at h
    cases h
  · intro v ht h
    rw [ht] at h
    cases h

theorem Handler_type_mismatch_witness :
    (json.ServerSideSerializer sampleLib).DeserializeRequest listenEndpoint.cfg listenRequest =
      (some { typ := .ptr (.named "ListenGetDirReq"), data := [] },
        { ReqID := "TestReqID", ClientName := "test_client" }, none) ∧
    reflect.TypeOf (some ({ typ := .ptr (.named "Other"), data := [1] } : GoValue (List Nat))) ≠
      listenEndpoint.cfg.RespType.map reflect.PtrTo ∧
    (http.endpoint.Handler sampleLib listenEndpoint newRecorder listenRequest sampleWorld).1 =
      .ret () ∧
    (http.endpoint.Handler sampleLib listenEndpoint newRecorder listenRequest sampleWorld).2.1 =
      { header := [("Content-Type", ["application/json; charset=utf-8"])],
        status := some 500,
        body := sampleMarshalErrorResponse { Code := "S-ERROR", Msg := "Internal Server Error" },
        writeErr := none } :=
  ⟨rfl, by decide,
    (Handler_type_mismatch sampleLib listenEndpoint newRecorder listenRequest sampleWorld
      ((NewClient listenEndpoint.svc "test_client").Request (some sampleWorld.ctxHeap.length)
        (some { typ := .ptr (.named "ListenGetDirReq"), data := [] })
        { sampleWorld with
          ctxHeap := sampleWorld.ctxHeap ++ [{ ReqID := "TestReqID" }] }).2
      (some { typ := .ptr (.named "ListenGetDirReq"), data := [] })
      (some { typ := .ptr (.named "Other"), data := [1] })
      { ReqID := "TestReqID", ClientName := "test_client" } rfl rfl (by decide)).1,
    (Handler_type_mismatch sampleLib listenEndpoint newRecorder listenRequest sampleWorld
      ((NewClient listenEndpoint.svc "test_client").Request (some sampleWorld.ctxHeap.length)
        (some { typ := .ptr (.named "ListenGetDirReq"), data := [] })
        { sampleWorld with
          ctxHeap := sampleWorld.ctxHeap ++ [{ ReqID := "TestReqID" }] }).2
      (some { typ := .ptr (.named "ListenGetDirReq"), data := [] })
      (some { typ := .ptr (.named "Other"), data := [1] })
      { ReqID := "TestReqID", ClientName := "test_client" } rfl rfl (by decide)).2.2.2.2.2.2.1
      _ rfl rfl rfl rfl⟩

/-! ## `util.ErrCode` -/

/-- C27: the error built by `util.ErrCode(cause, code, msg)` has `Code() == code` when
`code` is not empty, `Code() == GetErrCode(cause)` when `code` is empty and `cause` is not
nil, and `Code() == ""` when `code` is empty and `cause` is nil; `util.Err(cause, msg)`
with a cause keeps the code of the cause and hence its HTTP status; and `GetErrCode` of an
error that is not a `NanoError` is the empty string. -/
theorem ErrCode_code (cause : Option GoError) (code msg : String) :
    (code ≠ "" → (util.ErrCode cause code msg).Code = some code ∧
      util.GetErrCode (util.ErrCode cause code msg) = code) ∧
    (∀ c, cause = some c → (util.ErrCode cause "" msg).Code = some (util.GetErrCode c) ∧
      util.GetErrCode (util.ErrCode cause "" msg) = util.GetErrCode c) ∧
    ((util.ErrCode none "" msg).Code = some "" ∧ util.GetErrCode (util.ErrCode none "" msg) = "") ∧
    (∀ c, cause = some c →
      util.GetErrCode (util.Err cause msg) = util.GetErrCode c ∧
      config.ErrorCodeToHTTPStatus (util.GetErrCode (util.Err cause msg)) =
        config.ErrorCodeToHTTPStatus (util.GetErrCode c)) ∧
    (∀ text : String, util.GetErrCode { Error := text, Code := none } = "") := by
  refine ⟨fun h => ?_, fun c hc => ?_, ⟨rfl, rfl⟩, fun c hc => ?_, fun _ => rfl⟩
  · cases cause with
    | none => exact ⟨rfl, rfl⟩
    | some c =>
      constructor
      · simp [util.ErrCode, h, util.nanoError.toError, util.nanoError.Code]
      · exact GetErrCode_ErrCode_code (some c) code msg h
  · subst hc
    constructor
    · simp [util.ErrCode, util.nanoError.toError, util.nanoError.Code]
    · exact GetErrCode_Err_some c msg
  · subst hc
    rw [GetErrCode_Err_some]
    exact ⟨rfl, rfl⟩

/-! ## `endpoint.Handler`: error and empty responses -/

/-- C21: when the request to the service behind a JSON endpoint returns the error
`util.ErrCode(nil, c, m)`, `Handler` returns after writing, on a fresh writer, the status
`ErrorCodeToHTTPStatus(c)`, the JSON content type and the encoding of the error envelope
with code `c` and message `m`, which a codec that round-trips the envelope decodes to
these two; the status is 400 for `C-MYERROR`, 404 for `C-NOT-FOUND` and 500 for
`S-MYERROR`. -/
theorem Handler_error_response {σ D : Type} (lib : GoLib D) (p : http.endpoint σ D)
    (w : nethttp.ResponseWriter) (r : nethttp.Request) (world world2 : World σ)
    (req resp : Option (GoValue D)) (ri : serialization.ReqInfo) (c m : String) (b : List Nat)
    (hs : p.Serializer = json.ServerSideSerializer lib)
    (hd : p.Serializer.DeserializeRequest p.cfg r = (req, ri, none))
    (hreq : (NewClient p.svc ri.ClientName).Request (some world.ctxHeap.length) req
      { world with ctxHeap := world.ctxHeap ++ [{ ReqID := ri.ReqID }] } =
        (.ret (resp, some (util.ErrCode none c m)), world2))
    (hw : w.status = none ∧ w.writeErr = none)
    (hM : lib.MarshalErrorResponse { Code := c, Msg := m } = .ok b) :
    (http.endpoint.Handler lib p w r world).1 = .ret () ∧
    (http.endpoint.Handler lib p w r world).2.1 =
      { w with
        header := w.header.Set "Content-Type" "application/json; charset=utf-8"
        status := some (config.ErrorCodeToHTTPStatus c)
        body := w.body ++ b } ∧
    (lib.UnmarshalErrorResponse b = .ok { Code := c, Msg := m } → w.body = [] →
      lib.UnmarshalErrorResponse (http.endpoint.Handler lib p w r world).2.1.body =
        .ok { Code := c, Msg := m }) ∧
    config.ErrorCodeToHTTPStatus "C-MYERROR" = 400 ∧
    config.ErrorCodeToHTTPStatus "C-NOT-FOUND" = 404 ∧
    config.ErrorCodeToHTTPStatus "S-MYERROR" = 500 := by
  have hH : http.endpoint.Handler lib p w r world =
      (.ret (),
        (http.endpoint.Handler.respond p
          (some ((world2.ctxHeap[world.ctxHeap.length]?).getD { ReqID := ri.ReqID }))
          w r none (some (util.ErrCode none c m)) "error serialising response").1,
        world2,
        [.DeserializeRequest (req, ri, none),
          .Request ri.ClientName { ReqID := ri.ReqID } req
            (.ret (resp, some (util.ErrCode none c m)))] ++
        (http.endpoint.Handler.respond p
          (some ((world2.ctxHeap[world.ctxHeap.length]?).getD { ReqID := ri.ReqID }))
          w r none (some (util.ErrCode none c m)) "error serialising response").2) := by
    simp only [http.endpoint.Handler, hd, hreq]
  have hw2 : (http.endpoint.Handler lib p w r world).2.1 =
      { w with
        header := w.header.Set "Content-Type" "application/json; charset=utf-8"
        status := some (config.ErrorCodeToHTTPStatus c)
        body := w.body ++ b } := by
    rw [hH]
    show (http.endpoint.Handler.respond p _ w r none (some (util.ErrCode none c m)) _).1 = _
    rw [(respond_SerializeResponse p _ w r none (some (util.ErrCode none c m)) _).1, hs]
    have := sendErrorResponse_ok lib w (util.ErrCode none c m) b hw hM
    simp only [json.ServerSideSerializer, json.respSerializer.SerializeResponse, this]
    rfl
  refine ⟨by rw [hH], hw2, fun hU hb => ?_, by decide, by decide, by decide⟩
  rw [hw2]
  show lib.UnmarshalErrorResponse (w.body ++ b) = _
  rw [hb]
  exact hU

theorem Handler_error_response_witness :
    (http.endpoint.Handler sampleLib errorEndpoint newRecorder listenRequest sampleWorld).1 =
      .ret () ∧
    (http.endpoint.Handler sampleLib errorEndpoint newRecorder listenRequest sampleWorld).2.1 =
      { header := [("Content-Type", ["application/json; charset=utf-8"])],
        status := some 400,
        body := sampleMarshalErrorResponse { Code := "C-MYERROR", Msg := "test error" },
        writeErr := none } ∧
    sampleUnmarshalErrorResponse
      (http.endpoint.Handler sampleLib errorEndpoint newRecorder listenRequest sampleWorld).2.1.body
      = .ok { Code := "C-MYERROR", Msg := "test error" } :=
  ⟨(Handler_error_response sampleLib errorEndpoint newRecorder listenRequest sampleWorld
      ((NewClient errorEndpoint.svc "test_client").Request (some sampleWorld.ctxHeap.length)
        (some { typ := .ptr (.named "ListenGetReq"), data := [] })
        { sampleWorld with
          ctxHeap := sampleWorld.ctxHeap ++ [{ ReqID := "TestReqID" }] }).2
      (some { typ := .ptr (.named "ListenGetReq"), data := [] }) none
      { ReqID := "TestReqID", ClientName := "test_client" } "C-MYERROR" "test error" _
      rfl rfl rfl ⟨rfl, rfl⟩ rfl).1,
    (Handler_error_response sampleLib errorEndpoint newRecorder listenRequest sampleWorld
      ((NewClient errorEndpoint.svc "test_client").Request (some sampleWorld.ctxHeap.length)
        (some { typ := .ptr (.named "ListenGetReq"), data := [] })
        { sampleWorld with
          ctxHeap := sampleWorld.ctxHeap ++ [{ ReqID := "TestReqID" }] }).2
      (some { typ := .ptr (.named "ListenGetReq"), data := [] }) none
      { ReqID := "TestReqID", ClientName := "test_client" } "C-MYERROR" "test error" _
      rfl rfl rfl ⟨rfl, rfl⟩ rfl).2.1,
    (Handler_error_response sampleLib errorEndpoint newRecorder listenRequest sampleWorld
      ((NewClient errorEndpoint.svc "test_client").Request (some sampleWorld.ctxHeap.length)
        (some { typ := .ptr (.named "ListenGetReq"), data := [] })
        { sampleWorld with
          ctxHeap := sampleWorld.ctxHeap ++ [{ ReqID := "TestReqID" }] }).2
      (some { typ := .ptr (.named "ListenGetReq"), data := [] }) none
      { ReqID := "TestReqID", ClientName := "test_client" } "C-MYERROR" "test error" _
      rfl rfl rfl ⟨rfl, rfl⟩ rfl).2.2.1 rfl rfl⟩

/-- C22: for a JSON endpoint that declares no response type, when the request is decoded
and the request to the service returns `(nil, nil)`, `Handler` makes one call of
`SerializeResponse`, with a nil response and a nil error, logs nothing and leaves the
writer untouched: no `WriteHeader`, no `Write`, no header.  For a fresh writer this is
the response with status 200, an empty body and no `Content-Type` header. -/
theorem Handler_nil_response {σ D : Type} (lib : GoLib D) (p : http.endpoint σ D)
    (w : nethttp.ResponseWriter) (r : nethttp.Request) (world world2 : World σ)
    (req : Option (GoValue D)) (ri : serialization.ReqInfo)
    (hs : p.Serializer = json.ServerSideSerializer lib)
    (hrt : p.cfg.RespType = none)
    (hd : p.Serializer.DeserializeRequest p.cfg r = (req, ri, none))
    (hreq : (NewClient p.svc ri.ClientName).Request (some world.ctxHeap.length) req
      { world with ctxHeap := world.ctxHeap ++ [{ ReqID := ri.ReqID }] } =
        (.ret (none, none), world2)) :
    (http.endpoint.Handler lib p w r world).1 = .ret () ∧
    (http.endpoint.Handler lib p w r world).2.1 = w ∧
    (http.endpoint.Handler lib p w r world).2.2.2 =
      [.DeserializeRequest (req, ri, none),
        .Request ri.ClientName { ReqID := ri.ReqID } req (.ret (none, none)),
        .SerializeResponse
          (some ((world2.ctxHeap[world.ctxHeap.length]?).getD { ReqID := ri.ReqID }))
          none none none] ∧
    (∀ hr : nethttp.Response, w.status = none → w.body = [] → w.header = [] →
      hr.carries (http.endpoint.Handler lib p w r world).2.1 →
      hr.StatusCode = 200 ∧ hr.Body.data = [] ∧ hr.Header.Get "Content-Type" = "") := by
  have hS : ∀ c : Option Ctx, p.Serializer.SerializeResponse p.cfg c w r none none = (none, w) := by
    intro c
    rw [hs]
    simp only [json.ServerSideSerializer, json.respSerializer.SerializeResponse, hrt]
  have hR : ∀ (c : Option Ctx) (msg : String),
      http.endpoint.Handler.respond p c w r none none msg =
        (w, [.SerializeResponse c none none none]) := by
    intro c msg
    simp only [http.endpoint.Handler.respond, hS]
  have hH : http.endpoint.Handler lib p w r world =
      (.ret (), w, world2,
        [.DeserializeRequest (req, ri, none),
          .Request ri.ClientName { ReqID := ri.ReqID } req (.ret (none, none)),
          .SerializeResponse
            (some ((world2.ctxHeap[world.ctxHeap.length]?).getD { ReqID := ri.ReqID }))
            none none none]) := by
    simp only [http.endpoint.Handler, hd, hreq, hrt, hR]
    simp [reflect.TypeOf]
  refine ⟨by rw [hH], by rw [hH], by rw [hH], ?_⟩
  intro hr h1 h2 h3 hc
  rw [hH] at hc
  obtain ⟨c1, c2, c3⟩ := hc
  refine ⟨by rw [c1, h1]; rfl, by rw [c3, h2], by rw [c2, h3]; rfl⟩

theorem Handler_nil_response_witness :
    (http.endpoint.Handler sampleLib nilEndpoint newRecorder listenRequest sampleWorld).1 =
      .ret () ∧
    (http.endpoint.Handler sampleLib nilEndpoint newRecorder listenRequest sampleWorld).2.1 =
      { header := [], status := none, body := [], writeErr := none } :=
  ⟨(Handler_nil_response sampleLib nilEndpoint newRecorder listenRequest sampleWorld
      ((NewClient nilEndpoint.svc "test_client").Request (some sampleWorld.ctxHeap.length)
        (some { typ := .ptr (.named "ListenGetDirReq"), data := [] })
        { sampleWorld with
          ctxHeap := sampleWorld.ctxHeap ++ [{ ReqID := "TestReqID" }] }).2
      (some { typ := .ptr (.named "ListenGetDirReq"), data := [] })
      { ReqID := "TestReqID", ClientName := "test_client" } rfl rfl rfl rfl).1,
    (Handler_nil_response sampleLib nilEndpoint newRecorder listenRequest sampleWorld
      ((NewClient nilEndpoint.svc "test_client").Request (some sampleWorld.ctxHeap.length)
        (some { typ := .ptr (.named "ListenGetDirReq"), data := [] })
        { sampleWorld with
          ctxHeap := sampleWorld.ctxHeap ++ [{ ReqID := "TestReqID" }] }).2
      (some { typ := .ptr (.named "ListenGetDirReq"), data := [] })
      { ReqID := "TestReqID", ClientName := "test_client" } rfl rfl rfl rfl).2.1⟩

/-! ## `util.ErrCodef` and `util.Errf` -/

/-- C28, at the code: `ErrCodef` hands the slice of its arguments to `fmt.Sprintf` as ONE
operand (`fmt.Sprintf(format, a)`), and `Errf` hands its slice to `ErrCodef` as one
argument, so the message is the format applied to a slice, nested once more for `Errf`.
With the fragment of `fmt.Sprintf` for `%v`: `Errf(nil, "error reading response body")`
has a message that ends in an `EXTRA` report, where `Sprintf` of the format alone is the
format; and `ErrCodef(nil, "C-X", "value %v", "x")` has the message `value [x]`, where
`Sprintf("value %v", "x")` is `value x`. -/
theorem ErrCodef_message {D : Type} (lib : GoLib D) (code format : String)
    (a : List (FmtArg D)) :
    (util.ErrCodef lib none code format a).Error = lib.Sprintf format [.slice a] ∧
    (util.Errf lib none format a).Error = lib.Sprintf format [.slice [.slice a]] ∧
    (util.Errf fmtLib none "error reading response body" []).Error =
      "error reading response body%!(EXTRA []interface \x7b\x7d=[[]])" ∧
    fmtLib.Sprintf "error reading response body" [] = "error reading response body" ∧
    (util.ErrCodef fmtLib none "C-X" "value %v" [.str "x"]).Error = "value [x]" ∧
    (util.Errf fmtLib none "value %v" [.str "x"]).Error = "value [[x]]" ∧
    fmtLib.Sprintf "value %v" [.str "x"] = "value x" :=
  ⟨rfl, rfl, rfl, rfl, rfl, rfl, rfl⟩

/-! ## The transport client -/

/-- C26, at the code: the transport client's `Handle` panics for a nil request, and for a
request whose type is not a pointer, or is a pointer to a type that no endpoint has for
its request type, it returns the error `p.Err(nil, ...)`, a `util.Err` error that names the
service and the type.  It makes no call to the discoverer or to `net/http` in these cases,
but the error is never `nano.BadReqTypeError`. -/
theorem client_Handle_bad_request_type {D : Type} (net : nethttp.Lib) (p : http.client D)
    (c : Ctx) :
    p.Handle net c none =
      (.panic "runtime error: invalid memory address or nil pointer dereference", []) ∧
    (∀ (v : GoValue D) (name : String), v.typ = .named name →
      p.Handle net c (some v) =
        (.ret (none, some (util.Err none
          ("service " ++ p.svcName ++ ": " ++
            ("expected a pointer request type, got " ++ name)))), [])) ∧
    (∀ (v : GoValue D) (elem : GoType), v.typ = .ptr elem →
      TypeMap.get? p.endpoints elem = none →
      p.Handle net c (some v) =
        (.ret (none, some (util.Err none
          ("service " ++ p.svcName ++ ": " ++
            ("can\x27t handle request type " ++ ("*" ++ elem.String))))), [])) ∧
    (∀ msg : String, util.Err none msg ≠ BadReqTypeError) ∧
    (sampleClient true).Handle sampleNet testCtx
        (some { typ := .ptr (.named "Other"), data := [] }) =
      (.ret (none, some { Error := "service test_svc: can\x27t handle request type *Other",
                          Code := some "" }), []) ∧
    (sampleClient true).Handle sampleNet testCtx
        (some { typ := .named "ClientReq", data := [] }) =
      (.ret (none, some { Error := "service test_svc: expected a pointer request type, got ClientReq",
                          Code := some "" }), []) := by
  refine ⟨rfl, fun v name hv => ?_, fun v elem hv hm => ?_, fun msg h => ?_, rfl, rfl⟩
  · simp only [http.client.Handle, reflect.TypeOf, Option.map, hv, http.client.Err,
      GoType.String]
  · simp only [http.client.Handle, reflect.TypeOf, Option.map, hv, hm, http.client.Err,
      GoType.String]
  · have := congrArg GoError.Code h
    simp [util.Err, util.ErrCode, util.nanoError.toError, BadReqTypeError] at this

theorem typeMap_find?_filter_other {α : Type} (m : List (GoType × α)) (k k2 : GoType)
    (h : k2 ≠ k) :
    (m.filter (fun e => e.1 != k)).find? (fun e => e.1 == k2) =
      m.find? (fun e => e.1 == k2) := by
  induction m with
  | nil => rfl
  | cons e es ih =>
    by_cases he : e.1 = k
    · have hb1 : (e.1 != k) = false := by simp [he]
      have hb2 : (e.1 == k2) = false := by
        simpa using fun e2 : e.1 = k2 => h (e2.symm.trans he)
      simp only [List.filter_cons, List.find?_cons, hb1, hb2, ih, Bool.false_eq_true, if_false]
    · have hb1 : (e.1 != k) = true := by simp [he]
      simp only [List.filter_cons, List.find?_cons, hb1, ih, if_true]

theorem TypeMap_get?_set {α : Type} (m : TypeMap α) (k k2 : GoType) (v : α) :
    TypeMap.get? (TypeMap.set m k v) k2 = if k2 = k then some v else TypeMap.get? m k2 := by
  unfold TypeMap.get? TypeMap.set
  by_cases h : k2 = k
  · subst h
    simp
  · have h2 : ¬ k = k2 := fun e => h e.symm
    simp only [List.find?_cons, h, if_false]
    rw [show (k == k2) = false from by simpa using h2]
    simp only [typeMap_find?_filter_other m k k2 h]

theorem NewClient_loop_spec (eps : List config.EndpointConfig)
    (m e : TypeMap config.EndpointConfig) (h : http.NewClient.loop eps m = .ret e) :
    (∀ ep ∈ eps, TypeMap.get? e ep.ReqType = some ep) ∧
    (∀ k v, TypeMap.get? m k = some v → TypeMap.get? e k = some v) := by
  induction eps generalizing m with
  | nil =>
    simp only [http.NewClient.loop, Outcome.ret.injEq] at h
    subst h
    exact ⟨fun ep hep => (by cases hep), fun k v hk => hk⟩
  | cons ep rest ih =>
    rcases hg : TypeMap.get? m ep.ReqType with _ | old
    · simp only [http.NewClient.loop, hg] at h
      obtain ⟨iA, iB⟩ := ih _ h
      refine ⟨fun ep2 hep2 => ?_, fun k v hk => ?_⟩
      · rcases List.mem_cons.mp hep2 with rfl | h2
        · exact iB _ _ (by rw [TypeMap_get?_set]; simp)
        · exact iA ep2 h2
      · apply iB
        rw [TypeMap_get?_set]
        have hne : k ≠ ep.ReqType := by
          intro e2
          rw [e2, hg] at hk
          cases hk
        simp [hne, hk]
    · simp only [http.NewClient.loop, hg] at h
      cases h

theorem endpoints_routes {σ D : Type}
    (refuses : List (String × String) → String → String → Option String)
    (p : http.listener D) (cfg : config.ServiceConfig) (svc : Option (Service σ (GoValue D)))
    (l : List config.EndpointConfig) (dup : GoMap Unit) (router : httprouter.Router σ D)
    (h : (http.listener.Init.endpoints refuses p cfg svc l dup router).1 = .ret none) :
    (∀ x ∈ router, x ∈ (http.listener.Init.endpoints refuses p cfg svc l dup router).2.2) ∧
    ∀ ec ∈ l, ∃ x ∈ (http.listener.Init.endpoints refuses p cfg svc l dup router).2.2,
      x.method = ec.Method ∧ x.path = p.path cfg ec ∧
      ∃ ep, x.handle = some ep ∧ ep.cfg = ec := by
  induction l generalizing dup router with
  | nil =>
    exact ⟨fun x hx => hx, fun ec hec => (by cases hec)⟩
  | cons ec rest ih =>
    simp only [http.listener.Init.endpoints] at h ⊢
    rcases hg : GoMap.get? dup (ec.Method ++ " " ++ p.path cfg ec) with _ | u
    · simp only [hg] at h ⊢
      rcases hr : httprouter.Router.Handle refuses router ec.Method (p.path cfg ec)
          (some { cfg := ec, svc := svc, Serializer := p.opts.Serializer }) with router2 | m
      · simp only [hr] at h ⊢
        obtain ⟨iA, iB⟩ := ih _ _ h
        have hr2 : router2 = router ++
            [{ method := ec.Method, path := p.path cfg ec,
               handle := some { cfg := ec, svc := svc, Serializer := p.opts.Serializer } }] := by
          unfold httprouter.Router.Handle at hr
          split at hr
          · cases hr
          · cases hr
            rfl
        refine ⟨fun x hx => iA x (by rw [hr2]; exact List.mem_append_left _ hx),
          fun ec2 hec2 => ?_⟩
        rcases List.mem_cons.mp hec2 with rfl | h2
        · exact ⟨_, iA _ (by rw [hr2]; exact List.mem_append_right _ (List.mem_singleton.mpr rfl)),
            rfl, rfl, _, rfl, rfl⟩
        · exact iB ec2 h2
      · simp only [hr] at h
        cases h
    · simp only [hg] at h
      cases h

theorem services_routes {σ D : Type}
    (refuses : List (String × String) → String → String → Option String)
    (p : http.listener D) (srv : ServiceSet σ (GoValue D)) (cs : List config.ServiceConfig)
    (dup : GoMap Unit) (router : httprouter.Router σ D)
    (h : (http.listener.Init.services refuses p srv cs dup router).1 = .ret none) :
    (∀ x ∈ router, x ∈ (http.listener.Init.services refuses p srv cs dup router).2.2) ∧
    ∀ cfg ∈ cs, ∀ ec ∈ cfg.Endpoints,
      ∃ x ∈ (http.listener.Init.services refuses p srv cs dup router).2.2,
        x.method = ec.Method ∧ x.path = p.path cfg ec ∧
        ∃ ep, x.handle = some ep ∧ ep.cfg = ec := by
  induction cs generalizing dup router with
  | nil => exact ⟨fun x hx => hx, fun cfg hcfg => (by cases hcfg)⟩
  | cons cfg rest ih =>
    have hl : (srv.LookupService cfg.ServiceName).2 = none := by
      rcases hs : srv.LookupService cfg.ServiceName with ⟨svc, _ | err⟩
      · rfl
      · simp only [http.listener.Init.services, hs] at h
        cases h
    by_cases he : (http.listener.Init.endpoints refuses p cfg
        (srv.LookupService cfg.ServiceName).1 cfg.Endpoints dup router).1 = .ret none
    · rw [services_cons_continue refuses p srv cfg rest dup router hl he] at h ⊢
      obtain ⟨iA, iB⟩ := ih _ _ h
      obtain ⟨eA, eB⟩ := endpoints_routes refuses p cfg _ cfg.Endpoints dup router he
      refine ⟨fun x hx => iA x (eA x hx), fun cfg2 hcfg2 ec hec => ?_⟩
      rcases List.mem_cons.mp hcfg2 with rfl | h2
      · obtain ⟨x, hx, h1, h2, h3⟩ := eB ec hec
        exact ⟨x, iA x hx, h1, h2, h3⟩
      · exact iB cfg2 h2 ec hec
    · rw [services_cons_stop refuses p srv cfg rest dup router hl he] at h
      exact absurd h he

/-- C30: for a service descriptor, an endpoint of it and one value of `PrefixURLPath` on
both sides, the transport client made by `NewClient` for the descriptor asks
`http.NewRequest` for the method of the endpoint and the URL `"http://" + addr + path`,
where `path` is the effective path of the specification, `"/" + ServiceName + Path`
when prefixed and `Path` otherwise, and a
listener whose `Init` returns nil has registered a handler of that endpoint under this
method and this path. -/
theorem client_listener_same_route {σ D : Type} (net : nethttp.Lib)
    (dflt : Option (http.ClientOptions D)) (opts : http.ClientOptions D)
    (cfg : config.ServiceConfig) (ec : config.EndpointConfig) (cl : http.client D) (c : Ctx)
    (v : GoValue D) (addr : String) (lst : http.listener D)
    (hec : ec ∈ cfg.Endpoints)
    (hcl : http.NewClient dflt (some opts) cfg = .ret cl)
    (hv : v.typ = .ptr ec.ReqType)
    (hdisc : opts.Discoverer cfg.ServiceName = (addr, none))
    (hser : (opts.Serializer.SerializeRequest ec c (some v)).2.2 = none)
    (hflag : lst.opts.PrefixURLPath = opts.PrefixURLPath) :
    (cl.Handle net c (some v)).2.filter http.ClientCall.isNewRequest =
      [.NewRequest ec.Method ("http://" ++ addr ++ lst.path cfg ec)
        (net.NewRequest ec.Method ("http://" ++ addr ++ lst.path cfg ec))] ∧
    (∀ me url h b res, http.ClientCall.Do me url h b res ∈ (cl.Handle net c (some v)).2 →
      me = ec.Method ∧ url = "http://" ++ addr ++ lst.path cfg ec) ∧
    lst.path cfg ec = spec.effectivePath opts.PrefixURLPath cfg.ServiceName ec.Path ∧
    (∀ (refuses : List (String × String) → String → String → Option String)
      (srv : ServiceSet σ (GoValue D)), cfg ∈ lst.cfgs →
      (http.listener.Init refuses lst srv).1 = .ret none →
      ∃ x ∈ (http.listener.Init refuses lst srv).2,
        x.method = ec.Method ∧ x.path = lst.path cfg ec ∧
        ∃ ep, x.handle = some ep ∧ ep.cfg = ec) := by
  have hpath : lst.path cfg ec =
      (if opts.PrefixURLPath then "/" ++ cfg.ServiceName ++ ec.Path else ec.Path) := by
    simp only [http.listener.path, hflag]
  have hspec : lst.path cfg ec =
      spec.effectivePath opts.PrefixURLPath cfg.ServiceName ec.Path := by
    rw [hpath]
    simp only [spec.effectivePath]
  -- the client built by `NewClient`
  have hcl2 : cl.svcName = cfg.ServiceName ∧ cl.opts = opts ∧
      TypeMap.get? cl.endpoints ec.ReqType = some ec := by
    simp only [http.NewClient] at hcl
    rcases hl : http.NewClient.loop cfg.Endpoints [] with e | m
    · simp only [hl, Outcome.ret.injEq] at hcl
      subst hcl
      exact ⟨rfl, rfl, (NewClient_loop_spec cfg.Endpoints [] e hl).1 ec hec⟩
    · simp only [hl] at hcl
      cases hcl
  obtain ⟨h1, h2, h3⟩ := hcl2
  have hurl : (if opts.PrefixURLPath then "http://" ++ addr ++ "/" ++ cfg.ServiceName
      else "http://" ++ addr) ++ ec.Path = "http://" ++ addr ++ lst.path cfg ec := by
    rw [hpath]
    split <;> simp [String.append_assoc]
  have hH : (cl.Handle net c (some v)).2 =
      match net.NewRequest ec.Method ("http://" ++ addr ++ lst.path cfg ec) with
      | some err =>
        [.Discover cfg.ServiceName (addr, none),
          .NewRequest ec.Method ("http://" ++ addr ++ lst.path cfg ec) (some err)]
      | none =>
        [.Discover cfg.ServiceName (addr, none),
          .NewRequest ec.Method ("http://" ++ addr ++ lst.path cfg ec) none,
          .Do ec.Method ("http://" ++ addr ++ lst.path cfg ec)
            (opts.Serializer.SerializeRequest ec c (some v)).1
            (opts.Serializer.SerializeRequest ec c (some v)).2.1
            (opts.client net ec.Method ("http://" ++ addr ++ lst.path cfg ec)
              (opts.Serializer.SerializeRequest ec c (some v)).1
              (opts.Serializer.SerializeRequest ec c (some v)).2.1)] := by
    simp only [http.client.Handle, reflect.TypeOf, Option.map, hv, h1, h2, h3, hdisc, hser, hurl]
    rcases hn : net.NewRequest ec.Method ("http://" ++ addr ++ lst.path cfg ec) with _ | err
    · simp only []
      split
      · rfl
      · split <;> rfl
    · rfl
  refine ⟨?_, ?_, hspec, ?_⟩
  · rw [hH]
    rcases hn : net.NewRequest ec.Method ("http://" ++ addr ++ lst.path cfg ec) with _ | err
    · simp [http.ClientCall.isNewRequest]
    · simp [http.ClientCall.isNewRequest]
  · intro me url h b res hmem
    rw [hH] at hmem
    rcases hn : net.NewRequest ec.Method ("http://" ++ addr ++ lst.path cfg ec) with _ | err
    · simp only [hn, List.mem_cons, List.mem_singleton, List.not_mem_nil, or_false,
        false_or] at hmem
      rcases hmem with h | h | h
      · cases h
      · cases h
      · cases h
        exact ⟨rfl, rfl⟩
    · simp only [hn, List.mem_cons, List.mem_singleton, List.not_mem_nil, or_false] at hmem
      rcases hmem with h | h <;> cases h
  · intro refuses srv hcfg hinit
    unfold http.listener.Init at hinit ⊢
    rcases hh : httprouter.Router.Handle refuses ([] : httprouter.Router σ D) "GET"
        "/health-check" none with router | m
    · simp only [hh] at hinit ⊢
      exact (services_routes refuses lst srv lst.cfgs [] router hinit).2 cfg hcfg ec hec
    · simp only [hh] at hinit
      cases hinit

theorem client_listener_same_route_witness :
    ((sampleClient true).Handle sampleNet testCtx
        (some { typ := .ptr (.named "ClientGetDirReq"), data := [] })).2.filter
        http.ClientCall.isNewRequest =
      [.NewRequest "GET" "http://test_svc:8000/test_svc/dir" none] ∧
    (∃ x ∈ (http.listener.Init refusesRegistered (sampleListener [clientCFG])
        listenServiceSet).2,
      x.method = "GET" ∧ x.path = "/test_svc/dir" ∧
      ∃ ep, x.handle = some ep ∧
        ep.cfg = { Method := "GET", Path := "/dir", HasReqContent := false,
                   ReqType := .named "ClientGetDirReq", RespType := none }) :=
  ⟨(@client_listener_same_route Unit (List Nat) sampleNet none (sampleClientOptions true) clientCFG
      { Method := "GET", Path := "/dir", HasReqContent := false,
        ReqType := .named "ClientGetDirReq", RespType := none }
      (sampleClient true) testCtx { typ := .ptr (.named "ClientGetDirReq"), data := [] }
      "test_svc:8000" (sampleListener [clientCFG]) (by decide) rfl rfl rfl rfl rfl).1,
    (@client_listener_same_route Unit (List Nat) sampleNet none (sampleClientOptions true) clientCFG
      { Method := "GET", Path := "/dir", HasReqContent := false,
        ReqType := .named "ClientGetDirReq", RespType := none }
      (sampleClient true) testCtx { typ := .ptr (.named "ClientGetDirReq"), data := [] }
      "test_svc:8000" (sampleListener [clientCFG]) (by decide) rfl rfl rfl rfl rfl).2.2.2
      refusesRegistered listenServiceSet (by decide) (by decide)⟩

/-! ## The protobuf serializer -/

/-- C29, at the code: for a request with the content type `application/x-protobuf` whose
body is read and decoded as the envelope, and whose payload is decoded as the request
object, `DeserializeRequest` panics with a nil pointer dereference when the envelope has
no `Meta` (as the envelope decoded from an empty body), and returns the `ReqID` and the
`ClientName` of `Meta` when it has one. -/
theorem proto_DeserializeRequest_nil_meta {D : Type} (lib : GoLib D) (plib : ProtoLib D)
    (ec : config.EndpointConfig) (r : nethttp.Request) (mp : GoMap String) (body : List Nat)
    (request : gogo_proto.Request) (req2 : GoValue D)
    (hct : r.Header.Get "Content-Type" ≠ "")
    (hp : lib.ParseMediaType (r.Header.Get "Content-Type") = .ok ("application/x-protobuf", mp))
    (hb : ioutil.ReadAll r.Body = (body, none))
    (hu : plib.UnmarshalRequest body = .ok request)
    (hm : plib.IsMessage (some (reflect.New lib.zero ec.ReqType)) = true)
    (hpay : plib.Unmarshal request.Payload (reflect.New lib.zero ec.ReqType) = .ok req2) :
    (request.Meta = none →
      gogo_proto.reqDeserializer.DeserializeRequest lib plib ec r =
        .panic "runtime error: invalid memory address or nil pointer dereference") ∧
    (∀ md, request.Meta = some md →
      gogo_proto.reqDeserializer.DeserializeRequest lib plib ec r =
        .ret (some req2, { ReqID := md.ReqId, ClientName := md.ClientName }, none)) := by
  constructor
  · intro hmeta
    simp [gogo_proto.reqDeserializer.DeserializeRequest, hct, hp, hb, hu, hm, hpay, hmeta]
  · intro md hmeta
    simp [gogo_proto.reqDeserializer.DeserializeRequest, hct, hp, hb, hu, hm, hpay, hmeta]

theorem proto_DeserializeRequest_nil_meta_witness :
    gogo_proto.reqDeserializer.DeserializeRequest protoSampleLib sampleProtoLib
        endpointConfigWithContent emptyProtoRequest =
      .panic "runtime error: invalid memory address or nil pointer dereference" :=
  (proto_DeserializeRequest_nil_meta protoSampleLib sampleProtoLib endpointConfigWithContent
    emptyProtoRequest [] [] { Meta := none, Payload := [] }
    { typ := .ptr (.named "ReqWithContent"), data := [] }
    (by decide) rfl rfl rfl rfl rfl).1 rfl

/-! ## `NewContext` and its goroutine -/

theorem CancelFunc_call_contexts_length {σ : Type} (f : CancelFunc) (w : World σ) :
    (f.call w).2.contexts.length = w.contexts.length := by
  cases f with
  | cancelCtx id =>
    simp only [CancelFunc.call]
    split <;> simp
  | closeChan ch =>
    simp only [CancelFunc.call]
    split <;> rfl

theorem CancelFunc_call_watchers {σ : Type} (f : CancelFunc) (w : World σ) :
    (f.call w).2.watchers = w.watchers := by
  cases f with
  | cancelCtx id =>
    simp only [CancelFunc.call]
    split <;> rfl
  | closeChan ch =>
    simp only [CancelFunc.call]
    split <;> rfl

theorem CancelFunc_call_now {σ : Type} (f : CancelFunc) (w : World σ) :
    (f.call w).2.now = w.now := by
  cases f with
  | cancelCtx id =>
    simp only [CancelFunc.call]
    split <;> rfl
  | closeChan ch =>
    simp only [CancelFunc.call]
    split <;> rfl

/-- A cancel function leaves every context object other than its own as it was. -/
theorem CancelFunc_call_contexts_other {σ : Type} (f : CancelFunc) (w : World σ) (id : Nat)
    (h : f ≠ .cancelCtx id) : (f.call w).2.contexts[id]? = w.contexts[id]? := by
  cases f with
  | cancelCtx id2 =>
    have hne : id2 ≠ id := fun e => h (by rw [e])
    simp only [CancelFunc.call]
    split
    · simp [List.getElem?_set, hne]
    · rfl
  | closeChan ch =>
    simp only [CancelFunc.call]
    split <;> rfl

/-- A cancel function never clears the `cancelled` mark of a context. -/
theorem CancelFunc_call_cancelled {σ : Type} (f : CancelFunc) (w : World σ) (id : Nat)
    (o : ContextObj) (h : w.contexts[id]? = some o) (hc : o.cancelled = true) :
    ∃ o2, (f.call w).2.contexts[id]? = some o2 ∧ o2.cancelled = true ∧
      o2.deadline = o.deadline := by
  by_cases hf : f = .cancelCtx id
  · subst hf
    simp only [CancelFunc.call, h]
    have hlt : id < w.contexts.length := by
      rcases Nat.lt_or_ge id w.contexts.length with h1 | h1
      · exact h1
      · rw [List.getElem?_eq_none h1] at h
        cases h
    exact ⟨{ o with cancelled := true }, by simp [List.getElem?_set, hlt], rfl, rfl⟩
  · exact ⟨o, by rw [CancelFunc_call_contexts_other f w id hf]; exact h, hc, rfl⟩

/-- The cancel function of a context object cancels it. -/
theorem cancelCtx_call_cancels {σ : Type} (w : World σ) (id : Nat)
    (h : id < w.contexts.length) :
    ∃ o, ((CancelFunc.cancelCtx id).call w).2.contexts[id]? = some o ∧ o.cancelled = true := by
  have hs : w.contexts[id]? = some (w.contexts[id]) := List.getElem?_eq_getElem h
  simp only [CancelFunc.call, hs]
  exact ⟨{ w.contexts[id] with cancelled := true }, by simp [List.getElem?_set, h], rfl⟩

theorem isDone_of_cancelled {σ : Type} (w : World σ) (id : Nat) (o : ContextObj)
    (h : w.contexts[id]? = some o) (hc : o.cancelled = true) :
    GoContext.isDone w (.obj id) = true := by
  simp [GoContext.isDone, h, hc]

theorem NewContext_contexts {σ : Type} (cc : Option GoContext) (w : World σ) :
    ∃ o, (NewContext cc w).2.contexts = w.contexts ++ [o] ∧
      o.deadline = cc.bind (fun c => c.Deadline w) ∧
      (NewContext cc w).1.1 = .obj w.contexts.length := by
  cases cc with
  | none => exact ⟨_, rfl, rfl, rfl⟩
  | some c =>
    simp only [NewContext, Option.bind]
    rcases hd : c.Deadline w with _ | d
    · exact ⟨_, rfl, rfl, rfl⟩
    · exact ⟨_, rfl, rfl, rfl⟩

theorem NewContext_watchers {σ : Type} (cc : Option GoContext) (w : World σ) :
    (NewContext cc w).2.watchers =
      match cc with
      | none => w.watchers
      | some c => w.watchers ++ [{ clientContext := c, cancelChan := w.chans.length,
                                   cancel := .cancelCtx w.contexts.length }] := by
  cases cc with
  | none => rfl
  | some c =>
    simp only [NewContext]
    rcases hd : c.Deadline w with _ | d <;> rfl

theorem NewContext_chans {σ : Type} (cc : Option GoContext) (w : World σ) :
    (NewContext cc w).2.chans =
      match cc with
      | none => w.chans
      | some _ => w.chans ++ [false] := by
  cases cc with
  | none => rfl
  | some c =>
    simp only [NewContext]
    rcases hd : c.Deadline w with _ | d <;> rfl

theorem NewContext_cancel {σ : Type} (cc : Option GoContext) (w : World σ) :
    (NewContext cc w).1.2 =
      match cc with
      | none => .cancelCtx w.contexts.length
      | some _ => .closeChan w.chans.length := by
  cases cc with
  | none => rfl
  | some c =>
    simp only [NewContext]
    rcases hd : c.Deadline w with _ | d <;> rfl

theorem NewContext_now {σ : Type} (cc : Option GoContext) (w : World σ) :
    (NewContext cc w).2.now = w.now := by
  cases cc with
  | none => rfl
  | some c =>
    simp only [NewContext]
    rcases hd : c.Deadline w with _ | d <;> rfl

theorem runWatcher_contexts_other {σ : Type} (i : Nat) (w2 w3 : World σ) (wt : Watcher)
    (h : World.runWatcher i w2 = some (w3, wt)) (id : Nat) (hne : wt.cancel ≠ .cancelCtx id) :
    w3.contexts[id]? = w2.contexts[id]? := by
  unfold World.runWatcher at h
  rcases hw : w2.watchers[i]? with _ | wt2
  · simp [hw] at h
  · simp only [hw] at h
    split at h
    · simp only [Option.some.injEq, Prod.mk.injEq] at h
      obtain ⟨h1, h2⟩ := h
      subst h2
      rw [← h1]
      exact CancelFunc_call_contexts_other wt2.cancel w2 id hne
    · cases h

theorem runWatcher_of_ready {σ : Type} (i : Nat) (w : World σ) (wt : Watcher)
    (h : w.watchers[i]? = some wt) (hr : wt.ready w = true) :
    World.runWatcher i w =
      some ({ (wt.cancel.call w).2 with watchers := w.watchers.eraseIdx i }, wt) := by
  simp only [World.runWatcher, h, hr, if_true]

/-- C24: for every caller context, nil or not, the context that `NewContext` returns is a
new context object made from `context.Background()`: it is none of the contexts that
existed, so not the caller's, and the store of contexts grows by this one object, which
has the caller's deadline when the caller has one and none otherwise.  Calling the
returned cancel function returns and changes no context that existed before; for a caller
context the goroutine can then run, and its run changes no context that existed before and
leaves the new context cancelled; for a nil caller the cancel function itself cancels the
new context.  In every world, a goroutine that holds the cancel function of the new
context changes no other context when it runs. -/
theorem NewContext_fresh_root {σ : Type} (cc : Option GoContext) (w : World σ) :
    (NewContext cc w).1.1 = .obj w.contexts.length ∧
    (∀ id, id < w.contexts.length → (NewContext cc w).1.1 ≠ .obj id) ∧
    (NewContext cc w).1.1 ≠ .background ∧
    (∃ o, (NewContext cc w).2.contexts = w.contexts ++ [o] ∧
      o.deadline = cc.bind (fun c => c.Deadline w)) ∧
    (NewContext cc w).1.1.Deadline (NewContext cc w).2 = cc.bind (fun c => c.Deadline w) ∧
    ((NewContext cc w).1.2.call (NewContext cc w).2).1 = .ret () ∧
    (∀ id, id < w.contexts.length →
      ((NewContext cc w).1.2.call (NewContext cc w).2).2.contexts[id]? = w.contexts[id]?) ∧
    (∀ c0, cc = some c0 →
      ∃ w3, World.runWatcher w.watchers.length
          ((NewContext cc w).1.2.call (NewContext cc w).2).2 =
          some (w3, { clientContext := c0, cancelChan := w.chans.length,
                      cancel := .cancelCtx w.contexts.length }) ∧
        (∀ id, id < w.contexts.length → w3.contexts[id]? = w.contexts[id]?) ∧
        GoContext.isDone w3 (.obj w.contexts.length) = true) ∧
    (cc = none →
      GoContext.isDone ((NewContext cc w).1.2.call (NewContext cc w).2).2
        (.obj w.contexts.length) = true) ∧
    (∀ (w2 w3 : World σ) (i : Nat) (wt : Watcher), World.runWatcher i w2 = some (w3, wt) →
      wt.cancel = .cancelCtx w.contexts.length →
      ∀ id, id ≠ w.contexts.length → w3.contexts[id]? = w2.contexts[id]?) := by
  obtain ⟨o, ho, hod, hobj⟩ := NewContext_contexts cc w
  have hlen : (NewContext cc w).2.contexts.length = w.contexts.length + 1 := by
    rw [ho]; simp
  have hold : ∀ id, id < w.contexts.length →
      (NewContext cc w).2.contexts[id]? = w.contexts[id]? := by
    intro id hid
    rw [ho, List.getElem?_append_left hid]
  have hret : ((NewContext cc w).1.2.call (NewContext cc w).2).1 = .ret () :=
    NewContext_cancel_ret cc w _ (fun ch h => h)
  have hne : ∀ id, id < w.contexts.length → (NewContext cc w).1.2 ≠ .cancelCtx id := by
    intro id hid
    rw [NewContext_cancel]
    cases cc with
    | none =>
      intro e
      simp only [CancelFunc.cancelCtx.injEq] at e
      omega
    | some c => intro e; cases e
  have hteardown : ∀ id, id < w.contexts.length →
      ((NewContext cc w).1.2.call (NewContext cc w).2).2.contexts[id]? = w.contexts[id]? := by
    intro id hid
    rw [CancelFunc_call_contexts_other _ _ id (hne id hid), hold id hid]
  refine ⟨hobj, ?_, ?_, ⟨o, ho, hod⟩, ?_, hret, hteardown, ?_, ?_, ?_⟩
  · intro id hid e
    rw [hobj] at e
    simp only [GoContext.obj.injEq] at e
    omega
  · rw [hobj]
    intro e
    cases e
  · rw [hobj]
    simp only [GoContext.Deadline, ho, List.getElem?_concat_length, Option.bind]
    exact hod
  · intro c0 hc
    subst hc
    -- the world after the teardown
    have hcancel : (NewContext (some c0) w).1.2 = .closeChan w.chans.length :=
      NewContext_cancel (some c0) w
    have hchans : (NewContext (some c0) w).2.chans = w.chans ++ [false] :=
      NewContext_chans (some c0) w
    have hwat : (NewContext (some c0) w).2.watchers =
        w.watchers ++ [{ clientContext := c0, cancelChan := w.chans.length,
                         cancel := .cancelCtx w.contexts.length }] :=
      NewContext_watchers (some c0) w
    have hcall : ((NewContext (some c0) w).1.2.call (NewContext (some c0) w).2).2 =
        { (NewContext (some c0) w).2 with
          chans := (NewContext (some c0) w).2.chans.set w.chans.length true } := by
      rw [hcancel]
      simp only [CancelFunc.call, hchans, List.getElem?_concat_length]
    have hw1 : ((NewContext (some c0) w).1.2.call (NewContext (some c0) w).2).2.watchers[
        w.watchers.length]? = some { clientContext := c0, cancelChan := w.chans.length,
                                     cancel := .cancelCtx w.contexts.length } := by
      rw [CancelFunc_call_watchers, hwat, List.getElem?_concat_length]
    have hready : Watcher.ready
        ((NewContext (some c0) w).1.2.call (NewContext (some c0) w).2).2
        { clientContext := c0, cancelChan := w.chans.length,
          cancel := .cancelCtx w.contexts.length } = true := by
      simp only [Watcher.ready, hcall, hchans]
      simp
    have hlen2 : w.contexts.length <
        ((NewContext (some c0) w).1.2.call (NewContext (some c0) w).2).2.contexts.length := by
      rw [CancelFunc_call_contexts_length, hlen]
      omega
    obtain ⟨o3, ho3, hc3⟩ := cancelCtx_call_cancels
      ((NewContext (some c0) w).1.2.call (NewContext (some c0) w).2).2 w.contexts.length hlen2
    refine ⟨_, runWatcher_of_ready _ _ _ hw1 hready, ?_, ?_⟩
    · intro id hid
      show ((CancelFunc.cancelCtx w.contexts.length).call _).2.contexts[id]? = _
      rw [CancelFunc_call_contexts_other _ _ id (by
        intro e
        simp only [CancelFunc.cancelCtx.injEq] at e
        omega), hteardown id hid]
    · exact isDone_of_cancelled _ _ o3 ho3 hc3
  · intro hc
    subst hc
    have hcancel : (NewContext none w).1.2 = .cancelCtx w.contexts.length :=
      NewContext_cancel none w
    rw [hcancel]
    obtain ⟨o3, ho3, hc3⟩ := cancelCtx_call_cancels (NewContext none w).2 w.contexts.length
      (by rw [hlen]; omega)
    exact isDone_of_cancelled _ _ o3 ho3 hc3
  · intro w2 w3 i wt hrun hcan id hid
    apply runWatcher_contexts_other i w2 w3 wt hrun id
    rw [hcan]
    intro e
    simp only [CancelFunc.cancelCtx.injEq] at e
    exact hid e.symm

theorem countP_eraseIdx {α : Type} (p : α → Bool) (l : List α) (i : Nat) (x : α)
    (h : l[i]? = some x) :
    (l.eraseIdx i).countP p + (if p x then 1 else 0) = l.countP p := by
  induction l generalizing i with
  | nil => simp at h
  | cons y ys ih =>
    cases i with
    | zero =>
      simp only [List.getElem?_cons_zero, Option.some.injEq] at h
      subst h
      simp only [List.eraseIdx_cons_zero, List.countP_cons]
    | succ j =>
      simp only [List.getElem?_cons_succ] at h
      have := ih j h
      simp only [List.eraseIdx_cons_succ, List.countP_cons]
      omega

/-- One action keeps the store of contexts from shrinking, and the goroutines that hold
the cancel function of the context `d` are those that held it before: each that ran is
gone. -/
theorem step_cancel_count {σ : Type} (d : Nat) (a : Action) (w : World σ)
    (hd : d < w.contexts.length) :
    d < (World.step a w).1.contexts.length ∧
    (World.step a w).2.countP (fun wt => decide (wt.cancel = .cancelCtx d)) +
      (World.step a w).1.watchers.countP (fun wt => decide (wt.cancel = .cancelCtx d)) =
      w.watchers.countP (fun wt => decide (wt.cancel = .cancelCtx d)) := by
  cases a with
  | watcher i =>
    simp only [World.step]
    rcases hw : w.watchers[i]? with _ | wt
    · simp [World.runWatcher, hw, hd]
    · by_cases hr : wt.ready w = true
      · rw [runWatcher_of_ready i w wt hw hr]
        refine ⟨?_, ?_⟩
        · show d < (wt.cancel.call w).2.contexts.length
          rw [CancelFunc_call_contexts_length]
          exact hd
        · show List.countP _ [wt] + List.countP _ (w.watchers.eraseIdx i) = _
          have hh := countP_eraseIdx (fun wt => decide (wt.cancel = .cancelCtx d)) w.watchers
            i wt hw
          beta_reduce at hh
          simp only [List.countP_cons, List.countP_nil]
          omega
      · simp [World.runWatcher, hw, hr, hd]
  | call f =>
    simp only [World.step, CancelFunc_call_contexts_length, CancelFunc_call_watchers]
    exact ⟨hd, by simp⟩
  | newContext cc =>
    obtain ⟨o, ho, -, -⟩ := NewContext_contexts cc w
    simp only [World.step, ho, NewContext_watchers]
    refine ⟨by simp; omega, ?_⟩
    cases cc with
    | none => simp
    | some c =>
      have hne : ¬ w.contexts.length = d := by omega
      simp [List.countP_append, hne]
  | tick n =>
    simp only [World.step]
    exact ⟨hd, by simp⟩

theorem run_cancel_count {σ : Type} (d : Nat) (acts : List Action) (w : World σ)
    (hd : d < w.contexts.length) :
    (World.run acts w).2.countP (fun wt => decide (wt.cancel = .cancelCtx d)) ≤
      w.watchers.countP (fun wt => decide (wt.cancel = .cancelCtx d)) := by
  induction acts generalizing w with
  | nil => simp [World.run]
  | cons a rest ih =>
    obtain ⟨h1, h2⟩ := step_cancel_count d a w hd
    have := ih (World.step a w).1 h1
    simp only [World.run, List.countP_append]
    omega

/-- One action keeps this: the context `d` exists, and it is cancelled or the goroutine
`W`, which holds its cancel function, is still there. -/
theorem step_cancelled_or_pending {σ : Type} (d : Nat) (W : Watcher) (a : Action)
    (w : World σ) (hW : W.cancel = .cancelCtx d) (hd : d < w.contexts.length)
    (h : (∃ o, w.contexts[d]? = some o ∧ o.cancelled = true) ∨ W ∈ w.watchers) :
    d < (World.step a w).1.contexts.length ∧
    ((∃ o, (World.step a w).1.contexts[d]? = some o ∧ o.cancelled = true) ∨
      W ∈ (World.step a w).1.watchers) := by
  refine ⟨(step_cancel_count d a w hd).1, ?_⟩
  cases a with
  | watcher i =>
    simp only [World.step]
    rcases hw : w.watchers[i]? with _ | wt
    · simpa [World.runWatcher, hw] using h
    · by_cases hr : wt.ready w = true
      · rw [runWatcher_of_ready i w wt hw hr]
        show (∃ o, (wt.cancel.call w).2.contexts[d]? = some o ∧ o.cancelled = true) ∨
          W ∈ w.watchers.eraseIdx i
        rcases h with ⟨o, ho, hc⟩ | hmem
        · obtain ⟨o2, h1, h2, -⟩ := CancelFunc_call_cancelled wt.cancel w d o ho hc
          exact Or.inl ⟨o2, h1, h2⟩
        · obtain ⟨j, hj⟩ := List.mem_iff_getElem?.mp hmem
          by_cases hji : j = i
          · subst hji
            rw [hw] at hj
            simp only [Option.some.injEq] at hj
            subst hj
            rw [hW]
            exact Or.inl (cancelCtx_call_cancels w d hd)
          · exact Or.inr (List.mem_eraseIdx_iff_getElem?.mpr ⟨j, hji, hj⟩)
      · simpa [World.runWatcher, hw, hr] using h
  | call f =>
    simp only [World.step, CancelFunc_call_watchers]
    rcases h with ⟨o, ho, hc⟩ | hmem
    · obtain ⟨o2, h1, h2, -⟩ := CancelFunc_call_cancelled f w d o ho hc
      exact Or.inl ⟨o2, h1, h2⟩
    · exact Or.inr hmem
  | newContext cc =>
    obtain ⟨o, ho, -, -⟩ := NewContext_contexts cc w
    simp only [World.step, ho, NewContext_watchers, List.getElem?_append_left hd]
    rcases h with h | hmem
    · exact Or.inl h
    · right
      cases cc with
      | none => exact hmem
      | some c => exact List.mem_append_left _ hmem
  | tick n =>
    simpa [World.step] using h

theorem run_cancelled_or_pending {σ : Type} (d : Nat) (W : Watcher) (acts : List Action)
    (w : World σ) (hW : W.cancel = .cancelCtx d) (hd : d < w.contexts.length)
    (h : (∃ o, w.contexts[d]? = some o ∧ o.cancelled = true) ∨ W ∈ w.watchers) :
    d < (World.run acts w).1.contexts.length ∧
    ((∃ o, (World.run acts w).1.contexts[d]? = some o ∧ o.cancelled = true) ∨
      W ∈ (World.run acts w).1.watchers) := by
  induction acts generalizing w with
  | nil => exact ⟨hd, h⟩
  | cons a rest ih =>
    obtain ⟨h1, h2⟩ := step_cancelled_or_pending d W a w hW hd h
    exact ih (World.step a w).1 h1 h2

/-- C23: `NewContext` with a caller context starts one goroutine that holds the cancel
function of the new context.  Whatever happens afterwards (goroutines being scheduled,
cancel functions being called, the teardown among them or not, further calls of
`NewContext`, time passing): the goroutines that ran have called the cancel function of
the new context at most once; and in every world that is reached and in which the caller's
context is done, cancelled or past its deadline, the new context is done already, or the
goroutine is still there, can run, and leaves the new context done when it runs.  Older
goroutines are assumed to hold cancel functions of contexts that exist. -/
theorem NewContext_propagates_cancel {σ : Type} (cc : GoContext) (w : World σ)
    (acts : List Action)
    (hwf : ∀ wt ∈ w.watchers, ∀ id, wt.cancel = .cancelCtx id → id < w.contexts.length) :
    (NewContext (some cc) w).1.1 = .obj w.contexts.length ∧
    (World.run acts (NewContext (some cc) w).2).2.countP
      (fun wt => decide (wt.cancel = .cancelCtx w.contexts.length)) ≤ 1 ∧
    (cc.isDone (World.run acts (NewContext (some cc) w).2).1 = true →
      GoContext.isDone (World.run acts (NewContext (some cc) w).2).1
          (.obj w.contexts.length) = true ∨
      ∃ i w3, World.runWatcher i (World.run acts (NewContext (some cc) w).2).1 =
          some (w3, { clientContext := cc, cancelChan := w.chans.length,
                      cancel := .cancelCtx w.contexts.length }) ∧
        GoContext.isDone w3 (.obj w.contexts.length) = true) := by
  obtain ⟨o, ho, -, hobj⟩ := NewContext_contexts (some cc) w
  have hlen : w.contexts.length < (NewContext (some cc) w).2.contexts.length := by
    rw [ho]; simp
  have hwat : (NewContext (some cc) w).2.watchers =
      w.watchers ++ [{ clientContext := cc, cancelChan := w.chans.length,
                       cancel := .cancelCtx w.contexts.length }] :=
    NewContext_watchers (some cc) w
  refine ⟨hobj, ?_, ?_⟩
  · have h0 : w.watchers.countP (fun wt => decide (wt.cancel = .cancelCtx w.contexts.length))
        = 0 := by
      rw [List.countP_eq_zero]
      intro wt hwt
      simp only [decide_eq_true_eq]
      intro e
      exact Nat.lt_irrefl _ (hwf wt hwt _ e)
    have := run_cancel_count w.contexts.length acts (NewContext (some cc) w).2 hlen
    rw [hwat, List.countP_append, h0] at this
    simpa using this
  · intro hdone
    obtain ⟨h1, h2⟩ := run_cancelled_or_pending w.contexts.length
      { clientContext := cc, cancelChan := w.chans.length,
        cancel := .cancelCtx w.contexts.length } acts (NewContext (some cc) w).2 rfl hlen
      (Or.inr (by rw [hwat]; simp))
    rcases h2 with ⟨o2, ho2, hc2⟩ | hmem
    · exact Or.inl (isDone_of_cancelled _ _ o2 ho2 hc2)
    · right
      obtain ⟨i, hi⟩ := List.mem_iff_getElem?.mp hmem
      have hr : Watcher.ready (World.run acts (NewContext (some cc) w).2).1
          { clientContext := cc, cancelChan := w.chans.length,
            cancel := .cancelCtx w.contexts.length } = true := by
        simp only [Watcher.ready, hdone, Bool.true_or]
      refine ⟨i, _, runWatcher_of_ready i _ _ hi hr, ?_⟩
      obtain ⟨o3, ho3, hc3⟩ := cancelCtx_call_cancels
        (World.run acts (NewContext (some cc) w).2).1 w.contexts.length h1
      exact isDone_of_cancelled _ _ o3 ho3 hc3

theorem NewContext_propagates_cancel_witness :
    (∀ wt ∈ parentWorld.watchers, ∀ id, wt.cancel = .cancelCtx id →
      id < parentWorld.contexts.length) ∧
    (World.run [.call (.cancelCtx 0), .watcher 0]
      (NewContext (some (.obj 0)) parentWorld).2).2.countP
      (fun wt => decide (wt.cancel = .cancelCtx parentWorld.contexts.length)) ≤ 1 ∧
    GoContext.isDone (NewContext (some (.obj 0)) parentWorld).2 (.obj 1) = false ∧
    GoContext.isDone
      (World.run [.call (.cancelCtx 0), .watcher 0]
        (NewContext (some (.obj 0)) parentWorld).2).1 (.obj 1) = true ∧
    (World.run [.call (.cancelCtx 0), .watcher 0]
      (NewContext (some (.obj 0)) parentWorld).2).2 =
      [{ clientContext := .obj 0, cancelChan := 0, cancel := .cancelCtx 1 }] :=
  ⟨fun wt h => (by cases h),
    (NewContext_propagates_cancel (.obj 0) parentWorld [.call (.cancelCtx 0), .watcher 0]
      (fun wt h => (by cases h))).2.1,
    by decide, by decide, by decide⟩

/-! ## Requests to handlers whose result does not depend on the world -/

theorem World_after_refl {σ : Type} (w : World σ) : w.after w :=
  ⟨rfl, rfl, Nat.le_refl _, fun _ h => h⟩

theorem CancelFunc_call_settings {σ : Type} (f : CancelFunc) (w : World σ) :
    (f.call w).2.GeneratedReqIDBytesLen = w.GeneratedReqIDBytesLen ∧
    (f.call w).2.rand = w.rand := by
  cases f with
  | cancelCtx id =>
    simp only [CancelFunc.call]
    split <;> exact ⟨rfl, rfl⟩
  | closeChan ch =>
    simp only [CancelFunc.call]
    split <;> exact ⟨rfl, rfl⟩

theorem CancelFunc_call_chans_other {σ : Type} (f : CancelFunc) (w : World σ) (ch : Nat)
    (h : f ≠ .closeChan ch) : (f.call w).2.chans[ch]? = w.chans[ch]? := by
  cases f with
  | cancelCtx id =>
    simp only [CancelFunc.call]
    split <;> rfl
  | closeChan ch2 =>
    have hne : ch2 ≠ ch := fun e => h (by rw [e])
    simp only [CancelFunc.call]
    split
    · simp [List.getElem?_set, hne]
    · rfl
    · rfl

theorem NewContext_settings {σ : Type} (cc : Option GoContext) (w : World σ) :
    (NewContext cc w).2.GeneratedReqIDBytesLen = w.GeneratedReqIDBytesLen ∧
    (NewContext cc w).2.rand = w.rand := by
  cases cc with
  | none => exact ⟨rfl, rfl⟩
  | some c =>
    simp only [NewContext]
    rcases hd : c.Deadline w with _ | d <;> exact ⟨rfl, rfl⟩

/-- The world that `invoke` leaves, and its result when the deferred `cancel()` returns. -/
theorem invoke_world {σ V : Type} (svc : Service σ V) (ownerName : String) (c2 : Ctx)
    (req : Option V) (w w1 : World σ)
    (hw1 : w1 = { (NewContext c2.Context w).2 with
      ctxHeap := w.ctxHeap ++ [{ c2 with Context := some (NewContext c2.Context w).1.1,
                                         Svc := some svc.ptr, ClientName := ownerName }] }) :
    (client.Request.invoke ⟨some svc, ownerName⟩ c2 req w).2.1 =
      ((NewContext c2.Context w).1.2.call (svc.Handle w.ctxHeap.length req w1).2).2 ∧
    (((NewContext c2.Context w).1.2.call (svc.Handle w.ctxHeap.length req w1).2).1 = .ret () →
      (client.Request.invoke ⟨some svc, ownerName⟩ c2 req w).1 =
        (svc.Handle w.ctxHeap.length req w1).1) := by
  subst hw1
  constructor
  · simp only [client.Request.invoke, NewContext_ctxHeap, Option.map]
    split <;> rfl
  · intro hd
    simp only [client.Request.invoke, NewContext_ctxHeap, Option.map, hd]

/-- A handler that, in every world where `NewReqID` succeeds, returns `res` for the
request and leaves a world that comes after: `invoke` returns `res` and leaves such a
world. -/
theorem invoke_spec {σ V : Type} (svc : Service σ V) (ownerName : String) (c2 : Ctx)
    (req : Option V) (res : Option V × Option GoError) (w : World σ) (hgood : w.randomOK)
    (hH : ∀ (a : Addr) (w0 : World σ), w0.randomOK → a < w0.ctxHeap.length →
      (svc.Handle a req w0).1 = .ret res ∧ (svc.Handle a req w0).2.after w0) :
    (client.Request.invoke ⟨some svc, ownerName⟩ c2 req w).1 = .ret res ∧
    (client.Request.invoke ⟨some svc, ownerName⟩ c2 req w).2.1.after w := by
  obtain ⟨i1, i2⟩ := invoke_world svc ownerName c2 req w _ rfl
  obtain ⟨s1, s2⟩ := NewContext_settings c2.Context w
  have hg1 : World.randomOK { (NewContext c2.Context w).2 with
      ctxHeap := w.ctxHeap ++ [{ c2 with Context := some (NewContext c2.Context w).1.1,
                                         Svc := some svc.ptr, ClientName := ownerName }] } :=
    ⟨by show 0 ≤ (NewContext c2.Context w).2.GeneratedReqIDBytesLen; rw [s1]; exact hgood.1,
      fun k => by show ∃ src, (NewContext c2.Context w).2.rand k = _; rw [s2]; exact hgood.2 k⟩
  obtain ⟨h1, h2, h3, h4, h5⟩ := hH w.ctxHeap.length _ hg1 (by simp)
  have hchan : ∀ ch : Nat, w.chans[ch]? = some false →
      (NewContext c2.Context w).2.chans[ch]? = some false := by
    intro ch hch
    have hlt : ch < w.chans.length := by
      rcases Nat.lt_or_ge ch w.chans.length with h | h
      · exact h
      · rw [List.getElem?_eq_none h] at hch
        cases hch
    rw [NewContext_chans]
    cases c2.Context with
    | none => exact hch
    | some c => simpa [List.getElem?_append_left hlt] using hch
  have hret := NewContext_cancel_ret c2.Context w _ (fun ch hopen => h5 ch hopen)
  refine ⟨by rw [i2 hret]; exact h1, ?_⟩
  rw [i1]
  obtain ⟨t1, t2⟩ := CancelFunc_call_settings (NewContext c2.Context w).1.2
    (svc.Handle w.ctxHeap.length req _).2
  refine ⟨by rw [t1, h2]; exact s1, by rw [t2, h3]; exact s2, ?_, ?_⟩
  · rw [CancelFunc_call_ctxHeap]
    refine Nat.le_trans ?_ h4
    simp
  · intro ch hch
    have hlt : ch < w.chans.length := by
      rcases Nat.lt_or_ge ch w.chans.length with h | h
      · exact h
      · rw [List.getElem?_eq_none h] at hch
        cases hch
    rw [CancelFunc_call_chans_other]
    · exact h5 ch (hchan ch hch)
    · rw [NewContext_cancel]
      cases c2.Context with
      | none => intro e; cases e
      | some c =>
        intro e
        simp only [CancelFunc.closeChan.injEq] at e
        omega

/-- The same for `client.Request`, for a nil caller context or one that points into the
heap. -/
theorem Request_spec {σ V : Type} (svc : Service σ V) (ownerName : String)
    (req : Option V) (res : Option V × Option GoError) (c : Option Addr) (w : World σ)
    (hgood : w.randomOK) (hc : ∀ a, c = some a → a < w.ctxHeap.length)
    (hH : ∀ (a : Addr) (w0 : World σ), w0.randomOK → a < w0.ctxHeap.length →
      (svc.Handle a req w0).1 = .ret res ∧ (svc.Handle a req w0).2.after w0) :
    ((NewClient (some svc) ownerName).Request c req w).1 = .ret res ∧
    ((NewClient (some svc) ownerName).Request c req w).2.after w := by
  show (client.Request ⟨some svc, ownerName⟩ c req w).1 = .ret res ∧
    (client.Request ⟨some svc, ownerName⟩ c req w).2.1.after w
  have hcopy : ∃ ctx, client.Request.copy w c = some ctx := by
    cases c with
    | none => exact ⟨_, rfl⟩
    | some a => exact ⟨_, List.getElem?_eq_getElem (hc a rfl)⟩
  obtain ⟨ctx, hctx⟩ := hcopy
  by_cases hid : ctx.ReqID = ""
  · obtain ⟨src, hsrc⟩ := hgood.2 w.randCalls
    have hg := NewReqID_of_fill w src hgood.1 hsrc
    rw [Request_of_generated ⟨some svc, ownerName⟩ c ctx req w _ _ hctx hid hg]
    have hg1 : World.randomOK { w with randCalls := w.randCalls + 1 } := hgood
    obtain ⟨r1, r2⟩ := invoke_spec svc ownerName
      { ctx with ReqID := fmtHex ((List.range w.GeneratedReqIDBytesLen.toNat).map
        (fun i => src i % 256)) } req res { w with randCalls := w.randCalls + 1 } hg1 hH
    exact ⟨r1, r2⟩
  · rw [Request_of_nonempty ⟨some svc, ownerName⟩ c ctx req w hctx hid]
    exact invoke_spec svc ownerName ctx req res w hgood hH

/-! ## examples/example1 -/

theorem example1_svc1_Handle {σ : Type} (p : String) (a : Addr) (w0 : World σ) :
    (example1.svc1 : Service σ (GoValue String)).Handle a (some (api.svc1.Req p)) w0 =
      (.ret (some (api.svc1.Resp ("svc1_" ++ p)), none), w0) := by
  simp [example1.svc1, svc1.svc.Handle, api.svc1.Req]

theorem example1_svc2_Handle {σ : Type} (p : String) (a : Addr) (w0 : World σ)
    (hg : w0.randomOK) (ha : a < w0.ctxHeap.length) :
    ((example1.svc2 : Service σ (GoValue String)).Handle a (some (api.svc2.Req p)) w0).1 =
      .ret (some (api.svc2.Resp ("svc2_svc1_" ++ p)), none) ∧
    ((example1.svc2 : Service σ (GoValue String)).Handle a (some (api.svc2.Req p)) w0).2.after
      w0 := by
  obtain ⟨r1, r2⟩ := Request_spec (example1.svc1 : Service σ (GoValue String)) "svc2"
    (some (api.svc1.Req p)) (some (api.svc1.Resp ("svc1_" ++ p)), none) (some a) w0 hg
    (fun b hb => by cases hb; exact ha)
    (fun b w1 _ _ => by
      rw [example1_svc1_Handle]
      exact ⟨rfl, World_after_refl w1⟩)
  have hH : (example1.svc2 : Service σ (GoValue String)).Handle a (some (api.svc2.Req p)) w0 =
      svc2.svc.handleReq example1.svc2Struct a (api.svc2.Req p) w0 := by
    simp [example1.svc2, svc2.svc.Handle, api.svc2.Req]
  rw [hH]
  simp only [svc2.svc.handleReq, example1.svc2Struct]
  rcases hq : (NewClient (some (example1.svc1 : Service σ (GoValue String))) "svc2").Request
      (some a) (some (api.svc1.Req (api.svc2.Req p).data)) w0 with ⟨o, w2⟩
  have hq2 : (NewClient (some (example1.svc1 : Service σ (GoValue String))) "svc2").Request
      (some a) (some (api.svc1.Req p)) w0 = (o, w2) := hq
  rw [hq2] at r1 r2
  simp only at r1 r2
  subst r1
  have hs : "svc2_" ++ (api.svc1.Resp ("svc1_" ++ p)).data = "svc2_svc1_" ++ p := by
    show "svc2_" ++ ("svc1_" ++ p) = "svc2_svc1_" ++ p
    rw [← String.append_assoc]
    rfl
  simp only [api.svc1.Resp, if_true] at hs ⊢
  exact ⟨by rw [hs], r2⟩

theorem example1_svc2_Handle_bad {σ : Type} (req : Option (GoValue String)) (a : Addr)
    (w0 : World σ)
    (h : ∀ r, req = some r → r.typ ≠ .ptr (.named "svc2.Req") ∧
      r.typ ≠ .ptr (.named "svc2.GetReq")) :
    (example1.svc2 : Service σ (GoValue String)).Handle a req w0 =
      (.ret (none, some BadReqTypeError), w0) := by
  cases req with
  | none => rfl
  | some r =>
    obtain ⟨h1, h2⟩ := h r rfl
    simp [example1.svc2, svc2.svc.Handle, h1, h2]

theorem example1_lookup {σ : Type} :
    (example1.registry : serviceSet σ (GoValue String)).LookupService "svc1" =
      (some example1.svc1, none) ∧
    (example1.registry : serviceSet σ (GoValue String)).LookupService "svc2" =
      (some example1.svc2, none) ∧
    (example1.registry : serviceSet σ (GoValue String)).LookupService "svc3" =
      (some example1.svc3, none) ∧
    (example1.registry : serviceSet σ (GoValue String)).LookupService "svc4" =
      (some example1.svc4, none) :=
  ⟨rfl, rfl, rfl, rfl⟩

theorem example1_Init {σ : Type} (printable : Char → Bool) (p2 : svc2.svc σ) (p3 : svc3.svc σ) :
    svc2.svc.Init p2 (NewClientSet printable example1.registry.toServiceSet "svc2") =
      .ret example1.svc2Struct ∧
    svc3.svc.Init p3 (NewClientSet printable example1.registry.toServiceSet "svc3") =
      .ret example1.svc3Struct := by
  obtain ⟨l1, -, l3, l4⟩ := @example1_lookup σ
  constructor
  · simp only [svc2.svc.Init, NewClientSet, clientSet.LookupClient, serviceSet.toServiceSet,
      l1, l3]
    rfl
  · simp only [svc3.svc.Init, NewClientSet, clientSet.LookupClient, serviceSet.toServiceSet, l4]
    rfl

theorem example1_NewServiceSet {σ : Type} (printable : Char → Bool) (w : World σ) :
    (NewServiceSet printable example1.services w).1 = .ret example1.registry ∧
    (NewServiceSet printable example1.services w).2.1 = w := by
  obtain ⟨i2, i3⟩ := @example1_Init σ printable example1.svc2Struct example1.svc3Struct
  have i2b : svc2.svc.Init example1.svc2Struct
      (NewClientSet printable (serviceSet.toServiceSet
        (NewServiceSet.index (example1.services : List (Service σ (GoValue String))) []))
        "svc2") = .ret example1.svc2Struct := i2
  have i3b : svc3.svc.Init example1.svc3Struct
      (NewClientSet printable (serviceSet.toServiceSet
        (NewServiceSet.index (example1.services : List (Service σ (GoValue String))) []))
        "svc3") = .ret example1.svc3Struct := i3
  have hloop : NewServiceSet.initLoop printable
      (NewServiceSet.index (example1.services : List (Service σ (GoValue String))) [])
      example1.services w =
      (.ret (), w, [Event.Init 2 "svc2" (.ret none), Event.Init 3 "svc3" (.ret none)]) := by
    simp only [example1.services, NewServiceSet.initLoop, example1.svc1, example1.svc4]
    simp only [example1.svc2, example1.svc3]
    have i2c := i2b
    have i3c := i3b
    simp only [example1.services, example1.svc1, example1.svc4, example1.svc2,
      example1.svc3] at i2c i3c
    simp only [i2c, i3c]
  have hfin : NewServiceSet.initFinishedLoop printable
      (example1.services : List (Service σ (GoValue String))) w = (.ret (), w, []) := by
    simp only [example1.services, NewServiceSet.initFinishedLoop, example1.svc1,
      example1.svc2, example1.svc3, example1.svc4]
  simp [NewServiceSet, hloop, hfin, example1.registry]

/-- C25: passing the four example services to `NewServiceSet` returns their registry,
and the clients that `Init` stores in `svc2` and `svc3` are those of this registry.
Where `NewReqID` succeeds and the caller context is nil or points into the heap, for
every string `p`: through a client of the registry, `svc1` answers `Req{Param: p}` with
`Resp{Value: "svc1_" + p}` and a nil error, `svc2` answers `Req{Param: p}` with
`Resp{Value: "svc2_svc1_" + p}` and a nil error, and `svc2` answers a request that is
neither a `*svc2.Req` nor a `*svc2.GetReq` with `nano.BadReqTypeError`, whose message is
`bad request type`. -/
theorem example1_requests {σ : Type} (printable : Char → Bool) (p : String)
    (c : Option Addr) (w : World σ) (hgood : w.randomOK)
    (hc : ∀ a, c = some a → a < w.ctxHeap.length) :
    ((NewServiceSet printable example1.services w).1 = .ret example1.registry ∧
      (NewServiceSet printable example1.services w).2.1 = w) ∧
    (svc2.svc.Init {}
        (NewClientSet printable
          (example1.registry : serviceSet σ (GoValue String)).toServiceSet "svc2") =
        .ret example1.svc2Struct ∧
      svc3.svc.Init {}
        (NewClientSet printable
          (example1.registry : serviceSet σ (GoValue String)).toServiceSet "svc3") =
        .ret example1.svc3Struct) ∧
    ((NewClientSet printable (example1.registry : serviceSet σ (GoValue String)).toServiceSet
        "test").LookupClient "svc1" = .ret (NewClient (some example1.svc1) "test") ∧
      ((NewClient (some example1.svc1) "test").Request c (some (api.svc1.Req p)) w).1 =
        .ret (some (api.svc1.Resp ("svc1_" ++ p)), none)) ∧
    ((NewClientSet printable (example1.registry : serviceSet σ (GoValue String)).toServiceSet
        "test").LookupClient "svc2" = .ret (NewClient (some example1.svc2) "test") ∧
      ((NewClient (some example1.svc2) "test").Request c (some (api.svc2.Req p)) w).1 =
        .ret (some (api.svc2.Resp ("svc2_svc1_" ++ p)), none) ∧
      ∀ req : Option (GoValue String),
        (∀ r, req = some r → r.typ ≠ .ptr (.named "svc2.Req") ∧
          r.typ ≠ .ptr (.named "svc2.GetReq")) →
        ((NewClient (some example1.svc2) "test").Request c req w).1 =
          .ret (none, some BadReqTypeError)) ∧
    BadReqTypeError.Error = "bad request type" := by
  obtain ⟨l1, l2, -, -⟩ := @example1_lookup σ
  refine ⟨example1_NewServiceSet printable w, example1_Init printable {} {}, ⟨?_, ?_⟩,
    ⟨?_, ?_, ?_⟩, rfl⟩
  · simp only [NewClientSet, clientSet.LookupClient, serviceSet.toServiceSet, l1]
  · exact (Request_spec example1.svc1 "test" _ _ c w hgood hc
      (fun a w0 _ _ => by rw [example1_svc1_Handle]; exact ⟨rfl, World_after_refl w0⟩)).1
  · simp only [NewClientSet, clientSet.LookupClient, serviceSet.toServiceSet, l2]
  · exact (Request_spec example1.svc2 "test" _ _ c w hgood hc
      (fun a w0 hg ha => example1_svc2_Handle p a w0 hg ha)).1
  · intro req hreq
    exact (Request_spec example1.svc2 "test" req _ c w hgood hc
      (fun a w0 _ _ => by
        rw [example1_svc2_Handle_bad req a w0 hreq]
        exact ⟨rfl, World_after_refl w0⟩)).1

theorem example1_requests_witness :
    sampleWorld.randomOK ∧
    ((NewClient (some example1.svc1) "test").Request none (some (api.svc1.Req "x"))
      sampleWorld).1 = .ret (some (api.svc1.Resp "svc1_x"), none) ∧
    ((NewClient (some example1.svc2) "test").Request none (some (api.svc2.Req "y"))
      sampleWorld).1 = .ret (some (api.svc2.Resp "svc2_svc1_y"), none) ∧
    ((NewClient (some example1.svc2) "test").Request none none sampleWorld).1 =
      .ret (none, some { Error := "bad request type" }) :=
  ⟨⟨by decide, fun _ => ⟨_, rfl⟩⟩,
    (example1_requests noWidePrintable "x" none sampleWorld
      ⟨by decide, fun _ => ⟨_, rfl⟩⟩ (fun a h => by cases h)).2.2.1.2,
    (example1_requests noWidePrintable "y" none sampleWorld
      ⟨by decide, fun _ => ⟨_, rfl⟩⟩ (fun a h => by cases h)).2.2.2.1.2.1,
    (example1_requests noWidePrintable "y" none sampleWorld
      ⟨by decide, fun _ => ⟨_, rfl⟩⟩ (fun a h => by cases h)).2.2.2.1.2.2 none
      (fun r h => by cases h)⟩

end nano
